import Mathlib

/-!
# Unit-of-Work and ranking batch of the blog API

A shallow embedding of the transactional core of the repository:

* `app/infra/db/rdb/db.go`: `DB.Begin`, `DefaultTransactionManager.Transaction`, `GetTx`;
* `app/infra/dao/ranking.go`: `rankingRepository.SaveRankings`;
* `app/infra/query/blog_stats.go`: `BlogStats.GetBlogRankingData`;
* `app/usecase/ranking.go`: `RankingUseCase.CalculatePopularRanking`;
* `app/ui/http/mutex.go`: `Mutex.Lock`; `app/ui/batch/ranking.go`: the batch handler;
* `app/infra/dao/blog.go`, `comment.go`, `user.go`: the Blog, Comment and User
  repositories, over a second storage state `Store` that holds the entity tables.

The storage engine is external to the repository.  It is modelled as a state `Db`
that is passed explicitly: the committed tables, the open transactions with their
pending statements, a schedule of outcomes for the coming storage calls (every call
that reaches the engine consumes one entry and fails when the entry holds an error)
and a log of the calls made so far.  Go `int` values are `Int`; the only arithmetic
on them is `i + 1` on a slice index, which cannot overflow.
-/

namespace Myblog

/-! ## Go errors -/

/-- A Go `error` value: `sentinel msg` is an error made by `errors.New msg` or handed
out by the driver; `errorf pre wrapped post` is the value of a `fmt.Errorf` call whose
format holds one `%w` verb: `pre` is the text before the verb, `wrapped` its operand and
`post` the text after it (other verbs already rendered); `global pkg name msg` is the
value of the package-level variable `name` of package `pkg`, set to `errors.New msg`:
two such variables hold different values even when their messages agree. -/
inductive GoError where
  | sentinel (msg : String)
  | errorf (pre : String) (wrapped : GoError) (post : String)
  | global (pkg : String) (name : String) (msg : String)
  deriving DecidableEq, Repr

/-- The method `Error()`: the message of the error. -/
def GoError.Error : GoError → String
  | .sentinel msg => msg
  | .errorf pre wrapped post => pre ++ wrapped.Error ++ post
  | .global _ _ msg => msg

/-- The method `Unwrap()` that `fmt.Errorf` gives an error built with `%w`. -/
def GoError.Unwrap : GoError → Option GoError
  | .sentinel _ => none
  | .errorf _ wrapped _ => some wrapped
  | .global _ _ _ => none

/-- The function `errors.Is`: `target` is `err` or is met on the `Unwrap` chain of `err`. -/
def errorsIs : GoError → GoError → Bool
  | .sentinel msg, target => decide (GoError.sentinel msg = target)
  | .errorf pre wrapped post, target =>
    decide (GoError.errorf pre wrapped post = target) || errorsIs wrapped target
  | .global pkg name msg, target => decide (GoError.global pkg name msg = target)

/-- The error `sql.ErrTxDone` of `database/sql`. -/
def ErrTxDone : GoError :=
  .sentinel "sql: transaction has already been committed or rolled back"

/-! ## Execution context -/

/-- Keys of context values: `txKey` is the unexported `txKey{}` of package `rdb`. -/
inductive CtxKey where
  | txKey
  | other (name : String)
  deriving DecidableEq, Repr

/-- Values stored in a context: a `*sqlx.Tx` handle or anything else. -/
inductive CtxValue where
  | tx (handle : Nat)
  | other (v : String)
  deriving DecidableEq, Repr

/-- A `context.Context`, as far as its values go. -/
inductive Context where
  | background
  | withValue (parent : Context) (key : CtxKey) (val : CtxValue)
  deriving DecidableEq, Repr

/-- The method `ctx.Value(key)`: the innermost value stored under `key`. -/
def Context.Value : Context → CtxKey → Option CtxValue
  | .background, _ => none
  | .withValue parent key val, k => if key = k then some val else parent.Value k

/-- The function `GetTx` of `db.go`: `ctx.Value(txKey{}).(*sqlx.Tx)`, the pair
`(tx, ok)` being `some tx` when `ok` holds. -/
def GetTx (ctx : Context) : Option Nat :=
  match ctx.Value .txKey with
  | some (.tx handle) => some handle
  | _ => none

/-! ## Storage -/

/-- A row of table `rankings`. -/
structure RankingRow where
  blogId : String
  rankingPosition : Int
  score : Int
  createdAt : Nat
  updatedAt : Nat
  deriving DecidableEq, Repr

/-- A row of table `comments`, as far as the ranking query reads it. -/
structure CommentRow where
  blogId : String
  createdAt : Int
  deriving DecidableEq, Repr

/-- The statements `SaveRankings` issues. -/
inductive Stmt where
  | deleteRankings
  | insertRanking (row : RankingRow)
  deriving DecidableEq, Repr

/-- A call that reaches the storage engine. -/
inductive Call where
  | begin (tx : Nat)
  | exec (tx : Nat) (stmt : Stmt)
  | commit (tx : Nat)
  | rollback (tx : Nat)
  | query (days : Int)
  | rowsNext
  | rowsScan
  deriving DecidableEq, Repr

/-- A logged call with its outcome (`none`: the call succeeded). -/
structure LogEntry where
  call : Call
  err : Option GoError
  deriving DecidableEq, Repr

/-- A transaction handle of the engine: whether it was committed or rolled back, and
the statements it holds pending. -/
structure TxState where
  done : Bool
  ops : List Stmt
  deriving DecidableEq, Repr

/-- The storage engine together with the clocks the code reads. -/
structure Db where
  /-- The ids of table `blogs`, in the row order of the engine. -/
  blogs : List String
  comments : List CommentRow
  /-- The value of SQL `NOW()`, in seconds. -/
  now : Int
  /-- The committed content of table `rankings`. -/
  rankings : List RankingRow
  /-- The transactions begun so far; a handle is an index into this list. -/
  txs : List TxState
  /-- The outcomes of the coming storage calls; once exhausted every call succeeds. -/
  faults : List (Option GoError)
  log : List LogEntry
  /-- The value of `time.Now()`. -/
  clock : Nat
  deriving DecidableEq, Repr

/-- The outcome the engine gives the next call. -/
def Db.fault (db : Db) : Option GoError :=
  match db.faults with
  | [] => none
  | f :: _ => f

/-- The engine after answering call `c`: one outcome is consumed, the call is logged. -/
def Db.step (db : Db) (c : Call) : Db :=
  { db with faults := db.faults.tail, log := db.log ++ [⟨c, db.fault⟩] }

/-- The method `DB.Begin` (`d.db.Beginx()`): a fresh handle, or the driver error. -/
def Db.Begin (db : Db) : Except GoError Nat × Db :=
  match db.fault with
  | some e => (.error e, db.step (.begin db.txs.length))
  | none =>
    (.ok db.txs.length,
      { db.step (.begin db.txs.length) with txs := db.txs ++ [⟨false, []⟩] })

/-- Whether handle `tx` exists and was neither committed nor rolled back. -/
def Db.txOpen (db : Db) (tx : Nat) : Bool :=
  match db.txs[tx]? with
  | some t => !t.done
  | none => false

/-- A call on a finished handle: `database/sql` answers `ErrTxDone` itself. -/
def Db.refuse (db : Db) (c : Call) : Option GoError × Db :=
  (some ErrTxDone, { db with log := db.log ++ [⟨c, some ErrTxDone⟩] })

/-- The method `tx.Exec`: on success the statement is pending on the handle. -/
def Db.Exec (db : Db) (tx : Nat) (stmt : Stmt) : Option GoError × Db :=
  if db.txOpen tx then
    match db.fault with
    | some e => (some e, db.step (.exec tx stmt))
    | none =>
      (none, { db.step (.exec tx stmt) with
                 txs := db.txs.modify (fun t => { t with ops := t.ops ++ [stmt] }) tx })
  else db.refuse (.exec tx stmt)

/-- The effect of one committed statement on table `rankings`. -/
def applyStmt (table : List RankingRow) : Stmt → List RankingRow
  | .deleteRankings => []
  | .insertRanking row => table ++ [row]

/-- The pending statements of handle `tx`. -/
def Db.pending (db : Db) (tx : Nat) : List Stmt :=
  match db.txs[tx]? with
  | some t => t.ops
  | none => []

/-- The method `tx.Commit`: the handle is finished either way; on success its pending
statements take effect on the committed table, on failure none of them does. -/
def Db.Commit (db : Db) (tx : Nat) : Option GoError × Db :=
  if db.txOpen tx then
    match db.fault with
    | some e =>
      (some e, { db.step (.commit tx) with
                   txs := db.txs.modify (fun t => { t with done := true }) tx })
    | none =>
      (none, { db.step (.commit tx) with
                 txs := db.txs.modify (fun t => { t with done := true }) tx
                 rankings := (db.pending tx).foldl applyStmt db.rankings })
  else db.refuse (.commit tx)

/-- The method `tx.Rollback`: the handle is finished and its pending statements are
dropped; the committed table is not touched. -/
def Db.Rollback (db : Db) (tx : Nat) : Option GoError × Db :=
  if db.txOpen tx then
    (db.fault, { db.step (.rollback tx) with
                   txs := db.txs.modify (fun t => { t with done := true }) tx })
  else db.refuse (.rollback tx)

/-- The function `time.Now()`: the clock is read and moves on. -/
def timeNow (db : Db) : Nat × Db :=
  (db.clock, { db with clock := db.clock + 1 })

/-! ## Unit-of-Work: `db.go` -/

/-- The method `DefaultTransactionManager.Transaction` of `db.go`. -/
def Transaction (ctx : Context) (fn : Context → Db → Option GoError × Db) (db : Db) :
    Option GoError × Db :=
  match db.Begin with
  | (.error err, db1) => (some (.errorf "failed to begin transaction: " err ""), db1)
  | (.ok tx, db1) =>
    match fn (ctx.withValue .txKey (.tx tx)) db1 with
    | (some err, db2) =>
      match db2.Rollback tx with
      | (some rbErr, db3) =>
        (some (.errorf "failed to rollback transaction: " rbErr
                (" (original error: " ++ err.Error ++ ")")), db3)
      | (none, db3) => (some err, db3)
    | (none, db2) =>
      match db2.Commit tx with
      | (some err, db3) => (some (.errorf "failed to commit transaction: " err ""), db3)
      | (none, db3) => (none, db3)

/-! ## Domain model -/

/-- The type `blog.ID`. -/
structure ID where
  value : String
  deriving DecidableEq, Repr

/-- The method `ID.String`. -/
def ID.String (id : ID) : String := id.value

/-- Modelled from the spec: `blog.NewID` and `blog.ID`, whose file
`app/domain/model/blog/id.go` is not among the sources.  The spec does not describe
them; the definition follows the sibling `comment.NewID` of
`app/domain/model/comment/id.go`, which rejects the empty string and keeps any other
value as it is. -/
def NewID (value : String) : Except GoError ID :=
  if value = "" then .error (.sentinel "IDが空です") else .ok ⟨value⟩

/-- The struct `ranking.Ranking`; a `time.Time` is its number of clock ticks, the zero
time being `0`. -/
structure Ranking where
  BlogID : ID
  RankingPosition : Int
  Score : Int
  CreatedAt : Nat
  UpdatedAt : Nat
  deriving DecidableEq, Repr

/-- The constructor `ranking.NewRanking`: both times are left at the zero value. -/
def NewRanking (blogID : ID) (rankingPosition : Int) (score : Int) : Ranking :=
  { BlogID := blogID, RankingPosition := rankingPosition, Score := score,
    CreatedAt := 0, UpdatedAt := 0 }

/-! ## Ranking aggregation query: `blog_stats.go` -/

/-- The struct `query.BlogRankingData`. -/
structure BlogRankingData where
  BlogID : String
  CommentCount : Int
  TotalScore : Int
  deriving DecidableEq, Repr

/-- The condition `created_at >= DATE_SUB(NOW(), INTERVAL ? DAY)` of the subquery. -/
def inWindow (db : Db) (days : Int) (c : CommentRow) : Bool :=
  decide (db.now - days * 86400 ≤ c.createdAt)

/-- The subquery `c`: `SELECT blog_id, COUNT(*) FROM comments WHERE ... GROUP BY blog_id`,
one row for every blog id that has a comment in the window. -/
def commentCounts (db : Db) (days : Int) : List (String × Int) :=
  ((db.comments.filter (inWindow db days)).map (fun c => c.blogId)).dedup.map
    (fun k => (k, ((db.comments.filter (inWindow db days)).countP
      (fun c => c.blogId == k) : Int)))

/-- One row of `blogs b LEFT JOIN c ON b.id = c.blog_id` with the selected columns:
`COALESCE(c.comment_count, 0)` twice. -/
def joinRow (counts : List (String × Int)) (b : String) : BlogRankingData :=
  match counts.lookup b with
  | some n => ⟨b, n, n⟩
  | none => ⟨b, 0, 0⟩

/-- The result set of the query of `GetBlogRankingData`: the joined rows under
`ORDER BY total_score DESC`.  The engine is free to order rows of equal score; here
they keep the row order of `blogs`, an order that ranges over every possibility as
`db.blogs` ranges over every list. -/
def rankingQueryRows (db : Db) (days : Int) : List BlogRankingData :=
  (db.blogs.map (joinRow (commentCounts db days))).insertionSort
    (fun a b => b.TotalScore ≤ a.TotalScore)

/-- The loop `for rows.Next() ... rows.Scan(...) ... append` of `GetBlogRankingData`
over the rows still to be delivered.  A failing `rows.Next()` returns `false` and ends
the loop like the end of the rows does: the code never consults `rows.Err()`. -/
def scanRows : List BlogRankingData → Db → Except GoError (List BlogRankingData) × Db
  | [], db => (.ok [], db.step .rowsNext)
  | row :: rest, db =>
    match db.fault with
    | some _ => (.ok [], db.step .rowsNext)
    | none =>
      match (db.step .rowsNext).fault with
      | some err => (.error err, (db.step .rowsNext).step .rowsScan)
      | none =>
        match scanRows rest ((db.step .rowsNext).step .rowsScan) with
        | (.error err, db2) => (.error err, db2)
        | (.ok result, db2) => (.ok (row :: result), db2)

/-- The method `BlogStats.GetBlogRankingData`; `b.db.Read(ctx)` is the pool whatever
the context holds. -/
def GetBlogRankingData (_ctx : Context) (days : Int) (db : Db) :
    Except GoError (List BlogRankingData) × Db :=
  match db.fault with
  | some err => (.error err, db.step (.query days))
  | none => scanRows (rankingQueryRows db days) (db.step (.query days))

/-! ## Ranking repository: `dao/ranking.go` -/

/-- The insert statement of `SaveRankings` for one entry, once both `time.Now()`
arguments are evaluated. -/
def insertStmt (rank : Ranking) (createdAt updatedAt : Nat) : Stmt :=
  .insertRanking
    { blogId := rank.BlogID.String, rankingPosition := rank.RankingPosition,
      score := rank.Score, createdAt := createdAt, updatedAt := updatedAt }

/-- The loop `for _, rank := range rankings` of `SaveRankings`: one `tx.Exec` per entry,
left at the first error. -/
def insertRankings (tx : Nat) : List Ranking → Db → Option GoError × Db
  | [], db => (none, db)
  | rank :: rest, db =>
    match ((timeNow (timeNow db).2).2).Exec tx
        (insertStmt rank (timeNow db).1 (timeNow (timeNow db).2).1) with
    | (some err, db1) => (some err, db1)
    | (none, db1) => insertRankings tx rest db1

/-- The body of `SaveRankings` after `Begin`: the delete, then the inserts. -/
def saveRankingsBody (tx : Nat) (rankings : List Ranking) (db : Db) :
    Option GoError × Db :=
  match db.Exec tx .deleteRankings with
  | (some err, db1) => (some err, db1)
  | (none, db1) => insertRankings tx rankings db1

/-- The method `rankingRepository.SaveRankings`.  The context is not read: the method
begins a transaction of its own on `r.db`, and its deferred function rolls that
transaction back when `err` is set and commits it otherwise, dropping the result of
`Rollback` and of `Commit`. -/
def SaveRankings (_ctx : Context) (rankings : List Ranking) (db : Db) :
    Option GoError × Db :=
  match db.Begin with
  | (.error err, db1) => (some err, db1)
  | (.ok tx, db1) =>
    match saveRankingsBody tx rankings db1 with
    | (some err, db2) => (some err, (db2.Rollback tx).2)
    | (none, db2) => (none, (db2.Commit tx).2)

/-! ## Ranking use case: `usecase/ranking.go` -/

/-- The loop of `CalculatePopularRanking` that builds the entries: `i` is the index of
the first element of the list in `blogStats`. -/
def buildRankings (i : Nat) : List BlogRankingData → Except GoError (List Ranking)
  | [] => .ok []
  | stat :: rest =>
    match NewID stat.BlogID with
    | .error err => .error (.errorf "ブログIDのパースに失敗しました: " err "")
    | .ok blogID =>
      match buildRankings (i + 1) rest with
      | .error err => .error err
      | .ok rankings => .ok (NewRanking blogID ((i : Int) + 1) stat.TotalScore :: rankings)

/-- The work function `CalculatePopularRanking` hands to `Transaction`. -/
def saveWork (rankings : List Ranking) (ctx : Context) (db : Db) : Option GoError × Db :=
  match SaveRankings ctx rankings db with
  | (some err, db1) => (some (.errorf "ランキングの保存に失敗しました: " err ""), db1)
  | (none, db1) => (none, db1)

/-- The method `RankingUseCase.CalculatePopularRanking`. -/
def CalculatePopularRanking (ctx : Context) (days : Int) (db : Db) : Option GoError × Db :=
  match GetBlogRankingData ctx days db with
  | (.error err, db1) =>
    (some (.errorf "ブログ統計データの取得に失敗しました: " err ""), db1)
  | (.ok blogStats, db1) =>
    match buildRankings 0 blogStats with
    | .error err => (some err, db1)
    | .ok rankings => Transaction ctx (saveWork rankings) db1

/-! ## Observations on a run -/

/-- The content of a ranking row, timestamps aside: blog id, position, score. -/
def RankingRow.content (r : RankingRow) : String × Int × Int :=
  (r.blogId, r.rankingPosition, r.score)

/-- The content of a ranking entry, timestamps aside. -/
def Ranking.content (r : Ranking) : String × Int × Int :=
  (r.BlogID.String, r.RankingPosition, r.Score)

/-- A storage engine holding the given tables, with no transaction begun, no call
logged and no failure scheduled. -/
def Db.healthy (blogs : List String) (comments : List CommentRow) (now : Int)
    (rankings : List RankingRow) : Db :=
  { blogs := blogs, comments := comments, now := now, rankings := rankings,
    txs := [], faults := [], log := [], clock := 0 }


/-- A work function that fails at once, without touching the storage. -/
def failingWork (e : GoError) (_ctx : Context) (db : Db) : Option GoError × Db :=
  (some e, db)

/-- A work function that succeeds at once, without touching the storage. -/
def idleWork (_ctx : Context) (db : Db) : Option GoError × Db :=
  (none, db)

/-- The rows the loop of `SaveRankings` inserts for the given entries when the clock
reads `clock` at its start: each insert reads the clock twice. -/
def stampedRows : List Ranking → Nat → List RankingRow
  | [], _ => []
  | rank :: rest, clock =>
    { blogId := rank.BlogID.String, rankingPosition := rank.RankingPosition,
      score := rank.Score, createdAt := clock, updatedAt := clock + 1 } ::
      stampedRows rest (clock + 2)

/-- Whether a call belongs to the aggregation query: the query itself and the reads
of its rows. -/
def Call.isRead : Call → Bool
  | .query _ => true
  | .rowsNext => true
  | .rowsScan => true
  | _ => false

/-- The row a log entry made durable, if any, within the stretch `entries` of the log:
the row of a successful insert issued on a handle whose `Commit` succeeded in
`entries`. -/
def persistedRow (entries : List LogEntry) : LogEntry → Option RankingRow
  | ⟨.exec tx (.insertRanking row), none⟩ =>
    if (⟨.commit tx, none⟩ : LogEntry) ∈ entries then some row else none
  | _ => none

/-- The ranking rows a stretch of the log made durable, in the order of their inserts. -/
def persistedRows (entries : List LogEntry) : List RankingRow :=
  entries.filterMap (persistedRow entries)

/-- The calls logged between two states of the engine. -/
def callsSince (before after : Db) : List LogEntry :=
  after.log.drop before.log.length

/-- The order the spec asks of ranking rows: a row of greater score has a smaller
position. -/
def ScoreOrdered (rows : List RankingRow) : Prop :=
  ∀ a ∈ rows, ∀ b ∈ rows, b.score < a.score → a.rankingPosition < b.rankingPosition

/-- The content the spec gives the ranking rows built from the blogs the query
returned: the blog at index `i` (0-based) gets position `i + 1` and the score the
query computed. -/
def rankedContent (stats : List BlogRankingData) : List (String × Int × Int) :=
  (stats.enumFrom 0).map (fun p => (p.2.BlogID, (p.1 : Int) + 1, p.2.TotalScore))

/-- The number of comments of blog `b` created inside the window of `days` days. -/
def commentsInWindow (db : Db) (days : Int) (b : String) : Nat :=
  (db.comments.filter (fun c => decide (c.blogId = b) && inWindow db days c)).length

/-- A row of a previous generation of the ranking table. -/
def previousRow : RankingRow :=
  { blogId := "B0", rankingPosition := 1, score := 9, createdAt := 0, updatedAt := 0 }

/-- The scenario of the spec: blogs `B1`, `B2`, `B3` with 3, 5 and 0 comments inside a
window of 7 days (the only comment of `B3` is older), a previous generation in the
ranking table, and a storage that answers every call. -/
def scenarioDb : Db :=
  Db.healthy ["B1", "B2", "B3"]
    [⟨"B1", 999000⟩, ⟨"B2", 999100⟩, ⟨"B2", 999200⟩, ⟨"B1", 999300⟩, ⟨"B2", 999400⟩,
      ⟨"B3", 0⟩, ⟨"B2", 999500⟩, ⟨"B1", 999600⟩, ⟨"B2", 999700⟩]
    1000000 [previousRow]

/-- One blog without comments, an empty ranking table, and a storage on which the ninth
call fails: in a run of `CalculatePopularRanking` that is the `Commit` of
`SaveRankings`. -/
def lostCommitDb : Db :=
  { Db.healthy ["B1"] [] 0 [] with
      faults := [none, none, none, none, none, none, none, none,
        some (.sentinel "bad connection")] }

/-- One blog without comments, a previous generation in the ranking table, and a
storage on which the tenth call fails: in a run of `CalculatePopularRanking` that is
the `Commit` of the Unit-of-Work. -/
def lateCommitFailureDb : Db :=
  { Db.healthy ["B1"] [] 0 [previousRow] with
      faults := [none, none, none, none, none, none, none, none, none,
        some (.sentinel "bad connection")] }

/-- A previous generation in the ranking table and a storage on which the fourth call
fails: in a call of `SaveRankings` with one entry that is its `Commit`. -/
def saveCommitFailureDb : Db :=
  { Db.healthy [] [] 0 [previousRow] with
      faults := [none, none, none, some (.sentinel "bad connection")] }

/-- A previous generation in the ranking table and a storage on which the fifth call
fails: in `Transaction` around `SaveRankings` with two entries that is the second
insert, after the delete and the first insert succeeded. -/
def secondInsertFailureDb : Db :=
  { Db.healthy [] [] 0 [previousRow] with
      faults := [none, none, none, none, some (.sentinel "bad connection")] }

/-- A context that carries transaction handle `0`, as `Transaction` hands it to its
work function. -/
def ambientCtx : Context :=
  Context.background.withValue .txKey (.tx 0)

/-- A storage on which transaction `0` has been begun and is still open, with a previous
generation in the ranking table and no failure scheduled. -/
def ambientDb : Db :=
  (Db.healthy [] [] 0 [previousRow]).Begin.2

/-- One blog without comments, a previous generation in the ranking table, and a
storage on which the ninth call fails: in a run of `CalculatePopularRanking` that is
the `Commit` of `SaveRankings`. -/
def staleCommitDb : Db :=
  { Db.healthy ["B1"] [] 0 [previousRow] with
      faults := [none, none, none, none, none, none, none, none,
        some (.sentinel "bad connection")] }

/-- Two blogs, a previous generation in the ranking table, and a storage on which the
second call fails: in a run of `CalculatePopularRanking` that is the first
`rows.Next()` of the aggregation query. -/
def brokenRowsDb : Db :=
  { Db.healthy ["B1", "B2"] [] 0 [previousRow] with
      faults := [none, some (.sentinel "bad connection")] }

/-- No blog, a previous generation in the ranking table, and a storage that answers
every call. -/
def noBlogDb : Db :=
  Db.healthy [] [] 0 [previousRow]

/-- One blog whose only comment was created at second `0`, read at the very second the
comment is 7 days old, on a storage that answers every call. -/
def agingDb : Db :=
  Db.healthy ["B1"] [⟨"B1", 0⟩] 604800 []

/-! ## Exclusive lock: `ui/http/mutex.go` -/

/-- The struct `http.Mutex`: its only field, `cache`, is an `interface{}` that no code
reads; `main` passes nil. -/
structure Mutex where
  cache : Option String
  deriving DecidableEq, Repr

/-- The package variable `errLocked` of package `http` (`ui/http/mutex.go`). -/
def httpErrLocked : GoError := .global "http" "errLocked" "locked"

/-- The method `Mutex.Lock` of `mutex.go`, over any state `σ` of the lock records a
cache would hold.  The body returns a release function with an empty body and a nil
error; it reads neither the mutex, the id, the TTL nor any record, and writes none. -/
def Mutex.Lock {σ : Type} (_m : Mutex) (_ctx : Context) (_id : String) (_ttl : Nat)
    (locks : σ) : Except GoError (σ → σ) × σ :=
  (.ok (fun s => s), locks)

/-! ## Batch handler: `ui/batch/ranking.go` -/

/-- The package variable `errLocked` of package `batch` (`ui/batch/ranking.go`). -/
def batchErrLocked : GoError := .global "batch" "errLocked" "locked"

/-- The variable `strconv.ErrSyntax` of the Go library. -/
def ErrSyntax : GoError := .global "strconv" "ErrSyntax" "invalid syntax"

/-- The variable `strconv.ErrRange` of the Go library. -/
def ErrRange : GoError := .global "strconv" "ErrRange" "value out of range"

/-- The number a run of decimal digits denotes; `none` when the run is empty or holds
a character that is not a digit. -/
def digitsValue (cs : List Char) : Option Nat :=
  if cs ≠ [] ∧ cs.all Char.isDigit = true then
    some (cs.foldl (fun n c => 10 * n + (c.toNat - 48)) 0)
  else none

/-- The integer a text denotes in decimal: an optional sign `+` or `-`, then at least
one digit and nothing else. -/
def decimalValue (s : String) : Option Int :=
  match s.toList with
  | '+' :: cs => (digitsValue cs).map (fun n => (n : Int))
  | '-' :: cs => (digitsValue cs).map (fun n => -(n : Int))
  | cs => (digitsValue cs).map (fun n => (n : Int))

/-- The two lower-case hexadecimal digits of a number below 256. -/
def hexByte (n : Nat) : String :=
  String.mk [Nat.digitChar (n / 16), Nat.digitChar (n % 16)]

/-- The text `strconv.Quote` writes for one character: the named escapes of Go for bell,
backspace, form feed, line feed, carriage return, tab, vertical tab, backslash and
double quote, a backslash, `x` and two hexadecimal digits for every other control
character below U+0080, and the character itself otherwise.  Characters from U+0080 on
are kept as they are; Go escapes those of them it does not take for printable. -/
def quoteChar (c : Char) : String :=
  if c.toNat = 7 then String.mk [Char.ofNat 92, Char.ofNat 97]
  else if c.toNat = 8 then String.mk [Char.ofNat 92, Char.ofNat 98]
  else if c.toNat = 12 then String.mk [Char.ofNat 92, Char.ofNat 102]
  else if c.toNat = 10 then String.mk [Char.ofNat 92, Char.ofNat 110]
  else if c.toNat = 13 then String.mk [Char.ofNat 92, Char.ofNat 114]
  else if c.toNat = 9 then String.mk [Char.ofNat 92, Char.ofNat 116]
  else if c.toNat = 11 then String.mk [Char.ofNat 92, Char.ofNat 118]
  else if c.toNat = 92 then String.mk [Char.ofNat 92, Char.ofNat 92]
  else if c.toNat = 34 then String.mk [Char.ofNat 92, Char.ofNat 34]
  else if c.toNat < 32 ∨ c.toNat = 127 then
    String.mk [Char.ofNat 92, Char.ofNat 120] ++ hexByte c.toNat
  else String.singleton c

/-- The function `strconv.Quote` of the Go library: the text between double quotes,
every character written as `quoteChar` gives it. -/
def goQuote (s : String) : String :=
  String.singleton (Char.ofNat 34) ++ String.join (s.toList.map quoteChar) ++
    String.singleton (Char.ofNat 34)

/-- The function `strconv.Atoi` of the Go library, from its documentation: the text is
parsed in base 10 as an `int` of 64 bits; a text that is not an optional sign followed
by digits gives a `*NumError` wrapping `ErrSyntax`, a number outside the range of `int`
one wrapping `ErrRange`. -/
def Atoi (s : String) : Except GoError Int :=
  match decimalValue s with
  | none => .error (.errorf ("strconv.Atoi: parsing " ++ goQuote s ++ ": ") ErrSyntax "")
  | some n =>
    if -9223372036854775808 ≤ n ∧ n ≤ 9223372036854775807 then .ok n
    else .error (.errorf ("strconv.Atoi: parsing " ++ goQuote s ++ ": ") ErrRange "")

/-- What the batch handler did, in order: a call of `Lock`, a call of the use case, a
call of the release function. -/
inductive BatchEvent where
  | lock (id : String) (ttl : Nat)
  | useCase (days : Int)
  | unlock
  deriving DecidableEq, Repr

/-- The world of the batch handler: the storage, the lock records behind the mutex,
and the calls the handler made. -/
structure BatchWorld (σ : Type) where
  db : Db
  locks : σ
  events : List BatchEvent

/-- The lock id of the handler. -/
def lockID : String := "calculate-popular-ranking"

/-- The TTL of the handler, `10*time.Minute`, in nanoseconds. -/
def lockTTL : Nat := 10 * 60 * 1000000000

/-- The method `ranking.CalculatePopularRanking` of `ui/batch/ranking.go`, on the single
argument `cobra.ExactArgs(1)` lets through.  `lock` stands for `r.mutex.Lock`, which in
the repository is `Mutex.Lock`; `defer unlock()` runs the release function on both
ways out of the use case. -/
def ranking.CalculatePopularRanking {σ : Type}
    (lock : Context → String → Nat → σ → Except GoError (σ → σ) × σ)
    (ctx : Context) (arg : String) (w : BatchWorld σ) : Option GoError × BatchWorld σ :=
  match Atoi arg with
  | .error err => (some (.errorf "日数の指定が不正です: " err ""), w)
  | .ok days =>
    if days ≤ 0 then (some (.sentinel "日数は1以上を指定してください"), w)
    else
      match lock ctx lockID lockTTL w.locks with
      | (.error err, locks1) =>
        if errorsIs err batchErrLocked = true then
          (some (.errorf ("人気記事ランキング集計が多重実行されています: Mutex.Lock(id: "
              ++ lockID ++ "): ") err ""),
            { w with locks := locks1, events := w.events ++ [.lock lockID lockTTL] })
        else
          (some (.errorf ("ロック取得処理に失敗しました: Mutex.Lock(id: "
              ++ lockID ++ "): ") err ""),
            { w with locks := locks1, events := w.events ++ [.lock lockID lockTTL] })
      | (.ok unlock, locks1) =>
        match Myblog.CalculatePopularRanking ctx days w.db with
        | (some err, db1) =>
          (some (.errorf "人気記事ランキング集計に失敗しました: " err ""),
            { db := db1, locks := unlock locks1,
              events := w.events ++ [.lock lockID lockTTL, .useCase days, .unlock] })
        | (none, db1) =>
          (none,
            { db := db1, locks := unlock locks1,
              events := w.events ++ [.lock lockID lockTTL, .useCase days, .unlock] })

/-- The calls the handler added to the record of a world. -/
def eventsSince {σ : Type} (before after : BatchWorld σ) : List BatchEvent :=
  after.events.drop before.events.length

/-- A lock record as the spec describes it: the lock id and its expiry time. -/
structure LockRecord where
  id : String
  expiry : Nat
  deriving DecidableEq, Repr


/-- A lock that refuses every call with the `errLocked` of package `http`. -/
def refusingLock {σ : Type} (_ctx : Context) (_id : String) (_ttl : Nat) (locks : σ) :
    Except GoError (σ → σ) × σ :=
  (.error httpErrLocked, locks)

/-- The world of a batch run on the scenario of the spec: no lock record, no call made
yet. -/
def scenarioWorld : BatchWorld (List LockRecord) :=
  { db := scenarioDb, locks := [], events := [] }

/-! ## Entities: `domain/model` -/

/-- The struct `blog.Blog`; ids of users and comments have the shape of `ID` as well. -/
structure Blog where
  id : ID
  userID : ID
  title : String
  content : String
  createdAt : Nat
  updatedAt : Nat
  deriving DecidableEq, Repr

/-- The function `blog.Reconstruct`. -/
def Blog.Reconstruct (id : String) (userID : ID) (title content : String)
    (createdAt updatedAt : Nat) : Except GoError Blog :=
  match NewID id with
  | .error err => .error err
  | .ok blogID =>
    .ok { id := blogID, userID := userID, title := title, content := content,
          createdAt := createdAt, updatedAt := updatedAt }

/-- The struct `comment.Comment`. -/
structure Comment where
  id : ID
  blogID : ID
  userID : ID
  content : String
  createdAt : Nat
  updatedAt : Nat
  deriving DecidableEq, Repr

/-- The function `comment.Reconstruct`; `comment.NewID` of `comment/id.go` is `NewID`. -/
def Comment.Reconstruct (id : String) (blogID userID : ID) (content : String)
    (createdAt updatedAt : Nat) : Except GoError Comment :=
  match NewID id with
  | .error err => .error err
  | .ok commentID =>
    .ok { id := commentID, blogID := blogID, userID := userID, content := content,
          createdAt := createdAt, updatedAt := updatedAt }

/-- The struct `user.User`; the password hash is a list of bytes. -/
structure User where
  id : ID
  username : String
  email : String
  password : List Nat
  createdAt : Nat
  updatedAt : Nat
  deriving DecidableEq, Repr

/-- The function `user.Reconstruct`; `user.NewID`, whose file is not among the sources,
is taken to be `NewID` like its siblings. -/
def User.Reconstruct (id username email : String) (password : List Nat)
    (createdAt updatedAt : Nat) : Except GoError User :=
  match NewID id with
  | .error err => .error err
  | .ok userID =>
    .ok { id := userID, username := username, email := email, password := password,
          createdAt := createdAt, updatedAt := updatedAt }

/-! ## Rows and statements of the entity tables: `infra/dao` -/

/-- The struct `blogDTO`, also a row of table `blogs`. -/
structure blogDTO where
  ID : String
  UserID : String
  Title : String
  Content : String
  CreatedAt : Nat
  UpdatedAt : Nat
  deriving DecidableEq, Repr

/-- The struct `commentDTO`, also a row of table `comments`. -/
structure commentDTO where
  ID : String
  BlogID : String
  UserID : String
  Content : String
  CreatedAt : Nat
  UpdatedAt : Nat
  deriving DecidableEq, Repr

/-- The struct `userDTO`, also a row of table `users`. -/
structure userDTO where
  ID : String
  Username : String
  Email : String
  Password : List Nat
  CreatedAt : Nat
  UpdatedAt : Nat
  deriving DecidableEq, Repr

/-- The method `blogDTO.toModel`. -/
def blogDTO.toModel (dto : blogDTO) : Except GoError Blog :=
  match NewID dto.UserID with
  | .error err => .error err
  | .ok userID =>
    Blog.Reconstruct dto.ID userID dto.Title dto.Content dto.CreatedAt dto.UpdatedAt

/-- The method `commentDTO.toModel`. -/
def commentDTO.toModel (dto : commentDTO) : Except GoError Comment :=
  match NewID dto.BlogID with
  | .error err => .error err
  | .ok blogID =>
    match NewID dto.UserID with
    | .error err => .error err
    | .ok userID =>
      Comment.Reconstruct dto.ID blogID userID dto.Content dto.CreatedAt dto.UpdatedAt

/-- The method `userDTO.toModel`. -/
def userDTO.toModel (dto : userDTO) : Except GoError User :=
  User.Reconstruct dto.ID dto.Username dto.Email dto.Password dto.CreatedAt dto.UpdatedAt

/-- The three entity tables. -/
structure Tables where
  blogs : List blogDTO
  comments : List commentDTO
  users : List userDTO
  deriving DecidableEq, Repr

/-- A row of a result set. -/
inductive Row where
  | blog (r : blogDTO)
  | comment (r : commentDTO)
  | user (r : userDTO)
  deriving DecidableEq, Repr

/-- The SQL statements of the Blog, Comment and User repositories, each with its
parameters. -/
inductive Query where
  | insertBlog (id userId title content : String) (createdAt updatedAt : Nat)
  | selectBlogByID (id : String)
  | selectBlogsByUserID (userId : String)
  | selectBlogsPage (limit offset : Int)
  | updateBlog (id title content : String) (updatedAt : Nat)
  | deleteBlog (id : String)
  | insertComment (id blogId userId content : String) (createdAt updatedAt : Nat)
  | selectCommentByID (id : String)
  | selectCommentsByBlogID (blogId : String)
  | selectCommentsByUserID (userId : String)
  | updateComment (id content : String) (updatedAt : Nat)
  | deleteComment (id : String)
  | insertUser (id username email : String) (password : List Nat)
      (createdAt updatedAt : Nat)
  | selectUserByID (id : String)
  | selectUserByEmail (email : String)
  | updateUser (id username email : String) (password : List Nat) (updatedAt : Nat)
  | deleteUser (id : String)
  deriving DecidableEq, Repr

/-- The text of a statement, as the repositories write it (layout aside). -/
def Query.sql : Query → String
  | .insertBlog .. =>
    "INSERT INTO blogs ( id, user_id, title, content, created_at, updated_at ) VALUES ( :id, :user_id, :title, :content, :created_at, :updated_at )"
  | .selectBlogByID _ =>
    "SELECT id, user_id, title, content, created_at, updated_at FROM blogs WHERE id = ?"
  | .selectBlogsByUserID _ =>
    "SELECT id, user_id, title, content, created_at, updated_at FROM blogs WHERE user_id = ? ORDER BY created_at DESC"
  | .selectBlogsPage .. =>
    "SELECT id, user_id, title, content, created_at, updated_at FROM blogs ORDER BY created_at DESC LIMIT ? OFFSET ?"
  | .updateBlog .. =>
    "UPDATE blogs SET title = :title, content = :content, updated_at = :updated_at WHERE id = :id"
  | .deleteBlog _ => "DELETE FROM blogs WHERE id = ?"
  | .insertComment .. =>
    "INSERT INTO comments ( id, blog_id, user_id, content, created_at, updated_at ) VALUES ( :id, :blog_id, :user_id, :content, :created_at, :updated_at )"
  | .selectCommentByID _ =>
    "SELECT id, blog_id, user_id, content, created_at, updated_at FROM comments WHERE id = ?"
  | .selectCommentsByBlogID _ =>
    "SELECT id, blog_id, user_id, content, created_at, updated_at FROM comments WHERE blog_id = ? ORDER BY created_at ASC"
  | .selectCommentsByUserID _ =>
    "SELECT id, blog_id, user_id, content, created_at, updated_at FROM comments WHERE user_id = ? ORDER BY created_at DESC"
  | .updateComment .. =>
    "UPDATE comments SET content = :content, updated_at = :updated_at WHERE id = :id"
  | .deleteComment _ => "DELETE FROM comments WHERE id = ?"
  | .insertUser .. =>
    "INSERT INTO users ( id, username, email, password, created_at, updated_at ) VALUES ( :id, :username, :email, :password, :created_at, :updated_at )"
  | .selectUserByID _ =>
    "SELECT id, username, email, password, created_at, updated_at FROM users WHERE id = ?"
  | .selectUserByEmail _ =>
    "SELECT id, username, email, password, created_at, updated_at FROM users WHERE email = ?"
  | .updateUser .. =>
    "UPDATE users SET username = :username, email = :email, password = :password, updated_at = :updated_at WHERE id = :id"
  | .deleteUser _ => "DELETE FROM users WHERE id = ?"

/-! ## Storage engine of the entity tables -/

/-- The error `sql.ErrNoRows` of `database/sql`. -/
def ErrNoRows : GoError := .global "sql" "ErrNoRows" "sql: no rows in result set"

/-- The row an `UPDATE blogs` statement makes of a row it matches. -/
def blogDTO.updated (r : blogDTO) (title content : String) (updatedAt : Nat) : blogDTO :=
  { r with Title := title, Content := content, UpdatedAt := updatedAt }

/-- The row an `UPDATE comments` statement makes of a row it matches. -/
def commentDTO.updated (r : commentDTO) (content : String) (updatedAt : Nat) : commentDTO :=
  { r with Content := content, UpdatedAt := updatedAt }

/-- The row an `UPDATE users` statement makes of a row it matches. -/
def userDTO.updated (r : userDTO) (username email : String) (password : List Nat)
    (updatedAt : Nat) : userDTO :=
  { r with Username := username, Email := email, Password := password,
           UpdatedAt := updatedAt }

/-- The effect of a statement on the tables; a `SELECT` has none. -/
def Query.apply (q : Query) (t : Tables) : Tables :=
  match q with
  | .insertBlog id userId title content createdAt updatedAt =>
    { t with blogs := t.blogs ++ [⟨id, userId, title, content, createdAt, updatedAt⟩] }
  | .updateBlog id title content updatedAt =>
    { t with blogs :=
        (t.blogs.map (fun r => if r.ID = id then r.updated title content updatedAt else r)) }
  | .deleteBlog id => { t with blogs := t.blogs.filter (fun r => decide (r.ID ≠ id)) }
  | .insertComment id blogId userId content createdAt updatedAt =>
    { t with comments :=
        (t.comments ++ [⟨id, blogId, userId, content, createdAt, updatedAt⟩]) }
  | .updateComment id content updatedAt =>
    { t with comments :=
        (t.comments.map (fun r => if r.ID = id then r.updated content updatedAt else r)) }
  | .deleteComment id =>
    { t with comments := t.comments.filter (fun r => decide (r.ID ≠ id)) }
  | .insertUser id username email password createdAt updatedAt =>
    { t with users := t.users ++ [⟨id, username, email, password, createdAt, updatedAt⟩] }
  | .updateUser id username email password updatedAt =>
    { t with users :=
        (t.users.map
          (fun r => if r.ID = id then r.updated username email password updatedAt else r)) }
  | .deleteUser id => { t with users := t.users.filter (fun r => decide (r.ID ≠ id)) }
  | _ => t

/-- The number of rows a statement affects, as the MySQL driver reports it with its
default settings: the rows inserted, the rows deleted, and for an `UPDATE` the rows
it changes (a matching row that already holds the new values does not count). -/
def Query.rowsAffected (q : Query) (t : Tables) : Int :=
  match q with
  | .insertBlog .. => 1
  | .updateBlog id title content updatedAt =>
    (t.blogs.countP (fun r =>
      decide (r.ID = id) && decide (r.updated title content updatedAt ≠ r)) : Nat)
  | .deleteBlog id => (t.blogs.countP (fun r => decide (r.ID = id)) : Nat)
  | .insertComment .. => 1
  | .updateComment id content updatedAt =>
    (t.comments.countP (fun r =>
      decide (r.ID = id) && decide (r.updated content updatedAt ≠ r)) : Nat)
  | .deleteComment id => (t.comments.countP (fun r => decide (r.ID = id)) : Nat)
  | .insertUser .. => 1
  | .updateUser id username email password updatedAt =>
    (t.users.countP (fun r =>
      decide (r.ID = id) && decide (r.updated username email password updatedAt ≠ r)) : Nat)
  | .deleteUser id => (t.users.countP (fun r => decide (r.ID = id)) : Nat)
  | _ => 0

/-- The result set of a `SELECT`; the engine refuses a negative `LIMIT` or `OFFSET`;
a statement that is not a `SELECT` has no rows. -/
def Query.rows (q : Query) (t : Tables) : Except GoError (List Row) :=
  match q with
  | .selectBlogByID id => .ok ((t.blogs.filter (fun r => decide (r.ID = id))).map .blog)
  | .selectBlogsByUserID userId =>
    .ok (((t.blogs.filter (fun r => decide (r.UserID = userId))).insertionSort
      (fun a b => b.CreatedAt ≤ a.CreatedAt)).map .blog)
  | .selectBlogsPage limit offset =>
    if limit < 0 ∨ offset < 0 then
      .error (.sentinel "Error 1064: You have an error in your SQL syntax")
    else
      .ok ((((t.blogs.insertionSort (fun a b => b.CreatedAt ≤ a.CreatedAt)).drop
        offset.toNat).take limit.toNat).map .blog)
  | .selectCommentByID id =>
    .ok ((t.comments.filter (fun r => decide (r.ID = id))).map .comment)
  | .selectCommentsByBlogID blogId =>
    .ok (((t.comments.filter (fun r => decide (r.BlogID = blogId))).insertionSort
      (fun a b => a.CreatedAt ≤ b.CreatedAt)).map .comment)
  | .selectCommentsByUserID userId =>
    .ok (((t.comments.filter (fun r => decide (r.UserID = userId))).insertionSort
      (fun a b => b.CreatedAt ≤ a.CreatedAt)).map .comment)
  | .selectUserByID id => .ok ((t.users.filter (fun r => decide (r.ID = id))).map .user)
  | .selectUserByEmail email =>
    .ok ((t.users.filter (fun r => decide (r.Email = email))).map .user)
  | _ => .ok []

/-- Where a statement is issued: against the pool or against a transaction handle. -/
inductive Target where
  | pool
  | tx (handle : Nat)
  deriving DecidableEq, Repr

/-- A transaction handle on the entity tables. -/
structure StoreTx where
  done : Bool
  writes : List Query
  deriving DecidableEq, Repr

/-- The value `sql.Result` of a statement; `RowsAffected` is its method. -/
structure Result where
  RowsAffected : Except GoError Int

/-- The storage engine of the entity tables: the committed tables, the transactions
with their pending statements, the outcomes of the coming calls, the statements
issued so far with their target, and the clock. -/
structure Store where
  tables : Tables
  txs : List StoreTx
  faults : List (Option GoError)
  log : List (Target × Query)
  clock : Nat
  deriving DecidableEq, Repr

/-- The tables as a target sees them: the committed tables, under the pending
statements of the handle for a transaction. -/
def Store.view (s : Store) : Target → Tables
  | .pool => s.tables
  | .tx h =>
    match s.txs[h]? with
    | some t => t.writes.foldl (fun tb q => q.apply tb) s.tables
    | none => s.tables

/-- Whether a target takes statements: the pool does, a handle does until it is
committed or rolled back. -/
def Store.usable (s : Store) : Target → Bool
  | .pool => true
  | .tx h =>
    match s.txs[h]? with
    | some t => !t.done
    | none => false

/-- The outcome the engine gives the next call. -/
def Store.fault (s : Store) : Option GoError :=
  match s.faults with
  | [] => none
  | f :: _ => f

/-- The engine after answering a statement: one outcome is consumed, the statement is
logged with its target. -/
def Store.answered (s : Store) (t : Target) (q : Query) : Store :=
  { s with faults := s.faults.tail, log := s.log ++ [(t, q)] }

/-- The engine after a statement took effect: at once on the committed tables for the
pool, pending on the handle for a transaction. -/
def Store.written (s : Store) (t : Target) (q : Query) : Store :=
  match t with
  | .pool => { s with tables := q.apply s.tables }
  | .tx h =>
    { s with txs := s.txs.modify (fun x => { x with writes := x.writes ++ [q] }) h }

/-- A statement executed on a target: the driver error, or the result with the number
of affected rows. -/
def Store.exec (s : Store) (t : Target) (q : Query) : Except GoError Result × Store :=
  if s.usable t then
    match s.fault with
    | some e => (.error e, s.answered t q)
    | none => (.ok ⟨.ok (q.rowsAffected (s.view t))⟩, (s.answered t q).written t q)
  else (.error ErrTxDone, { s with log := s.log ++ [(t, q)] })

/-- A query run on a target: the driver error, or the result set. -/
def Store.queryRows (s : Store) (t : Target) (q : Query) :
    Except GoError (List Row) × Store :=
  if s.usable t then
    match s.fault with
    | some e => (.error e, s.answered t q)
    | none => (q.rows (s.view t), s.answered t q)
  else (.error ErrTxDone, { s with log := s.log ++ [(t, q)] })

/-- The scan of a row into a `blogDTO`. -/
def scanBlog : Row → Except GoError blogDTO
  | .blog r => .ok r
  | _ => .error (.sentinel "missing destination name in *dao.blogDTO")

/-- The scan of a row into a `commentDTO`. -/
def scanComment : Row → Except GoError commentDTO
  | .comment r => .ok r
  | _ => .error (.sentinel "missing destination name in *dao.commentDTO")

/-- The scan of a row into a `userDTO`. -/
def scanUser : Row → Except GoError userDTO
  | .user r => .ok r
  | _ => .error (.sentinel "missing destination name in *dao.userDTO")

/-- The scan of every row of a result set, left at the first error. -/
def scanAll {α : Type} (scan : Row → Except GoError α) : List Row → Except GoError (List α)
  | [] => .ok []
  | row :: rest =>
    match scan row with
    | .error err => .error err
    | .ok a =>
      match scanAll scan rest with
      | .error err => .error err
      | .ok as => .ok (a :: as)

/-- A single-row query followed by `StructScan`: the first row of the result set, or
`sql.ErrNoRows` when there is none. -/
def Store.structScan {α : Type} (s : Store) (scan : Row → Except GoError α) (t : Target)
    (q : Query) : Except GoError α × Store :=
  match s.queryRows t q with
  | (.error err, s1) => (.error err, s1)
  | (.ok [], s1) => (.error ErrNoRows, s1)
  | (.ok (row :: _), s1) => (scan row, s1)

/-- A query whose rows are all scanned into a slice. -/
def Store.selectAll {α : Type} (s : Store) (scan : Row → Except GoError α) (t : Target)
    (q : Query) : Except GoError (List α) × Store :=
  match s.queryRows t q with
  | (.error err, s1) => (.error err, s1)
  | (.ok rows, s1) => (scanAll scan rows, s1)

/-- The method `tx.NamedExec`. -/
def Store.txNamedExec (s : Store) (tx : Nat) (q : Query) : Except GoError Result × Store :=
  s.exec (.tx tx) q

/-- The call `r.db.Write(ctx).NamedExecContext(ctx, ...)`. -/
def Store.NamedExecContext (s : Store) (q : Query) : Except GoError Result × Store :=
  s.exec .pool q

/-- The method `tx.Exec`. -/
def Store.txExec (s : Store) (tx : Nat) (q : Query) : Except GoError Result × Store :=
  s.exec (.tx tx) q

/-- The call `r.db.Write(ctx).ExecContext(ctx, ...)`. -/
def Store.ExecContext (s : Store) (q : Query) : Except GoError Result × Store :=
  s.exec .pool q

/-- The call `tx.QueryRowx(...).StructScan(&dto)`. -/
def Store.txQueryRowx {α : Type} (s : Store) (scan : Row → Except GoError α) (tx : Nat)
    (q : Query) : Except GoError α × Store :=
  s.structScan scan (.tx tx) q

/-- The call `r.db.Read(ctx).QueryRowxContext(ctx, ...).StructScan(&dto)`. -/
def Store.QueryRowxContext {α : Type} (s : Store) (scan : Row → Except GoError α)
    (q : Query) : Except GoError α × Store :=
  s.structScan scan .pool q

/-- The method `tx.Select`. -/
def Store.txSelect {α : Type} (s : Store) (scan : Row → Except GoError α) (tx : Nat)
    (q : Query) : Except GoError (List α) × Store :=
  s.selectAll scan (.tx tx) q

/-- The call `r.db.Read(ctx).SelectContext(ctx, ...)`. -/
def Store.SelectContext {α : Type} (s : Store) (scan : Row → Except GoError α)
    (q : Query) : Except GoError (List α) × Store :=
  s.selectAll scan .pool q

/-- The function `time.Now()` read next to the entity tables. -/
def Store.timeNow (s : Store) : Nat × Store :=
  (s.clock, { s with clock := s.clock + 1 })

/-! ## Repositories of the entity tables: `infra/dao` -/

/-- The loops `for i, dto := range dtos ... dto.toModel()` of the list queries: every
row is turned into an entity, the first error ends the loop. -/
def toModels {α β : Type} (toModel : α → Except GoError β) :
    List α → Except GoError (List β)
  | [] => .ok []
  | dto :: rest =>
    match toModel dto with
    | .error err => .error err
    | .ok m =>
      match toModels toModel rest with
      | .error err => .error err
      | .ok ms => .ok (m :: ms)

/-- The method `BlogRepository.Save` of `dao/blog.go`. -/
def BlogRepository.Save (ctx : Context) (blog : Blog) (s : Store) : Option GoError × Store :=
  let query := Query.insertBlog blog.id.String blog.userID.String blog.title blog.content
    blog.createdAt blog.updatedAt
  match GetTx ctx with
  | some tx =>
    match s.txNamedExec tx query with
    | (.error err, s1) => (some err, s1)
    | (.ok _, s1) => (none, s1)
  | none =>
    match s.NamedExecContext query with
    | (.error err, s1) => (some err, s1)
    | (.ok _, s1) => (none, s1)

/-- The method `BlogRepository.FindByID`. -/
def BlogRepository.FindByID (ctx : Context) (id : String) (s : Store) :
    Except GoError Blog × Store :=
  let query := Query.selectBlogByID id
  match GetTx ctx with
  | some tx =>
    match s.txQueryRowx scanBlog tx query with
    | (.error err, s1) =>
      if errorsIs err ErrNoRows = true then
        (.error (.sentinel ("blog not found with id: " ++ id)), s1)
      else (.error err, s1)
    | (.ok dto, s1) => (dto.toModel, s1)
  | none =>
    match s.QueryRowxContext scanBlog query with
    | (.error err, s1) =>
      if errorsIs err ErrNoRows = true then
        (.error (.sentinel ("blog not found with id: " ++ id)), s1)
      else (.error err, s1)
    | (.ok dto, s1) => (dto.toModel, s1)

/-- The method `BlogRepository.FindByUserID`. -/
def BlogRepository.FindByUserID (ctx : Context) (userID : ID) (s : Store) :
    Except GoError (List Blog) × Store :=
  let query := Query.selectBlogsByUserID userID.String
  match GetTx ctx with
  | some tx =>
    match s.txSelect scanBlog tx query with
    | (.error err, s1) => (.error err, s1)
    | (.ok dtos, s1) => (toModels blogDTO.toModel dtos, s1)
  | none =>
    match s.SelectContext scanBlog query with
    | (.error err, s1) => (.error err, s1)
    | (.ok dtos, s1) => (toModels blogDTO.toModel dtos, s1)

/-- The method `BlogRepository.FindAll`. -/
def BlogRepository.FindAll (ctx : Context) (offset limit : Int) (s : Store) :
    Except GoError (List Blog) × Store :=
  let query := Query.selectBlogsPage limit offset
  match GetTx ctx with
  | some tx =>
    match s.txSelect scanBlog tx query with
    | (.error err, s1) => (.error err, s1)
    | (.ok dtos, s1) => (toModels blogDTO.toModel dtos, s1)
  | none =>
    match s.SelectContext scanBlog query with
    | (.error err, s1) => (.error err, s1)
    | (.ok dtos, s1) => (toModels blogDTO.toModel dtos, s1)

/-- The method `BlogRepository.Update`; `time.Now()` is read while the parameters are
built, before the context is looked at. -/
def BlogRepository.Update (ctx : Context) (blog : Blog) (s : Store) :
    Option GoError × Store :=
  let query := Query.updateBlog blog.id.String blog.title blog.content s.timeNow.1
  match GetTx ctx with
  | some tx =>
    match s.timeNow.2.txNamedExec tx query with
    | (.error err, s1) => (some err, s1)
    | (.ok result, s1) =>
      match result.RowsAffected with
      | .error err => (some err, s1)
      | .ok rowsAffected =>
        if rowsAffected = 0 then
          (some (.sentinel ("blog not found with id: " ++ blog.id.String)), s1)
        else (none, s1)
  | none =>
    match s.timeNow.2.NamedExecContext query with
    | (.error err, s1) => (some err, s1)
    | (.ok result, s1) =>
      match result.RowsAffected with
      | .error err => (some err, s1)
      | .ok rowsAffected =>
        if rowsAffected = 0 then
          (some (.sentinel ("blog not found with id: " ++ blog.id.String)), s1)
        else (none, s1)

/-- The method `BlogRepository.Delete`. -/
def BlogRepository.Delete (ctx : Context) (id : String) (s : Store) :
    Option GoError × Store :=
  let query := Query.deleteBlog id
  match GetTx ctx with
  | some tx =>
    match s.txExec tx query with
    | (.error err, s1) => (some err, s1)
    | (.ok result, s1) =>
      match result.RowsAffected with
      | .error err => (some err, s1)
      | .ok rowsAffected =>
        if rowsAffected = 0 then
          (some (.sentinel ("blog not found with id: " ++ id)), s1)
        else (none, s1)
  | none =>
    match s.ExecContext query with
    | (.error err, s1) => (some err, s1)
    | (.ok result, s1) =>
      match result.RowsAffected with
      | .error err => (some err, s1)
      | .ok rowsAffected =>
        if rowsAffected = 0 then
          (some (.sentinel ("blog not found with id: " ++ id)), s1)
        else (none, s1)

/-- The method `CommentRepository.Save` of `dao/comment.go`. -/
def CommentRepository.Save (ctx : Context) (comment : Comment) (s : Store) :
    Option GoError × Store :=
  let query := Query.insertComment comment.id.String comment.blogID.String
    comment.userID.String comment.content comment.createdAt comment.updatedAt
  match GetTx ctx with
  | some tx =>
    match s.txNamedExec tx query with
    | (.error err, s1) => (some err, s1)
    | (.ok _, s1) => (none, s1)
  | none =>
    match s.NamedExecContext query with
    | (.error err, s1) => (some err, s1)
    | (.ok _, s1) => (none, s1)

/-- The method `CommentRepository.FindByID`. -/
def CommentRepository.FindByID (ctx : Context) (id : String) (s : Store) :
    Except GoError Comment × Store :=
  let query := Query.selectCommentByID id
  match GetTx ctx with
  | some tx =>
    match s.txQueryRowx scanComment tx query with
    | (.error err, s1) =>
      if errorsIs err ErrNoRows = true then
        (.error (.sentinel ("comment not found with id: " ++ id)), s1)
      else (.error err, s1)
    | (.ok dto, s1) => (dto.toModel, s1)
  | none =>
    match s.QueryRowxContext scanComment query with
    | (.error err, s1) =>
      if errorsIs err ErrNoRows = true then
        (.error (.sentinel ("comment not found with id: " ++ id)), s1)
      else (.error err, s1)
    | (.ok dto, s1) => (dto.toModel, s1)

/-- The method `CommentRepository.FindByBlogID`. -/
def CommentRepository.FindByBlogID (ctx : Context) (blogID : ID) (s : Store) :
    Except GoError (List Comment) × Store :=
  let query := Query.selectCommentsByBlogID blogID.String
  match GetTx ctx with
  | some tx =>
    match s.txSelect scanComment tx query with
    | (.error err, s1) => (.error err, s1)
    | (.ok dtos, s1) => (toModels commentDTO.toModel dtos, s1)
  | none =>
    match s.SelectContext scanComment query with
    | (.error err, s1) => (.error err, s1)
    | (.ok dtos, s1) => (toModels commentDTO.toModel dtos, s1)

/-- The method `CommentRepository.FindByUserID`. -/
def CommentRepository.FindByUserID (ctx : Context) (userID : ID) (s : Store) :
    Except GoError (List Comment) × Store :=
  let query := Query.selectCommentsByUserID userID.String
  match GetTx ctx with
  | some tx =>
    match s.txSelect scanComment tx query with
    | (.error err, s1) => (.error err, s1)
    | (.ok dtos, s1) => (toModels commentDTO.toModel dtos, s1)
  | none =>
    match s.SelectContext scanComment query with
    | (.error err, s1) => (.error err, s1)
    | (.ok dtos, s1) => (toModels commentDTO.toModel dtos, s1)

/-- The method `CommentRepository.Update`. -/
def CommentRepository.Update (ctx : Context) (comment : Comment) (s : Store) :
    Option GoError × Store :=
  let query := Query.updateComment comment.id.String comment.content s.timeNow.1
  match GetTx ctx with
  | some tx =>
    match s.timeNow.2.txNamedExec tx query with
    | (.error err, s1) => (some err, s1)
    | (.ok result, s1) =>
      match result.RowsAffected with
      | .error err => (some err, s1)
      | .ok rowsAffected =>
        if rowsAffected = 0 then
          (some (.sentinel ("comment not found with id: " ++ comment.id.String)), s1)
        else (none, s1)
  | none =>
    match s.timeNow.2.NamedExecContext query with
    | (.error err, s1) => (some err, s1)
    | (.ok result, s1) =>
      match result.RowsAffected with
      | .error err => (some err, s1)
      | .ok rowsAffected =>
        if rowsAffected = 0 then
          (some (.sentinel ("comment not found with id: " ++ comment.id.String)), s1)
        else (none, s1)

/-- The method `CommentRepository.Delete`. -/
def CommentRepository.Delete (ctx : Context) (id : String) (s : Store) :
    Option GoError × Store :=
  let query := Query.deleteComment id
  match GetTx ctx with
  | some tx =>
    match s.txExec tx query with
    | (.error err, s1) => (some err, s1)
    | (.ok result, s1) =>
      match result.RowsAffected with
      | .error err => (some err, s1)
      | .ok rowsAffected =>
        if rowsAffected = 0 then
          (some (.sentinel ("comment not found with id: " ++ id)), s1)
        else (none, s1)
  | none =>
    match s.ExecContext query with
    | (.error err, s1) => (some err, s1)
    | (.ok result, s1) =>
      match result.RowsAffected with
      | .error err => (some err, s1)
      | .ok rowsAffected =>
        if rowsAffected = 0 then
          (some (.sentinel ("comment not found with id: " ++ id)), s1)
        else (none, s1)

/-- The method `UserRepository.Save` of `dao/user.go`. -/
def UserRepository.Save (ctx : Context) (user : User) (s : Store) : Option GoError × Store :=
  let query := Query.insertUser user.id.String user.username user.email user.password
    user.createdAt user.updatedAt
  match GetTx ctx with
  | some tx =>
    match s.txNamedExec tx query with
    | (.error err, s1) => (some err, s1)
    | (.ok _, s1) => (none, s1)
  | none =>
    match s.NamedExecContext query with
    | (.error err, s1) => (some err, s1)
    | (.ok _, s1) => (none, s1)

/-- The method `UserRepository.FindByID`. -/
def UserRepository.FindByID (ctx : Context) (id : String) (s : Store) :
    Except GoError User × Store :=
  let query := Query.selectUserByID id
  match GetTx ctx with
  | some tx =>
    match s.txQueryRowx scanUser tx query with
    | (.error err, s1) =>
      if errorsIs err ErrNoRows = true then
        (.error (.sentinel ("user not found with id: " ++ id)), s1)
      else (.error err, s1)
    | (.ok dto, s1) => (dto.toModel, s1)
  | none =>
    match s.QueryRowxContext scanUser query with
    | (.error err, s1) =>
      if errorsIs err ErrNoRows = true then
        (.error (.sentinel ("user not found with id: " ++ id)), s1)
      else (.error err, s1)
    | (.ok dto, s1) => (dto.toModel, s1)

/-- The method `UserRepository.FindByEmail`. -/
def UserRepository.FindByEmail (ctx : Context) (email : String) (s : Store) :
    Except GoError User × Store :=
  let query := Query.selectUserByEmail email
  match GetTx ctx with
  | some tx =>
    match s.txQueryRowx scanUser tx query with
    | (.error err, s1) =>
      if errorsIs err ErrNoRows = true then
        (.error (.sentinel ("user not found with email: " ++ email)), s1)
      else (.error err, s1)
    | (.ok dto, s1) => (dto.toModel, s1)
  | none =>
    match s.QueryRowxContext scanUser query with
    | (.error err, s1) =>
      if errorsIs err ErrNoRows = true then
        (.error (.sentinel ("user not found with email: " ++ email)), s1)
      else (.error err, s1)
    | (.ok dto, s1) => (dto.toModel, s1)

/-- The method `UserRepository.Update`. -/
def UserRepository.Update (ctx : Context) (user : User) (s : Store) :
    Option GoError × Store :=
  let query := Query.updateUser user.id.String user.username user.email user.password
    s.timeNow.1
  match GetTx ctx with
  | some tx =>
    match s.timeNow.2.txNamedExec tx query with
    | (.error err, s1) => (some err, s1)
    | (.ok result, s1) =>
      match result.RowsAffected with
      | .error err => (some err, s1)
      | .ok rowsAffected =>
        if rowsAffected = 0 then
          (some (.sentinel ("user not found with id: " ++ user.id.String)), s1)
        else (none, s1)
  | none =>
    match s.timeNow.2.NamedExecContext query with
    | (.error err, s1) => (some err, s1)
    | (.ok result, s1) =>
      match result.RowsAffected with
      | .error err => (some err, s1)
      | .ok rowsAffected =>
        if rowsAffected = 0 then
          (some (.sentinel ("user not found with id: " ++ user.id.String)), s1)
        else (none, s1)

/-- The method `UserRepository.Delete`. -/
def UserRepository.Delete (ctx : Context) (id : String) (s : Store) :
    Option GoError × Store :=
  let query := Query.deleteUser id
  match GetTx ctx with
  | some tx =>
    match s.txExec tx query with
    | (.error err, s1) => (some err, s1)
    | (.ok result, s1) =>
      match result.RowsAffected with
      | .error err => (some err, s1)
      | .ok rowsAffected =>
        if rowsAffected = 0 then
          (some (.sentinel ("user not found with id: " ++ id)), s1)
        else (none, s1)
  | none =>
    match s.ExecContext query with
    | (.error err, s1) => (some err, s1)
    | (.ok result, s1) =>
      match result.RowsAffected with
      | .error err => (some err, s1)
      | .ok rowsAffected =>
        if rowsAffected = 0 then
          (some (.sentinel ("user not found with id: " ++ id)), s1)
        else (none, s1)

/-! ## The rule of the spec for the repositories -/

/-- The rule of the spec for the target of a repository operation: the transaction
handle of the context when it carries one, the pool otherwise. -/
def targetOf (ctx : Context) : Target :=
  match GetTx ctx with
  | some tx => .tx tx
  | none => .pool

/-- The result the spec gives `Save` for a response of the storage: its error, if
any. -/
def saveOutcome (response : Except GoError Result) : Option GoError :=
  match response with
  | .error err => some err
  | .ok _ => none

/-- The result the spec gives `Update` and `Delete` for a response of the storage: its
error, the error of `RowsAffected`, the not-found error `notFound` when no row was
affected, nil otherwise. -/
def writeOutcome (notFound : GoError) (response : Except GoError Result) :
    Option GoError :=
  match response with
  | .error err => some err
  | .ok result =>
    match result.RowsAffected with
    | .error err => some err
    | .ok rowsAffected => if rowsAffected = 0 then some notFound else none

/-- The result the spec gives a single-row lookup for a response of the storage: the
not-found error `notFound` for "no matching row", any other error as it is, the entity
of the row otherwise. -/
def findOutcome {α β : Type} (notFound : GoError) (toModel : α → Except GoError β)
    (response : Except GoError α) : Except GoError β :=
  match response with
  | .error err => if errorsIs err ErrNoRows = true then .error notFound else .error err
  | .ok dto => toModel dto

/-- The result the spec gives a list query for a response of the storage: its error, or
the entities of the rows. -/
def listOutcome {α β : Type} (toModel : α → Except GoError β)
    (response : Except GoError (List α)) : Except GoError (List β) :=
  match response with
  | .error err => .error err
  | .ok dtos => toModels toModel dtos

/-! ## Inputs for the repositories -/

/-- Tables with one blog, one comment and one user. -/
def entityTables : Tables :=
  { blogs := [⟨"b1", "u1", "title", "content", 10, 10⟩],
    comments := [⟨"c1", "b1", "u1", "hello", 20, 20⟩],
    users := [⟨"u1", "alice", "alice@example.com", [1, 2, 3], 5, 5⟩] }

/-- A storage over `entityTables` with transaction `0` open, holding one pending insert of
a second blog, and no failure scheduled. -/
def entityStore : Store :=
  { tables := entityTables,
    txs := [⟨false, [.insertBlog "b2" "u1" "second" "text" 30 30]⟩],
    faults := [], log := [], clock := 100 }

/-- A storage over `entityTables` whose transaction `0` has been committed or rolled
back. -/
def finishedTxStore : Store :=
  { tables := entityTables, txs := [⟨true, []⟩], faults := [], log := [], clock := 100 }

/-- A blog that is in no table. -/
def missingBlog : Blog :=
  { id := ⟨"b9"⟩, userID := ⟨"u1"⟩, title := "t", content := "c",
    createdAt := 40, updatedAt := 40 }

/-- The dynamic types of the error values of the model. -/
inductive ErrorType where
  | errorString
  | wrapError
  deriving DecidableEq, Repr

/-- The dynamic type of an error value: `*errors.errorString` for a value made by
`errors.New`, which is also what `fmt.Errorf` returns for a format without `%w`, and
`*fmt.wrapError` for a value made by `fmt.Errorf` with `%w`. -/
def GoError.dynamicType : GoError → ErrorType
  | .sentinel _ => .errorString
  | .errorf _ _ _ => .wrapError
  | .global _ _ _ => .errorString

/-- The keys under which a context stores values, innermost first. -/
def Context.keys : Context → List CtxKey
  | .background => []
  | .withValue parent key _ => key :: parent.keys

/-- A context with values of a caller, none of them a transaction. -/
def requestCtx : Context :=
  (Context.background.withValue (.other "request-id") (.other "r-42")).withValue
    (.other "user") (.other "alice")

/-- The world of a batch run while a first invocation is active: it has called `Lock`
with the id of the batch, holds what `Mutex.Lock` gave it, and has not released yet. -/
def heldLockWorld : BatchWorld (List LockRecord) :=
  { db := scenarioDb,
    locks := (Mutex.Lock ⟨none⟩ .background lockID lockTTL ([] : List LockRecord)).2,
    events := [.lock lockID lockTTL] }

/-- One blog and a storage whose first call, the aggregation query, fails. -/
def brokenQueryDb : Db :=
  { Db.healthy ["B1"] [] 0 [previousRow] with faults := [some (.sentinel "bad connection")] }

/-! ## Entity methods: `domain/model` -/

/-- The function `blog.NewBlog`; `uuid` is the text `uuid.New().String()` gives and `now`
the value of `time.Now()`. -/
def NewBlog (uuid : String) (now : Nat) (userID : ID) (title content : String) :
    Except GoError Blog :=
  if title = "" then .error (.sentinel "タイトルが空です")
  else if content = "" then .error (.sentinel "コンテンツが空です")
  else
    match NewID uuid with
    | .error err => .error err
    | .ok id =>
      .ok { id := id, userID := userID, title := title, content := content,
            createdAt := now, updatedAt := now }

/-- The method `Blog.UpdateTitle`: the error, and the blog after the call. -/
def Blog.UpdateTitle (b : Blog) (title : String) (now : Nat) : Option GoError × Blog :=
  if title = "" then (some (.sentinel "タイトルが空です"), b)
  else (none, { b with title := title, updatedAt := now })

/-- The method `Blog.UpdateContent`: the error, and the blog after the call. -/
def Blog.UpdateContent (b : Blog) (content : String) (now : Nat) : Option GoError × Blog :=
  if content = "" then (some (.sentinel "コンテンツが空です"), b)
  else (none, { b with content := content, updatedAt := now })

/-- The method `Comment.UpdateContent`: the error, and the comment after the call. -/
def Comment.UpdateContent (c : Comment) (content : String) (now : Nat) :
    Option GoError × Comment :=
  if content = "" then (some (.sentinel "コンテンツが空です"), c)
  else (none, { c with content := content, updatedAt := now })

/-! ## Use cases of blogs and comments: `usecase/blog.go`, `usecase/comment.go` -/

/-- The value of an arithmetic operation on Go `int`s: the mathematical result wrapped
to 64 bits in two's complement. -/
def wrapInt (n : Int) : Int :=
  (n + 9223372036854775808) % 18446744073709551616 - 9223372036854775808

/-- The method `blogUsecase.GetAllBlogs`. -/
def blogUsecase.GetAllBlogs (ctx : Context) (page perPage : Int) (s : Store) :
    Except GoError (List Blog) × Store :=
  let page := if page < 0 then 0 else page
  let perPage := if perPage ≤ 0 then 10 else perPage
  let offset := wrapInt (page * perPage)
  match BlogRepository.FindAll ctx offset perPage s with
  | (.error err, s1) => (.error (.errorf "ブログ一覧取得エラー: " err ""), s1)
  | (.ok blogs, s1) => (.ok blogs, s1)

/-- The query parameters `page` and `per_page` as `BlogHandler.GetAllBlogs` of
`ui/http/handler/blog.go` reads them; an absent parameter is the empty text. -/
def BlogHandler.pageParams (pageStr perPageStr : String) : Int × Int :=
  ((if pageStr ≠ "" then
      match Atoi pageStr with
      | .ok p => if p ≥ 0 then p else 0
      | .error _ => 0
    else 0),
   (if perPageStr ≠ "" then
      match Atoi perPageStr with
      | .ok pp => if pp > 0 ∧ pp ≤ 100 then pp else 10
      | .error _ => 10
    else 10))

/-- The method `BlogHandler.GetAllBlogs` up to the result of the use case; the
rendering of the response is left out. -/
def BlogHandler.GetAllBlogs (ctx : Context) (pageStr perPageStr : String) (s : Store) :
    Except GoError (List Blog) × Store :=
  blogUsecase.GetAllBlogs ctx (BlogHandler.pageParams pageStr perPageStr).1
    (BlogHandler.pageParams pageStr perPageStr).2 s

/-- The method `blogUsecase.UpdateBlog`; each `time.Now()` of the entity methods moves
the clock on. -/
def blogUsecase.UpdateBlog (ctx : Context) (id userID title content : String) (s : Store) :
    Except GoError Blog × Store :=
  match BlogRepository.FindByID ctx id s with
  | (.error err, s1) => (.error (.errorf "ブログ取得エラー: " err ""), s1)
  | (.ok existingBlog, s1) =>
    if existingBlog.userID.String ≠ userID then
      (.error (.sentinel "このブログを更新する権限がありません"), s1)
    else
      match (if title ≠ "" then existingBlog.UpdateTitle title s1.clock
             else (none, existingBlog)) with
      | (some err, _) => (.error (.errorf "タイトル更新エラー: " err ""), s1)
      | (none, blog1) =>
        match (if content ≠ "" then
                 blog1.UpdateContent content (if title ≠ "" then s1.clock + 1 else s1.clock)
               else (none, blog1)) with
        | (some err, _) =>
          (.error (.errorf "コンテンツ更新エラー: " err ""),
            { s1 with clock := if title ≠ "" then s1.clock + 1 else s1.clock })
        | (none, blog2) =>
          match BlogRepository.Update ctx blog2
              { s1 with clock :=
                  (if title ≠ "" then s1.clock + 1 else s1.clock) +
                    (if content ≠ "" then 1 else 0) } with
          | (some err, s2) => (.error (.errorf "ブログ更新エラー: " err ""), s2)
          | (none, s2) => (.ok blog2, s2)

/-- The method `blogUsecase.DeleteBlog`. -/
def blogUsecase.DeleteBlog (ctx : Context) (id userID : String) (s : Store) :
    Option GoError × Store :=
  match BlogRepository.FindByID ctx id s with
  | (.error err, s1) => (some (.errorf "ブログ取得エラー: " err ""), s1)
  | (.ok existingBlog, s1) =>
    if existingBlog.userID.String ≠ userID then
      (some (.sentinel "このブログを削除する権限がありません"), s1)
    else
      match BlogRepository.Delete ctx id s1 with
      | (some err, s2) => (some (.errorf "ブログ削除エラー: " err ""), s2)
      | (none, s2) => (none, s2)

/-- The method `commentUsecase.UpdateComment`. -/
def commentUsecase.UpdateComment (ctx : Context) (id userID content : String) (s : Store) :
    Except GoError Comment × Store :=
  match CommentRepository.FindByID ctx id s with
  | (.error err, s1) => (.error (.errorf "コメント取得エラー: " err ""), s1)
  | (.ok existingComment, s1) =>
    if existingComment.userID.String ≠ userID then
      (.error (.sentinel "このコメントを更新する権限がありません"), s1)
    else
      match existingComment.UpdateContent content s1.clock with
      | (some err, _) => (.error (.errorf "コンテンツ更新エラー: " err ""), s1)
      | (none, comment1) =>
        match CommentRepository.Update ctx comment1 s1.timeNow.2 with
        | (some err, s2) => (.error (.errorf "コメント更新エラー: " err ""), s2)
        | (none, s2) => (.ok comment1, s2)

/-- The method `commentUsecase.DeleteComment`. -/
def commentUsecase.DeleteComment (ctx : Context) (id userID : String) (s : Store) :
    Option GoError × Store :=
  match CommentRepository.FindByID ctx id s with
  | (.error err, s1) => (some (.errorf "コメント取得エラー: " err ""), s1)
  | (.ok existingComment, s1) =>
    if existingComment.userID.String ≠ userID then
      (some (.sentinel "このコメントを削除する権限がありません"), s1)
    else
      match CommentRepository.Delete ctx id s1 with
      | (some err, s2) => (some (.errorf "コメント削除エラー: " err ""), s2)
      | (none, s2) => (none, s2)

/-- A call of one of the two mutators of a blog, with the value `time.Now()` has during
the call. -/
inductive BlogCall where
  | UpdateTitle (title : String) (now : Nat)
  | UpdateContent (content : String) (now : Nat)
  deriving DecidableEq, Repr

/-- The error of a mutator call, and the blog after it. -/
def Blog.call (b : Blog) : BlogCall → Option GoError × Blog
  | .UpdateTitle title now => b.UpdateTitle title now
  | .UpdateContent content now => b.UpdateContent content now

/-- The blog after a sequence of mutator calls, made one after the other on the same
blog whatever each returns. -/
def Blog.calls (b : Blog) (cs : List BlogCall) : Blog :=
  cs.foldl (fun blog c => (blog.call c).2) b

/-! ## User entity and user use case: `domain/model/user/user.go`, `usecase/user.go` -/

/-- The library functions the user code calls, which are not part of the repository:
`bcrypt.GenerateFromPassword` at the default cost, `bcrypt.CompareHashAndPassword`, and
the HS256 signature `SignedString` of a token with the claims `id` and `exp` under a
secret. -/
structure Crypto where
  GenerateFromPassword : String → Except GoError (List Nat)
  CompareHashAndPassword : List Nat → String → Option GoError
  SignedString : String → Nat → String → Except GoError String

/-- The function `user.NewUser`; `uuid` is the text `uuid.New().String()` gives and `now`
the value of `time.Now()`. -/
def NewUser (lib : Crypto) (uuid : String) (now : Nat) (username email password : String) :
    Except GoError User :=
  if username = "" then .error (.sentinel "ユーザー名が空です")
  else if email = "" then .error (.sentinel "メールアドレスが空です")
  else if password = "" then .error (.sentinel "パスワードが空です")
  else
    match lib.GenerateFromPassword password with
    | .error err => .error err
    | .ok hashedPassword =>
      match NewID uuid with
      | .error err => .error err
      | .ok id =>
        .ok { id := id, username := username, email := email, password := hashedPassword,
              createdAt := now, updatedAt := now }

/-- The method `User.VerifyPassword`. -/
def User.VerifyPassword (lib : Crypto) (u : User) (password : String) : Bool :=
  (lib.CompareHashAndPassword u.password password).isNone

/-- The method `userUsecase.Register`; the clock moves on when `NewUser` reads it. -/
def userUsecase.Register (lib : Crypto) (uuid : String) (ctx : Context)
    (username email password : String) (s : Store) : Except GoError User × Store :=
  match UserRepository.FindByEmail ctx email s with
  | (.ok _, s1) => (.error (.sentinel "このメールアドレスは既に使用されています"), s1)
  | (.error _, s1) =>
    match NewUser lib uuid s1.timeNow.1 username email password with
    | .error err => (.error (.errorf "ユーザー作成エラー: " err ""), s1)
    | .ok newUser =>
      match UserRepository.Save ctx newUser s1.timeNow.2 with
      | (some err, s2) => (.error (.errorf "ユーザー保存エラー: " err ""), s2)
      | (none, s2) => (.ok newUser, s2)

/-- The number of clock ticks of the 24 hours a token is valid. -/
def tokenLifetime : Nat := 86400

/-- The method `userUsecase.Login`: the token and the error, and the storage after the
call. -/
def userUsecase.Login (lib : Crypto) (jwtSecret : String) (ctx : Context)
    (email password : String) (s : Store) : (String × Option GoError) × Store :=
  match UserRepository.FindByEmail ctx email s with
  | (.error _, s1) =>
    (("", some (.sentinel "メールアドレスまたはパスワードが正しくありません")), s1)
  | (.ok user, s1) =>
    if !user.VerifyPassword lib password then
      (("", some (.sentinel "メールアドレスまたはパスワードが正しくありません")), s1)
    else
      match lib.SignedString user.id.String (s1.timeNow.1 + tokenLifetime) jwtSecret with
      | .error err => (("", some (.errorf "トークン生成エラー: " err "")), s1.timeNow.2)
      | .ok tokenString => ((tokenString, none), s1.timeNow.2)

/-- A stand-in for the library functions, for evaluation: the hash of a password is the
list of its character codes, and a token is the id, the expiry and the secret joined. -/
def plainCrypto : Crypto :=
  { GenerateFromPassword := fun password => .ok (password.toList.map Char.toNat),
    CompareHashAndPassword := fun hash password =>
      if hash = password.toList.map Char.toNat then none
      else some (.global "bcrypt" "ErrMismatchedHashAndPassword"
        "crypto/bcrypt: hashedPassword is not the hash of the given password"),
    SignedString := fun id exp secret => .ok (id ++ "." ++ toString exp ++ "." ++ secret) }

/-- A storage whose one user, alice, has the password `pw` under `plainCrypto`. -/
def loginStore : Store :=
  { tables :=
      { blogs := [], comments := [],
        users := [⟨"u1", "alice", "alice@example.com", [112, 119], 5, 5⟩] },
    txs := [], faults := [], log := [], clock := 100 }

/-- A work function that deletes the ranking rows through the handle of the context it
is given, as a repository in transactional mode does, and fails when the context
carries none. -/
def deleteThroughContext (ctx : Context) (db : Db) : Option GoError × Db :=
  match GetTx ctx with
  | some tx => db.Exec tx .deleteRankings
  | none => (some (.sentinel "no transaction in context"), db)

/-- No blog, a previous generation in the ranking table, and a storage on which the
sixth call fails: in a run of `CalculatePopularRanking` without blogs that is the
`Commit` of `SaveRankings`. -/
def noBlogLostCommitDb : Db :=
  { Db.healthy [] [] 0 [previousRow] with
      faults := [none, none, none, none, none, some (.sentinel "bad connection")] }

/-- Two blogs without comments, an empty ranking table, and a storage that answers every
call. -/
def tiedDb : Db :=
  Db.healthy ["B1", "B2"] [] 0 []

/-! ## Theorems: Unit-of-Work -/

theorem errorsIs_self (e : GoError) : errorsIs e e = true := by
  cases e <;> simp [errorsIs]

theorem errorsIs_errorf_wrapped (pre post : String) (e : GoError) :
    errorsIs (.errorf pre e post) e = true := by
  simp [errorsIs, errorsIs_self]

theorem Db.Begin_ok {db : Db} {tx : Nat} {db1 : Db} (h : db.Begin = (.ok tx, db1)) :
    tx = db.txs.length ∧ db.fault = none ∧
      db1 = { db.step (.begin db.txs.length) with txs := db.txs ++ [⟨false, []⟩] } := by
  unfold Db.Begin at h
  split at h
  · simp at h
  · rename_i hf
    simp only [Prod.mk.injEq, Except.ok.injEq] at h
    exact ⟨h.1.symm, hf, h.2.symm⟩

theorem Db.Begin_error {db : Db} {e : GoError} {db1 : Db} (h : db.Begin = (.error e, db1)) :
    db.fault = some e ∧ db1 = db.step (.begin db.txs.length) := by
  unfold Db.Begin at h
  split at h
  · rename_i e2 hf
    simp only [Prod.mk.injEq, Except.error.injEq] at h
    exact ⟨by rw [hf, h.1], h.2.symm⟩
  · simp at h

theorem Db.Commit_log (db : Db) (tx : Nat) :
    ∃ e, (db.Commit tx).2.log = db.log ++ [⟨.commit tx, e⟩] ∧ (db.Commit tx).1 = e := by
  unfold Db.Commit Db.refuse
  split
  · split
    · rename_i e hf
      exact ⟨some e, by simp [Db.step, hf], rfl⟩
    · rename_i hf
      exact ⟨none, by simp [Db.step, hf], rfl⟩
  · exact ⟨_, rfl, rfl⟩

theorem Db.Rollback_log (db : Db) (tx : Nat) :
    ∃ e, (db.Rollback tx).2.log = db.log ++ [⟨.rollback tx, e⟩] ∧ (db.Rollback tx).1 = e := by
  unfold Db.Rollback Db.refuse
  split
  · exact ⟨db.fault, by simp [Db.step], rfl⟩
  · exact ⟨_, rfl, rfl⟩

/-- C7: when beginning the transaction succeeds, `Transaction` logs the successful
`Begin`, runs the work function, and then makes exactly one further call on the
handle: `Rollback` when the work function returned an error, `Commit` when it
returned nil. -/
theorem transaction_finishes_handle_once (ctx : Context)
    (fn : Context → Db → Option GoError × Db) (db : Db) (tx : Nat) (db1 : Db)
    (hbegin : db.Begin = (.ok tx, db1)) :
    db1.log = db.log ++ [⟨.begin tx, none⟩] ∧
    ∃ outcome,
      (Transaction ctx fn db).2.log =
        (fn (ctx.withValue .txKey (.tx tx)) db1).2.log ++
          [⟨if (fn (ctx.withValue .txKey (.tx tx)) db1).1 = none then Call.commit tx
            else Call.rollback tx, outcome⟩] := by
  obtain ⟨htx, hf, hdb1⟩ := Db.Begin_ok hbegin
  refine ⟨by subst hdb1; simp [Db.step, hf, htx], ?_⟩
  unfold Transaction
  rw [hbegin]
  simp only
  rcases hfn : fn (ctx.withValue .txKey (.tx tx)) db1 with ⟨_ | err, db2⟩
  · obtain ⟨e, hlog, he⟩ := Db.Commit_log db2 tx
    refine ⟨e, ?_⟩
    cases e with
    | none => rcases hc : db2.Commit tx with ⟨_ | ce, db3⟩ <;> simp_all
    | some ce => rcases hc : db2.Commit tx with ⟨_ | ce, db3⟩ <;> simp_all
  · obtain ⟨e, hlog, he⟩ := Db.Rollback_log db2 tx
    refine ⟨e, ?_⟩
    cases e with
    | none => rcases hc : db2.Rollback tx with ⟨_ | ce, db3⟩ <;> simp_all
    | some ce => rcases hc : db2.Rollback tx with ⟨_ | ce, db3⟩ <;> simp_all


/-- C8: `Transaction` returns nil exactly when `Begin` succeeded, the work function
returned nil and `Commit` succeeded; and when the work function returned nil but
`Commit` failed with `e`, the result is the commit-failure error, which wraps `e`. -/
theorem transaction_nil_iff (ctx : Context) (fn : Context → Db → Option GoError × Db)
    (db : Db) :
    ((Transaction ctx fn db).1 = none ↔
      ∃ tx db1, db.Begin = (.ok tx, db1) ∧
        (fn (ctx.withValue .txKey (.tx tx)) db1).1 = none ∧
        ((fn (ctx.withValue .txKey (.tx tx)) db1).2.Commit tx).1 = none) ∧
    (∀ tx db1 e, db.Begin = (.ok tx, db1) →
        (fn (ctx.withValue .txKey (.tx tx)) db1).1 = none →
        ((fn (ctx.withValue .txKey (.tx tx)) db1).2.Commit tx).1 = some e →
        (Transaction ctx fn db).1 = some (.errorf "failed to commit transaction: " e "") ∧
        errorsIs (.errorf "failed to commit transaction: " e "") e = true) := by
  constructor
  · unfold Transaction
    rcases hb : db.Begin with ⟨e | tx, db1⟩
    · simp
    · simp only
      rcases hfn : fn (ctx.withValue .txKey (.tx tx)) db1 with ⟨_ | err, db2⟩
      · rcases hc : db2.Commit tx with ⟨_ | ce, db3⟩
        · constructor
          · intro _
            exact ⟨tx, db1, rfl, by rw [hfn], by rw [hfn, hc]⟩
          · intro _
            simp [hc]
        · simp [hfn, hc]
      · rcases hc : db2.Rollback tx with ⟨_ | ce, db3⟩ <;> simp [hfn, hc]
  · intro tx db1 e hb hfn hc
    refine ⟨?_, errorsIs_errorf_wrapped _ _ _⟩
    unfold Transaction
    rw [hb]
    simp only
    rcases hfn2 : fn (ctx.withValue .txKey (.tx tx)) db1 with ⟨_ | err, db2⟩
    · rw [hfn2] at hc
      rcases hc2 : db2.Commit tx with ⟨_ | ce, db3⟩ <;> simp_all
    · simp [hfn2] at hfn

theorem transaction_nil_iff_witness :
    (Transaction .background idleWork
        { Db.healthy [] [] 0 [] with faults := [none, some (.sentinel "bad connection")] }).1 =
      some (.errorf "failed to commit transaction: " (.sentinel "bad connection") "") ∧
    errorsIs (.errorf "failed to commit transaction: " (.sentinel "bad connection") "")
      (.sentinel "bad connection") = true :=
  (transaction_nil_iff .background idleWork
      { Db.healthy [] [] 0 [] with faults := [none, some (.sentinel "bad connection")] }).2
    0 _ (.sentinel "bad connection") rfl rfl rfl

/-- C9 as stated fails: the work function returns `work failed`, the rollback fails with
`bad connection`, and `errors.Is` does not find `work failed` in the error `Transaction`
returns. -/
theorem transaction_rollback_error_drops_cause :
    (Transaction .background (failingWork (.sentinel "work failed"))
        { Db.healthy [] [] 0 [] with faults := [none, some (.sentinel "bad connection")] }).1 =
      some (.errorf "failed to rollback transaction: " (.sentinel "bad connection")
        " (original error: work failed)") ∧
    errorsIs (.errorf "failed to rollback transaction: " (.sentinel "bad connection")
        " (original error: work failed)") (.sentinel "work failed") = false := by
  constructor
  · rfl
  · decide

/-- C9, amended: when the work function returns `e` and the rollback fails with `r`,
the error `Transaction` returns wraps `r` alone (`errors.Is` finds `r`, `Unwrap` gives
`r`), and keeps of `e` its message, quoted in the text of the returned error. -/
theorem transaction_rollback_error_wraps_rollback (ctx : Context)
    (fn : Context → Db → Option GoError × Db) (db : Db) (tx : Nat) (db1 : Db)
    (e r : GoError) (hbegin : db.Begin = (.ok tx, db1))
    (hwork : (fn (ctx.withValue .txKey (.tx tx)) db1).1 = some e)
    (hrollback : ((fn (ctx.withValue .txKey (.tx tx)) db1).2.Rollback tx).1 = some r) :
    ∃ res, (Transaction ctx fn db).1 = some res ∧ errorsIs res r = true ∧
      res.Unwrap = some r ∧
      res.Error =
        "failed to rollback transaction: " ++ r.Error ++
          (" (original error: " ++ e.Error ++ ")") := by
  refine ⟨.errorf "failed to rollback transaction: " r
    (" (original error: " ++ e.Error ++ ")"), ?_, errorsIs_errorf_wrapped _ _ _, rfl, rfl⟩
  unfold Transaction
  rw [hbegin]
  simp only
  rcases hfn : fn (ctx.withValue .txKey (.tx tx)) db1 with ⟨_ | err, db2⟩
  · simp [hfn] at hwork
  · rw [hfn] at hwork hrollback
    rcases hc : db2.Rollback tx with ⟨_ | ce, db3⟩ <;> simp_all

theorem transaction_rollback_error_wraps_rollback_witness :
    ∃ res, (Transaction .background (failingWork (.sentinel "work failed"))
        { Db.healthy [] [] 0 [] with faults := [none, some (.sentinel "bad connection")] }).1 =
        some res ∧ errorsIs res (.sentinel "bad connection") = true ∧
      res.Unwrap = some (.sentinel "bad connection") ∧
      res.Error =
        "failed to rollback transaction: " ++ (GoError.sentinel "bad connection").Error ++
          (" (original error: " ++ (GoError.sentinel "work failed").Error ++ ")") :=
  transaction_rollback_error_wraps_rollback .background
    (failingWork (.sentinel "work failed"))
    { Db.healthy [] [] 0 [] with faults := [none, some (.sentinel "bad connection")] }
    0 _ (.sentinel "work failed") (.sentinel "bad connection") rfl rfl rfl

/-- C10: when `Begin` fails with `e`, `Transaction` returns the transaction-start error
wrapping `e`, whatever the work function is: the state it leaves is the state the
failed `Begin` left, so the work function did not run, and the log gained the failed
`Begin` and nothing else, so neither `Commit` nor `Rollback` was called. -/
theorem transaction_begin_failure (ctx : Context) (db : Db) (e : GoError) (db1 : Db)
    (hbegin : db.Begin = (.error e, db1)) :
    (∀ fn : Context → Db → Option GoError × Db,
      Transaction ctx fn db = (some (.errorf "failed to begin transaction: " e ""), db1)) ∧
    errorsIs (.errorf "failed to begin transaction: " e "") e = true ∧
    db1.log = db.log ++ [⟨.begin db.txs.length, some e⟩] ∧
    db1.txs = db.txs ∧ db1.rankings = db.rankings := by
  obtain ⟨hf, hdb1⟩ := Db.Begin_error hbegin
  refine ⟨?_, errorsIs_errorf_wrapped _ _ _, ?_, ?_, ?_⟩
  · intro fn
    unfold Transaction
    rw [hbegin]
  · subst hdb1; simp [Db.step, hf]
  · subst hdb1; rfl
  · subst hdb1; rfl

theorem transaction_begin_failure_witness :
    Transaction .background idleWork
        { Db.healthy [] [] 0 [] with faults := [some (.sentinel "bad connection")] } =
      (some (.errorf "failed to begin transaction: " (.sentinel "bad connection") ""),
        { Db.healthy [] [] 0 [] with
            log := [⟨.begin 0, some (.sentinel "bad connection")⟩] }) :=
  (transaction_begin_failure .background
    { Db.healthy [] [] 0 [] with faults := [some (.sentinel "bad connection")] }
    (.sentinel "bad connection") _ rfl).1 idleWork


/-! ## Theorems: storage calls -/

theorem Db.Begin_rankings (db : Db) : db.Begin.2.rankings = db.rankings := by
  unfold Db.Begin
  split <;> rfl

theorem Db.Exec_rankings (db : Db) (tx : Nat) (s : Stmt) :
    (db.Exec tx s).2.rankings = db.rankings := by
  unfold Db.Exec Db.refuse
  split
  · split <;> rfl
  · rfl

theorem Db.Rollback_rankings (db : Db) (tx : Nat) :
    (db.Rollback tx).2.rankings = db.rankings := by
  unfold Db.Rollback Db.refuse
  split <;> rfl

theorem Db.Exec_none {db : Db} {tx : Nat} {s : Stmt} {db1 : Db}
    (h : db.Exec tx s = (none, db1)) :
    db.txOpen tx = true ∧ db.fault = none ∧
      db1 = { db.step (.exec tx s) with
                txs := db.txs.modify (fun t => { t with ops := t.ops ++ [s] }) tx } := by
  unfold Db.Exec Db.refuse at h
  split at h
  · rename_i hopen
    split at h
    · simp at h
    · rename_i hf
      simp only [Prod.mk.injEq, true_and] at h
      exact ⟨hopen, hf, h.symm⟩
  · simp at h

theorem Db.txOpen_modify_ops (db db1 : Db) (tx : Nat) (f : List Stmt → List Stmt)
    (h : db1.txs = db.txs.modify (fun t => { t with ops := f t.ops }) tx) (k : Nat) :
    db1.txOpen k = db.txOpen k := by
  unfold Db.txOpen
  rw [h, List.getElem?_modify]
  cases db.txs[k]? with
  | none => rfl
  | some t => by_cases hk : tx = k <;> simp [hk]

theorem Db.pending_modify_ops (db db1 : Db) (tx : Nat) (s : Stmt)
    (h : db1.txs = db.txs.modify (fun t => { t with ops := t.ops ++ [s] }) tx)
    (hopen : db.txOpen tx = true) :
    db1.pending tx = db.pending tx ++ [s] := by
  unfold Db.txOpen at hopen
  unfold Db.pending
  rw [h, List.getElem?_modify]
  cases hget : db.txs[tx]? with
  | none => simp [hget] at hopen
  | some t => simp

theorem Db.getElem?_modify_other (l : List TxState) (f : TxState → TxState) (tx k : Nat)
    (hk : k ≠ tx) : (l.modify f tx)[k]? = l[k]? := by
  rw [List.getElem?_modify]
  cases l[k]? with
  | none => rfl
  | some t => simp [Ne.symm hk]


/-! ## Theorems: `SaveRankings` -/

theorem insertRankings_rankings (tx : Nat) (rs : List Ranking) (db : Db) :
    (insertRankings tx rs db).2.rankings = db.rankings := by
  induction rs generalizing db with
  | nil => rfl
  | cons r rest ih =>
    unfold insertRankings
    rcases hE : ((timeNow (timeNow db).2).2).Exec tx
        (insertStmt r (timeNow db).1 (timeNow (timeNow db).2).1) with ⟨_ | e, d1⟩
    · have h1 := Db.Exec_rankings ((timeNow (timeNow db).2).2) tx
        (insertStmt r (timeNow db).1 (timeNow (timeNow db).2).1)
      rw [hE] at h1
      simp only [ih]
      exact h1
    · have h1 := Db.Exec_rankings ((timeNow (timeNow db).2).2) tx
        (insertStmt r (timeNow db).1 (timeNow (timeNow db).2).1)
      rw [hE] at h1
      exact h1

theorem insertRankings_none {tx : Nat} {rs : List Ranking} {db db1 : Db}
    (h : insertRankings tx rs db = (none, db1)) (hopen : db.txOpen tx = true) :
    db1.log = db.log ++
        (stampedRows rs db.clock).map (fun r => ⟨.exec tx (.insertRanking r), none⟩) ∧
      db1.pending tx = db.pending tx ++ (stampedRows rs db.clock).map .insertRanking ∧
      db1.txOpen tx = true ∧
      (∀ k, k ≠ tx → db1.txs[k]? = db.txs[k]?) ∧
      (db.faults = [] → db1.faults = []) := by
  induction rs generalizing db with
  | nil =>
    simp only [insertRankings, Prod.mk.injEq, true_and] at h
    subst h
    simp [stampedRows, hopen]
  | cons r rest ih =>
    unfold insertRankings at h
    rcases hE : ((timeNow (timeNow db).2).2).Exec tx
        (insertStmt r (timeNow db).1 (timeNow (timeNow db).2).1) with ⟨_ | e, d1⟩
    · rw [hE] at h
      simp only at h
      obtain ⟨ho, hf, hd1⟩ := Db.Exec_none hE
      have hopen1 : d1.txOpen tx = true := by
        rw [Db.txOpen_modify_ops ((timeNow (timeNow db).2).2) d1 tx
          (fun ops => ops ++ [insertStmt r (timeNow db).1 (timeNow (timeNow db).2).1])
          (by rw [hd1])]
        exact ho
      have hpend : d1.pending tx = db.pending tx ++
          [insertStmt r (timeNow db).1 (timeNow (timeNow db).2).1] := by
        rw [Db.pending_modify_ops ((timeNow (timeNow db).2).2) d1 tx _ (by rw [hd1]) ho]
        rfl
      have hlog : d1.log = db.log ++
          [⟨.exec tx (insertStmt r (timeNow db).1 (timeNow (timeNow db).2).1), none⟩] := by
        rw [hd1]
        simp only [Db.step, hf]
        rfl
      have hclock : d1.clock = db.clock + 2 := by
        rw [hd1]
        rfl
      have hframe : ∀ k, k ≠ tx → d1.txs[k]? = db.txs[k]? := by
        intro k hk
        rw [hd1]
        exact Db.getElem?_modify_other _ _ tx k hk
      have hfaults : db.faults = [] → d1.faults = [] := by
        intro h0
        rw [hd1]
        simp [Db.step, timeNow, h0]
      obtain ⟨ihlog, ihpend, ihopen, ihframe, ihfaults⟩ := ih h hopen1
      refine ⟨?_, ?_, ihopen, ?_, fun h0 => ihfaults (hfaults h0)⟩
      · rw [ihlog, hlog, hclock]
        simp [stampedRows, insertStmt, timeNow]
      · rw [ihpend, hpend, hclock]
        simp [stampedRows, insertStmt, timeNow]
      · intro k hk
        rw [ihframe k hk, hframe k hk]
    · rw [hE] at h
      simp at h


theorem saveRankingsBody_rankings (tx : Nat) (rs : List Ranking) (db : Db) :
    (saveRankingsBody tx rs db).2.rankings = db.rankings := by
  unfold saveRankingsBody
  have h1 := Db.Exec_rankings db tx .deleteRankings
  rcases hE : db.Exec tx .deleteRankings with ⟨_ | e, d1⟩
  · rw [hE] at h1
    simp only [insertRankings_rankings]
    exact h1
  · rw [hE] at h1
    exact h1

theorem SaveRankings_error_rankings (ctx : Context) (rs : List Ranking) (db : Db)
    (e : GoError) (h : (SaveRankings ctx rs db).1 = some e) :
    (SaveRankings ctx rs db).2.rankings = db.rankings := by
  unfold SaveRankings at h ⊢
  have hb := Db.Begin_rankings db
  rcases hB : db.Begin with ⟨be | tx, db1⟩
  · rw [hB] at hb
    exact hb
  · rw [hB] at hb h
    simp only at h ⊢
    have h2 := saveRankingsBody_rankings tx rs db1
    rcases hS : saveRankingsBody tx rs db1 with ⟨_ | se, db2⟩
    · rw [hS] at h
      simp at h
    · rw [hS] at h2
      simp only [Db.Rollback_rankings]
      exact h2.trans hb

theorem Db.Commit_open {db : Db} {tx : Nat} (hopen : db.txOpen tx = true) :
    (db.Commit tx).1 = db.fault ∧
      (db.Commit tx).2.log = db.log ++ [⟨.commit tx, db.fault⟩] ∧
      (db.Commit tx).2.rankings =
        (if db.fault = none then (db.pending tx).foldl applyStmt db.rankings
         else db.rankings) ∧
      (∀ k, k ≠ tx → (db.Commit tx).2.txs[k]? = db.txs[k]?) ∧
      (db.faults = [] → (db.Commit tx).2.faults = []) := by
  unfold Db.Commit
  rw [if_pos hopen]
  cases hf : db.fault with
  | none =>
    refine ⟨rfl, by simp [Db.step, hf], by simp, ?_, ?_⟩
    · intro k hk
      exact Db.getElem?_modify_other _ _ tx k hk
    · intro h0
      simp [Db.step, h0]
  | some e =>
    refine ⟨rfl, by simp [Db.step, hf], by simp [Db.step], ?_, ?_⟩
    · intro k hk
      exact Db.getElem?_modify_other _ _ tx k hk
    · intro h0
      simp [Db.step, h0]

theorem foldl_applyStmt_inserts (table rows : List RankingRow) :
    (rows.map Stmt.insertRanking).foldl applyStmt table = table ++ rows := by
  induction rows generalizing table with
  | nil => simp
  | cons r rest ih => simp [applyStmt, ih]

/-- What a `SaveRankings` call that returns nil did: it began a transaction of its own,
issued the delete, then one insert per entry in list order, all successful, and called
`Commit`; the table holds the inserted rows when that `Commit` succeeded and is
untouched when it failed. -/
theorem SaveRankings_none (ctx : Context) (rs : List Ranking) (db : Db)
    (h : (SaveRankings ctx rs db).1 = none) :
    ∃ cerr,
      (SaveRankings ctx rs db).2.log =
        db.log ++ (⟨.begin db.txs.length, none⟩ ::
          ⟨.exec db.txs.length .deleteRankings, none⟩ ::
          (stampedRows rs db.clock).map
            (fun r => ⟨.exec db.txs.length (.insertRanking r), none⟩)) ++
          [⟨.commit db.txs.length, cerr⟩] ∧
      (SaveRankings ctx rs db).2.rankings =
        (if cerr = none then stampedRows rs db.clock else db.rankings) ∧
      (∀ k, k < db.txs.length → (SaveRankings ctx rs db).2.txs[k]? = db.txs[k]?) ∧
      (db.faults = [] → cerr = none ∧ (SaveRankings ctx rs db).2.faults = []) := by
  unfold SaveRankings at h ⊢
  rcases hB : db.Begin with ⟨be | tx, db1⟩
  · rw [hB] at h
    simp at h
  · rw [hB] at h
    simp only at h ⊢
    obtain ⟨htx, hf, hdb1⟩ := Db.Begin_ok hB
    subst htx
    have hopen1 : db1.txOpen db.txs.length = true := by
      rw [hdb1]
      simp [Db.txOpen]
    have hpend1 : db1.pending db.txs.length = [] := by
      rw [hdb1]
      simp [Db.pending]
    have hlog1 : db1.log = db.log ++ [⟨.begin db.txs.length, none⟩] := by
      rw [hdb1]
      simp [Db.step, hf]
    have hframe1 : ∀ k, k < db.txs.length → db1.txs[k]? = db.txs[k]? := by
      intro k hk
      rw [hdb1]
      exact List.getElem?_append_left hk
    rcases hS : saveRankingsBody db.txs.length rs db1 with ⟨_ | se, db2⟩
    · have hr2 := saveRankingsBody_rankings db.txs.length rs db1
      rw [hS] at hr2
      simp only at hr2 ⊢
      unfold saveRankingsBody at hS
      rcases hE : db1.Exec db.txs.length .deleteRankings with ⟨_ | ee, d1⟩
      · rw [hE] at hS
        simp only at hS
        obtain ⟨_, hfe, hd1⟩ := Db.Exec_none hE
        have hopen2 : d1.txOpen db.txs.length = true := by
          rw [Db.txOpen_modify_ops db1 d1 db.txs.length
            (fun ops => ops ++ [Stmt.deleteRankings]) (by rw [hd1])]
          exact hopen1
        have hpend2 : d1.pending db.txs.length = [Stmt.deleteRankings] := by
          rw [Db.pending_modify_ops db1 d1 db.txs.length _ (by rw [hd1]) hopen1, hpend1]
          rfl
        have hlog2 : d1.log = db1.log ++ [⟨.exec db.txs.length .deleteRankings, none⟩] := by
          rw [hd1]
          simp [Db.step, hfe]
        have hclock2 : d1.clock = db.clock := by
          rw [hd1, hdb1]
          rfl
        have hframe2 : ∀ k, k ≠ db.txs.length → d1.txs[k]? = db1.txs[k]? := by
          intro k hk
          rw [hd1]
          exact Db.getElem?_modify_other _ _ _ k hk
        obtain ⟨hlog3, hpend3, hopen3, hframe3, hfaults3⟩ := insertRankings_none hS hopen2
        obtain ⟨_, hclog, hcrank, hcframe, hcfaults⟩ := Db.Commit_open hopen3
        have hfaults2 : db.faults = [] → db2.faults = [] := by
          intro h0
          apply hfaults3
          rw [hd1, hdb1]
          simp [Db.step, h0]
        refine ⟨db2.fault, ?_, ?_, ?_, ?_⟩
        · rw [hclog, hlog3, hlog2, hlog1, hclock2]
          simp
        · rw [hcrank, hpend3, hpend2, hclock2]
          cases db2.fault with
          | none =>
            simp only [↓reduceIte, List.singleton_append, List.foldl_cons, applyStmt]
            rw [foldl_applyStmt_inserts]
            rfl
          | some ce =>
            simp only [reduceCtorEq, ↓reduceIte]
            rw [hr2, hdb1]
            rfl
        · intro k hk
          have hne : k ≠ db.txs.length := Nat.ne_of_lt hk
          rw [hcframe k hne, hframe3 k hne, hframe2 k hne, hframe1 k hk]
        · intro h0
          exact ⟨by simp [Db.fault, hfaults2 h0], hcfaults (hfaults2 h0)⟩
      · rw [hE] at hS
        simp at hS
    · rw [hS] at h
      simp at h


theorem saveWork_error_rankings (ctx : Context) (rs : List Ranking) (db : Db)
    (e : GoError) (h : (saveWork rs ctx db).1 = some e) :
    (saveWork rs ctx db).2.rankings = db.rankings := by
  unfold saveWork at h ⊢
  rcases hS : SaveRankings ctx rs db with ⟨_ | se, db1⟩
  · rw [hS] at h
    simp at h
  · have := SaveRankings_error_rankings ctx rs db se (by rw [hS])
    rw [hS] at this
    exact this

theorem saveWork_none (ctx : Context) (rs : List Ranking) (db : Db)
    (h : (saveWork rs ctx db).1 = none) :
    (SaveRankings ctx rs db).1 = none ∧ (saveWork rs ctx db).2 = (SaveRankings ctx rs db).2 := by
  unfold saveWork at h ⊢
  rcases hS : SaveRankings ctx rs db with ⟨_ | se, db1⟩
  · exact ⟨rfl, rfl⟩
  · rw [hS] at h
    simp at h

/-! ## Theorems: atomicity of the ranking table -/

/-- C4: when the work function of `CalculatePopularRanking` returns an error, in
particular after its delete succeeded and one of its inserts failed, `Transaction`
returns an error and the committed ranking table is the one it was before the call,
whether or not the rollback succeeds. -/
theorem transaction_saveWork_error_keeps_rankings (ctx : Context) (rs : List Ranking)
    (db : Db) (tx : Nat) (db1 : Db) (e : GoError) (hbegin : db.Begin = (.ok tx, db1))
    (hwork : (saveWork rs (ctx.withValue .txKey (.tx tx)) db1).1 = some e) :
    (Transaction ctx (saveWork rs) db).1 ≠ none ∧
      (Transaction ctx (saveWork rs) db).2.rankings = db.rankings := by
  have hb := Db.Begin_rankings db
  rw [hbegin] at hb
  have hw := saveWork_error_rankings _ rs db1 e hwork
  unfold Transaction
  rw [hbegin]
  simp only
  rcases hfn : saveWork rs (ctx.withValue .txKey (.tx tx)) db1 with ⟨_ | err, db2⟩
  · rw [hfn] at hwork
    simp at hwork
  · rw [hfn] at hw
    have hr := Db.Rollback_rankings db2 tx
    rcases hR : db2.Rollback tx with ⟨_ | rbErr, db3⟩
    · rw [hR] at hr
      simp only [hR]
      exact ⟨by simp, hr.trans (hw.trans hb)⟩
    · rw [hR] at hr
      simp only [hR]
      exact ⟨by simp, hr.trans (hw.trans hb)⟩


/-! ## Theorems: the aggregation query -/

theorem scanRows_frame (rows : List BlogRankingData) (db : Db) :
    (scanRows rows db).2.rankings = db.rankings ∧ (scanRows rows db).2.txs = db.txs ∧
      (scanRows rows db).2.clock = db.clock ∧
      (db.faults = [] → (scanRows rows db).2.faults = []) ∧
      ∃ qs, (scanRows rows db).2.log = db.log ++ qs ∧ ∀ e ∈ qs, e.call.isRead = true := by
  induction rows generalizing db with
  | nil =>
    exact ⟨rfl, rfl, rfl, fun h0 => by simp [scanRows, Db.step, h0],
      [⟨.rowsNext, db.fault⟩], rfl, by simp [Call.isRead]⟩
  | cons row rest ih =>
    unfold scanRows
    cases hf : db.fault with
    | some e =>
      exact ⟨rfl, rfl, rfl, fun h0 => by simp [Db.step, h0],
        [⟨.rowsNext, db.fault⟩], rfl, by simp [Call.isRead]⟩
    | none =>
      simp only
      cases hf2 : (db.step .rowsNext).fault with
      | some e =>
        refine ⟨rfl, rfl, rfl, fun h0 => by simp [Db.step, h0],
          [⟨.rowsNext, db.fault⟩, ⟨.rowsScan, (db.step .rowsNext).fault⟩],
          by simp [Db.step], by simp [Call.isRead]⟩
      | none =>
        simp only
        obtain ⟨h1, h2, h3, h0, qs, h4, h5⟩ := ih ((db.step .rowsNext).step .rowsScan)
        rcases hS : scanRows rest ((db.step .rowsNext).step .rowsScan) with ⟨e | res, db2⟩
        · rw [hS] at h1 h2 h3 h4 h0
          refine ⟨h1, h2, h3, fun hz => h0 (by simp [Db.step, hz]),
            [⟨.rowsNext, db.fault⟩, ⟨.rowsScan, (db.step .rowsNext).fault⟩] ++ qs, ?_, ?_⟩
          · show db2.log = _
            rw [show db2.log = _ from h4]
            simp [Db.step]
          · intro e he
            simp only [List.mem_append, List.mem_cons, List.mem_singleton,
              List.not_mem_nil, or_false] at he
            rcases he with (he | he) | he
            · subst he; rfl
            · subst he; rfl
            · exact h5 e he
        · rw [hS] at h1 h2 h3 h4 h0
          refine ⟨h1, h2, h3, fun hz => h0 (by simp [Db.step, hz]),
            [⟨.rowsNext, db.fault⟩, ⟨.rowsScan, (db.step .rowsNext).fault⟩] ++ qs, ?_, ?_⟩
          · show db2.log = _
            rw [show db2.log = _ from h4]
            simp [Db.step]
          · intro e he
            simp only [List.mem_append, List.mem_cons, List.mem_singleton,
              List.not_mem_nil, or_false] at he
            rcases he with (he | he) | he
            · subst he; rfl
            · subst he; rfl
            · exact h5 e he

theorem scanRows_prefix (rows : List BlogRankingData) (db : Db)
    (stats : List BlogRankingData) (db1 : Db) (h : scanRows rows db = (.ok stats, db1)) :
    stats <+: rows := by
  induction rows generalizing db stats db1 with
  | nil =>
    simp only [scanRows, Prod.mk.injEq, Except.ok.injEq] at h
    rw [← h.1]
  | cons row rest ih =>
    unfold scanRows at h
    cases hf : db.fault with
    | some e =>
      rw [hf] at h
      simp only [Prod.mk.injEq, Except.ok.injEq] at h
      rw [← h.1]
      exact List.nil_prefix
    | none =>
      rw [hf] at h
      simp only at h
      cases hf2 : (db.step .rowsNext).fault with
      | some e =>
        rw [hf2] at h
        simp at h
      | none =>
        rw [hf2] at h
        simp only at h
        rcases hS : scanRows rest ((db.step .rowsNext).step .rowsScan) with ⟨e | res, db2⟩
        · rw [hS] at h
          simp at h
        · rw [hS] at h
          simp only [Prod.mk.injEq, Except.ok.injEq] at h
          rw [← h.1]
          exact (List.prefix_cons_inj row).mpr (ih _ _ _ hS)

theorem GetBlogRankingData_frame (ctx : Context) (days : Int) (db : Db) :
    (GetBlogRankingData ctx days db).2.rankings = db.rankings ∧
      (GetBlogRankingData ctx days db).2.txs = db.txs ∧
      (GetBlogRankingData ctx days db).2.clock = db.clock ∧
      (db.faults = [] → (GetBlogRankingData ctx days db).2.faults = []) ∧
      ∃ qs, (GetBlogRankingData ctx days db).2.log = db.log ++ qs ∧
        ∀ e ∈ qs, e.call.isRead = true := by
  unfold GetBlogRankingData
  cases hf : db.fault with
  | some e =>
    exact ⟨rfl, rfl, rfl, fun h0 => by simp [Db.step, h0],
      [⟨.query days, db.fault⟩], rfl, by simp [Call.isRead]⟩
  | none =>
    simp only
    obtain ⟨h1, h2, h3, h0, qs, h4, h5⟩ :=
      scanRows_frame (rankingQueryRows db days) (db.step (.query days))
    refine ⟨h1, h2, h3, fun hz => h0 (by simp [Db.step, hz]),
      ⟨.query days, db.fault⟩ :: qs, ?_, ?_⟩
    · rw [h4]
      simp [Db.step]
    · intro e he
      simp only [List.mem_cons] at he
      rcases he with he | he
      · subst he; rfl
      · exact h5 e he

theorem GetBlogRankingData_prefix (ctx : Context) (days : Int) (db : Db)
    (stats : List BlogRankingData) (db1 : Db)
    (h : GetBlogRankingData ctx days db = (.ok stats, db1)) :
    stats <+: rankingQueryRows db days := by
  unfold GetBlogRankingData at h
  cases hf : db.fault with
  | some e =>
    rw [hf] at h
    simp at h
  | none =>
    rw [hf] at h
    exact scanRows_prefix _ _ _ _ h

theorem rankingQueryRows_sorted (db : Db) (days : Int) :
    (rankingQueryRows db days).Pairwise (fun a b => b.TotalScore ≤ a.TotalScore) := by
  unfold rankingQueryRows
  have : IsTotal BlogRankingData (fun a b => b.TotalScore ≤ a.TotalScore) :=
    ⟨fun a b => Int.le_total b.TotalScore a.TotalScore⟩
  have : IsTrans BlogRankingData (fun a b => b.TotalScore ≤ a.TotalScore) :=
    ⟨fun a b c hab hbc => Int.le_trans hbc hab⟩
  exact List.sorted_insertionSort _ _


/-! ## Theorems: a run of `CalculatePopularRanking` -/

/-- What a run of `CalculatePopularRanking` that returns nil did: the query delivered
`stats`, a prefix of its result set; one entry was built per element; the
Unit-of-Work began handle `n`, `SaveRankings` began handle `n + 1` and issued on it
the delete and one insert per entry, then called `Commit` on it with outcome `cerr`,
and the Unit-of-Work committed handle `n`.  The table holds the inserted rows when
`cerr` is nil and is untouched otherwise. -/
theorem CalculatePopularRanking_none (ctx : Context) (days : Int) (db : Db)
    (h : (CalculatePopularRanking ctx days db).1 = none) :
    ∃ stats rs qs cerr,
      (GetBlogRankingData ctx days db).1 = .ok stats ∧
      stats <+: rankingQueryRows db days ∧
      buildRankings 0 stats = .ok rs ∧
      (∀ e ∈ qs, e.call.isRead = true) ∧
      (CalculatePopularRanking ctx days db).2.log =
        db.log ++ qs ++ (⟨.begin db.txs.length, none⟩ ::
          ⟨.begin (db.txs.length + 1), none⟩ ::
          ⟨.exec (db.txs.length + 1) .deleteRankings, none⟩ ::
          (stampedRows rs db.clock).map
            (fun r => ⟨.exec (db.txs.length + 1) (.insertRanking r), none⟩)) ++
          [⟨.commit (db.txs.length + 1), cerr⟩, ⟨.commit db.txs.length, none⟩] ∧
      (CalculatePopularRanking ctx days db).2.rankings =
        (if cerr = none then stampedRows rs db.clock else db.rankings) ∧
      (db.faults = [] → cerr = none) := by
  unfold CalculatePopularRanking at h ⊢
  obtain ⟨hqr, hqt, hqc, hqf, qs, hql, hqs⟩ := GetBlogRankingData_frame ctx days db
  rcases hG : GetBlogRankingData ctx days db with ⟨ge | stats, db1⟩
  · rw [hG] at h
    simp at h
  · rw [hG] at h hqr hqt hqc hql hqf
    simp only at h hqr hqt hqc hql hqf ⊢
    cases hBR : buildRankings 0 stats with
    | error be =>
      rw [hBR] at h
      simp at h
    | ok rs =>
      rw [hBR] at h
      simp only at h ⊢
      refine ⟨stats, rs, qs, ?_⟩
      unfold Transaction at h ⊢
      rcases hB : db1.Begin with ⟨be | tx, dbA⟩
      · rw [hB] at h
        simp at h
      · rw [hB] at h
        simp only at h ⊢
        obtain ⟨htx, hfA, hdbA⟩ := Db.Begin_ok hB
        subst htx
        rcases hW : saveWork rs (ctx.withValue .txKey (.tx db1.txs.length)) dbA
          with ⟨_ | we, dbB⟩
        · rw [hW] at h
          simp only at h ⊢
          obtain ⟨hSnone, hSeq⟩ := saveWork_none _ rs dbA (by rw [hW])
          rw [hW] at hSeq
          simp only at hSeq
          obtain ⟨cerr, hlogB, hrankB, hframeB, hfaultsB⟩ := SaveRankings_none _ rs dbA hSnone
          rw [← hSeq] at hlogB hrankB hframeB
          have hlenA : dbA.txs.length = db.txs.length + 1 := by
            rw [hdbA, ← hqt]
            simp
          have hgetB : dbB.txs[db1.txs.length]? = some ⟨false, []⟩ := by
            rw [hframeB db1.txs.length (by rw [hlenA, hqt]; exact Nat.lt_succ_self _), hdbA]
            simp
          have hopenB : dbB.txOpen db1.txs.length = true := by
            simp [Db.txOpen, hgetB]
          have hpendB : dbB.pending db1.txs.length = [] := by
            simp [Db.pending, hgetB]
          obtain ⟨hc1, hclog, hcrank, _, _⟩ := Db.Commit_open hopenB
          rcases hC : dbB.Commit db1.txs.length with ⟨_ | ce, dbC⟩
          · rw [hC] at hc1 hclog hcrank
            simp only at hc1 hclog hcrank ⊢
            refine ⟨cerr, trivial, GetBlogRankingData_prefix ctx days db stats db1 hG, hBR,
              hqs, ?_, ?_, ?_⟩
            · rw [hclog, hlogB, ← hc1, hlenA, hdbA]
              simp only [Db.step, hfA, hql, hqt, hqc]
              simp
            · rw [hcrank, ← hc1, hpendB, hrankB, hdbA]
              simp only [↓reduceIte, List.foldl_nil, Db.step, hqc, hqr]
            · intro h0
              refine (hfaultsB ?_).1
              rw [hdbA]
              simp [Db.step, hqf h0]
          · rw [hC] at h
            simp at h
        · rw [hW] at h
          simp only at h
          rcases hR : dbB.Rollback db1.txs.length with ⟨_ | re, dbC⟩ <;>
            · rw [hR] at h
              simp at h


theorem persistedRow_read (entries : List LogEntry) (e : LogEntry)
    (h : e.call.isRead = true) : persistedRow entries e = none := by
  rcases e with ⟨c, err⟩
  cases c <;> simp_all [Call.isRead, persistedRow]

theorem filterMap_persistedRow_inserts (L : List LogEntry) (n : Nat)
    (rows : List RankingRow) (hin : (⟨.commit n, none⟩ : LogEntry) ∈ L) :
    (rows.map (fun r => (⟨.exec n (.insertRanking r), none⟩ : LogEntry))).filterMap
      (persistedRow L) = rows := by
  induction rows with
  | nil => rfl
  | cons r rest ih =>
    simp only [List.map_cons, List.filterMap_cons, persistedRow, hin, ↓reduceIte]
    rw [ih]

theorem persistedRows_run (qs : List LogEntry) (n : Nat) (rows : List RankingRow)
    (cerr : Option GoError) (hqs : ∀ e ∈ qs, e.call.isRead = true) :
    persistedRows (qs ++ (⟨.begin n, none⟩ :: ⟨.begin (n + 1), none⟩ ::
        ⟨.exec (n + 1) .deleteRankings, none⟩ ::
        rows.map (fun r => ⟨.exec (n + 1) (.insertRanking r), none⟩)) ++
        [⟨.commit (n + 1), cerr⟩, ⟨.commit n, none⟩]) =
      if cerr = none then rows else [] := by
  have hmem : (⟨.commit (n + 1), none⟩ : LogEntry) ∈
      (qs ++ (⟨.begin n, none⟩ :: ⟨.begin (n + 1), none⟩ ::
        ⟨.exec (n + 1) .deleteRankings, none⟩ ::
        rows.map (fun r => ⟨.exec (n + 1) (.insertRanking r), none⟩)) ++
        [⟨.commit (n + 1), cerr⟩, ⟨.commit n, none⟩]) ↔ cerr = none := by
    constructor
    · intro hm
      simp only [List.mem_append, List.mem_cons, List.mem_map, List.mem_singleton,
        LogEntry.mk.injEq, Call.commit.injEq, reduceCtorEq, false_and, and_false,
        exists_false, false_or, or_false, List.not_mem_nil, true_and,
        Nat.succ_ne_self, add_right_eq_self, one_ne_zero] at hm
      rcases hm with hm | hm
      · have := hqs _ hm
        simp [Call.isRead] at this
      · exact hm.symm
    · intro hc
      subst hc
      simp
  unfold persistedRows
  generalize hL : (qs ++ (⟨.begin n, none⟩ :: ⟨.begin (n + 1), none⟩ ::
        ⟨.exec (n + 1) .deleteRankings, none⟩ ::
        rows.map (fun r => ⟨.exec (n + 1) (.insertRanking r), none⟩)) ++
        [⟨.commit (n + 1), cerr⟩, ⟨.commit n, none⟩]) = L at hmem
  have hq : qs.filterMap (persistedRow L) = [] := by
    rw [List.filterMap_eq_nil_iff]
    intro e he
    exact persistedRow_read L e (hqs e he)
  have hrows : (rows.map (fun r => (⟨.exec (n + 1) (.insertRanking r), none⟩ : LogEntry))).filterMap
      (persistedRow L) = if cerr = none then rows else [] := by
    by_cases hc : cerr = none
    · rw [if_pos hc]
      exact filterMap_persistedRow_inserts L (n + 1) rows (hmem.mpr hc)
    · have hin : ¬ (⟨.commit (n + 1), none⟩ : LogEntry) ∈ L := fun hm => hc (hmem.mp hm)
      rw [if_neg hc, List.filterMap_map, List.filterMap_eq_nil_iff]
      intro r _
      simp [persistedRow, hin]
  rw [← hL]
  simp only [List.filterMap_append, List.filterMap_cons, List.filterMap_nil]
  rw [hL, hq, hrows]
  simp [persistedRow]


theorem NewID_ok {value : String} {id : ID} (h : NewID value = .ok id) : id.String = value := by
  unfold NewID at h
  split at h
  · simp at h
  · simp only [Except.ok.injEq] at h
    rw [← h]
    rfl

theorem buildRankings_content (i : Nat) (stats : List BlogRankingData) (rs : List Ranking)
    (h : buildRankings i stats = .ok rs) :
    rs.map Ranking.content =
      (stats.enumFrom i).map (fun p => (p.2.BlogID, (p.1 : Int) + 1, p.2.TotalScore)) := by
  induction stats generalizing i rs with
  | nil =>
    simp only [buildRankings, Except.ok.injEq] at h
    rw [← h]
    rfl
  | cons s rest ih =>
    unfold buildRankings at h
    cases hN : NewID s.BlogID with
    | error e =>
      rw [hN] at h
      simp at h
    | ok id =>
      rw [hN] at h
      simp only at h
      cases hB : buildRankings (i + 1) rest with
      | error e =>
        rw [hB] at h
        simp at h
      | ok rs1 =>
        rw [hB] at h
        simp only [Except.ok.injEq] at h
        rw [← h, List.enumFrom_cons, List.map_cons, List.map_cons, ih (i + 1) rs1 hB]
        simp [Ranking.content, NewRanking, NewID_ok hN]

theorem stampedRows_content (rs : List Ranking) (clock : Nat) :
    (stampedRows rs clock).map RankingRow.content = rs.map Ranking.content := by
  induction rs generalizing clock with
  | nil => rfl
  | cons r rest ih =>
    simp only [stampedRows, List.map_cons, ih]
    rfl

theorem enumFrom_pairwise_of_sorted (i : Nat) (stats : List BlogRankingData)
    (h : stats.Pairwise (fun a b => b.TotalScore ≤ a.TotalScore)) :
    ((stats.enumFrom i).map
        (fun p => ((p.2.BlogID, (p.1 : Int) + 1, p.2.TotalScore) : String × Int × Int))).Pairwise
      (fun a b => b.2.2 ≤ a.2.2 ∧ a.2.1 < b.2.1) := by
  induction stats generalizing i with
  | nil => simp
  | cons s rest ih =>
    rw [List.pairwise_cons] at h
    rw [List.enumFrom_cons, List.map_cons, List.pairwise_cons]
    refine ⟨?_, ih (i + 1) h.2⟩
    intro c hc
    rw [List.mem_map] at hc
    obtain ⟨⟨j, t⟩, hjt, rfl⟩ := hc
    obtain ⟨hle, hlt, hget⟩ := List.mem_enumFrom hjt
    have ht : t ∈ rest := by
      rw [hget]
      exact List.getElem_mem _
    refine ⟨h.1 t ht, ?_⟩
    simp only
    omega

theorem scoreOrdered_of_pairwise (rows : List RankingRow)
    (h : (rows.map RankingRow.content).Pairwise
      (fun a b => b.2.2 ≤ a.2.2 ∧ a.2.1 < b.2.1)) : ScoreOrdered rows := by
  induction rows with
  | nil =>
    intro a ha
    simp at ha
  | cons r rest ih =>
    rw [List.map_cons, List.pairwise_cons] at h
    have hrest := ih h.2
    intro a ha b hb hlt
    rw [List.mem_cons] at ha hb
    rcases ha with rfl | ha <;> rcases hb with rfl | hb
    · exact absurd hlt (lt_irrefl _)
    · exact (h.1 _ (List.mem_map_of_mem _ hb)).2
    · have := (h.1 _ (List.mem_map_of_mem _ ha)).1
      simp only [RankingRow.content] at this
      omega
    · exact hrest a ha b hb hlt

/-- The rows of a run of `CalculatePopularRanking` that returned nil: either the
`Commit` of `SaveRankings` failed, the run made no row durable and the table is as it
was, or the durable rows are the content of the table and carry, for the blog the
query returned at index `i`, position `i + 1` and the score of the query. -/
theorem CalculatePopularRanking_rows (ctx : Context) (days : Int) (db : Db)
    (h : (CalculatePopularRanking ctx days db).1 = none) :
    ∃ stats, (GetBlogRankingData ctx days db).1 = .ok stats ∧
      stats <+: rankingQueryRows db days ∧
      ((persistedRows (callsSince db (CalculatePopularRanking ctx days db).2) = [] ∧
          (CalculatePopularRanking ctx days db).2.rankings = db.rankings) ∨
        ((persistedRows (callsSince db (CalculatePopularRanking ctx days db).2)).map
            RankingRow.content = rankedContent stats ∧
          (CalculatePopularRanking ctx days db).2.rankings =
            persistedRows (callsSince db (CalculatePopularRanking ctx days db).2))) := by
  obtain ⟨stats, rs, qs, cerr, hG, hpre, hB, hqs, hlog, hrank, _⟩ :=
    CalculatePopularRanking_none ctx days db h
  refine ⟨stats, hG, hpre, ?_⟩
  have hcalls : callsSince db (CalculatePopularRanking ctx days db).2 =
      qs ++ (⟨.begin db.txs.length, none⟩ :: ⟨.begin (db.txs.length + 1), none⟩ ::
        ⟨.exec (db.txs.length + 1) .deleteRankings, none⟩ ::
        (stampedRows rs db.clock).map
          (fun r => ⟨.exec (db.txs.length + 1) (.insertRanking r), none⟩)) ++
        [⟨.commit (db.txs.length + 1), cerr⟩, ⟨.commit db.txs.length, none⟩] := by
    unfold callsSince
    rw [hlog, List.append_assoc, List.append_assoc, List.drop_left, List.append_assoc]
  rw [hcalls, persistedRows_run qs _ _ cerr hqs, hrank]
  cases cerr with
  | some ce => exact Or.inl ⟨by simp, by simp⟩
  | none =>
    refine Or.inr ⟨?_, by simp⟩
    simp only [↓reduceIte]
    rw [stampedRows_content, buildRankings_content 0 stats rs hB]
    rfl


/-! ## Theorems: runs on a storage without failures -/

theorem Db.fault_of_faults_nil {db : Db} (h : db.faults = []) : db.fault = none := by
  simp [Db.fault, h]

theorem scanRows_healthy (rows : List BlogRankingData) (db : Db) (h0 : db.faults = []) :
    (scanRows rows db).1 = .ok rows := by
  induction rows generalizing db with
  | nil => rfl
  | cons row rest ih =>
    have h1 : (db.step .rowsNext).faults = [] := by simp [Db.step, h0]
    have h2 : ((db.step .rowsNext).step .rowsScan).faults = [] := by simp [Db.step, h0]
    have := ih _ h2
    unfold scanRows
    rw [Db.fault_of_faults_nil h0]
    simp only
    rw [Db.fault_of_faults_nil h1]
    simp only
    rcases hS : scanRows rest ((db.step .rowsNext).step .rowsScan) with ⟨e | res, db2⟩
    · rw [hS] at this
      simp at this
    · rw [hS] at this
      simp only [Except.ok.injEq] at this
      rw [this]

theorem GetBlogRankingData_healthy (ctx : Context) (days : Int) (db : Db)
    (h0 : db.faults = []) :
    (GetBlogRankingData ctx days db).1 = .ok (rankingQueryRows db days) := by
  unfold GetBlogRankingData
  rw [Db.fault_of_faults_nil h0]
  exact scanRows_healthy _ _ (by simp [Db.step, h0])

theorem buildRankings_total (i : Nat) (stats : List BlogRankingData)
    (h : ∀ s ∈ stats, s.BlogID ≠ "") : ∃ rs, buildRankings i stats = .ok rs := by
  induction stats generalizing i with
  | nil => exact ⟨[], rfl⟩
  | cons s rest ih =>
    obtain ⟨rs, hrs⟩ := ih (i + 1) (fun t ht => h t (List.mem_cons_of_mem _ ht))
    have hs : s.BlogID ≠ "" := h s (List.mem_cons_self _ _)
    refine ⟨NewRanking ⟨s.BlogID⟩ ((i : Int) + 1) s.TotalScore :: rs, ?_⟩
    unfold buildRankings
    simp [NewID, hs, hrs]

theorem rankingQueryRows_blogID (db : Db) (days : Int) :
    ∀ s ∈ rankingQueryRows db days, s.BlogID ∈ db.blogs := by
  intro s hs
  unfold rankingQueryRows at hs
  rw [(List.perm_insertionSort _ _).mem_iff, List.mem_map] at hs
  obtain ⟨b, hb, rfl⟩ := hs
  unfold joinRow
  split <;> exact hb

theorem insertRankings_healthy (tx : Nat) (rs : List Ranking) (db : Db)
    (h0 : db.faults = []) (hopen : db.txOpen tx = true) :
    (insertRankings tx rs db).1 = none := by
  induction rs generalizing db with
  | nil => rfl
  | cons r rest ih =>
    unfold insertRankings
    have hE1 : (((timeNow (timeNow db).2).2).Exec tx
        (insertStmt r (timeNow db).1 (timeNow (timeNow db).2).1)).1 = none := by
      unfold Db.Exec
      rw [if_pos (by simpa [timeNow, Db.txOpen] using hopen)]
      rw [Db.fault_of_faults_nil (by simp [timeNow, h0])]
    rcases hE : ((timeNow (timeNow db).2).2).Exec tx
        (insertStmt r (timeNow db).1 (timeNow (timeNow db).2).1) with ⟨_ | e, d1⟩
    · obtain ⟨ho, _, hd1⟩ := Db.Exec_none hE
      simp only
      apply ih
      · rw [hd1]
        simp [Db.step, timeNow, h0]
      · rw [Db.txOpen_modify_ops ((timeNow (timeNow db).2).2) d1 tx
          (fun ops => ops ++ [insertStmt r (timeNow db).1 (timeNow (timeNow db).2).1])
          (by rw [hd1])]
        exact ho
    · rw [hE] at hE1
      simp at hE1

theorem SaveRankings_healthy (ctx : Context) (rs : List Ranking) (db : Db)
    (h0 : db.faults = []) : (SaveRankings ctx rs db).1 = none := by
  unfold SaveRankings Db.Begin
  rw [Db.fault_of_faults_nil h0]
  simp only
  have hopen1 : Db.txOpen { db.step (.begin db.txs.length) with
      txs := db.txs ++ [⟨false, []⟩] } db.txs.length = true := by
    simp [Db.txOpen]
  have hbody : (saveRankingsBody db.txs.length rs { db.step (.begin db.txs.length) with
      txs := db.txs ++ [⟨false, []⟩] }).1 = none := by
    unfold saveRankingsBody
    have hE1 : (Db.Exec { db.step (.begin db.txs.length) with
        txs := db.txs ++ [⟨false, []⟩] } db.txs.length .deleteRankings).1 = none := by
      unfold Db.Exec
      rw [if_pos hopen1, Db.fault_of_faults_nil (by simp [Db.step, h0])]
    rcases hE : Db.Exec { db.step (.begin db.txs.length) with
        txs := db.txs ++ [⟨false, []⟩] } db.txs.length .deleteRankings with ⟨_ | e, d1⟩
    · obtain ⟨ho, _, hd1⟩ := Db.Exec_none hE
      simp only
      apply insertRankings_healthy
      · rw [hd1]
        simp [Db.step, h0]
      · rw [Db.txOpen_modify_ops _ d1 db.txs.length
          (fun ops => ops ++ [Stmt.deleteRankings]) (by rw [hd1])]
        exact ho
    · rw [hE] at hE1
      simp at hE1
  rcases hS : saveRankingsBody db.txs.length rs { db.step (.begin db.txs.length) with
      txs := db.txs ++ [⟨false, []⟩] } with ⟨_ | e, d2⟩
  · rfl
  · rw [hS] at hbody
    simp at hbody


theorem CalculatePopularRanking_healthy_ok (ctx : Context) (days : Int) (db : Db)
    (h0 : db.faults = []) (hids : ∀ b ∈ db.blogs, b ≠ "") :
    (CalculatePopularRanking ctx days db).1 = none := by
  unfold CalculatePopularRanking
  have hG := GetBlogRankingData_healthy ctx days db h0
  obtain ⟨_, hqt, _, hqf, _⟩ := GetBlogRankingData_frame ctx days db
  rcases hGe : GetBlogRankingData ctx days db with ⟨ge | stats, db1⟩
  · rw [hGe] at hG
    simp at hG
  · rw [hGe] at hG hqt hqf
    simp only [Except.ok.injEq] at hG hqt hqf ⊢
    subst hG
    obtain ⟨rs, hrs⟩ := buildRankings_total 0 (rankingQueryRows db days)
      (fun s hs => hids _ (rankingQueryRows_blogID db days s hs))
    rw [hrs]
    simp only
    have h1 : db1.faults = [] := hqf h0
    unfold Transaction Db.Begin
    rw [Db.fault_of_faults_nil h1]
    simp only
    have hA0 : Db.faults { db1.step (.begin db1.txs.length) with
        txs := db1.txs ++ [⟨false, []⟩] } = [] := by simp [Db.step, h1]
    have hSnone := SaveRankings_healthy (ctx.withValue .txKey (.tx db1.txs.length)) rs _ hA0
    obtain ⟨cerr, _, _, hframeB, hfaultsB⟩ := SaveRankings_none _ rs _ hSnone
    have hW : saveWork rs (ctx.withValue .txKey (.tx db1.txs.length))
        { db1.step (.begin db1.txs.length) with txs := db1.txs ++ [⟨false, []⟩] } =
        (none, (SaveRankings (ctx.withValue .txKey (.tx db1.txs.length)) rs
          { db1.step (.begin db1.txs.length) with txs := db1.txs ++ [⟨false, []⟩] }).2) := by
      unfold saveWork
      rcases hS : SaveRankings (ctx.withValue .txKey (.tx db1.txs.length)) rs
          { db1.step (.begin db1.txs.length) with txs := db1.txs ++ [⟨false, []⟩] }
        with ⟨_ | se, dbB⟩
      · rfl
      · rw [hS] at hSnone
        simp at hSnone
    rw [hW]
    simp only
    have hget := hframeB db1.txs.length (by simp)
    have hopenB : Db.txOpen (SaveRankings (ctx.withValue .txKey (.tx db1.txs.length)) rs
        { db1.step (.begin db1.txs.length) with txs := db1.txs ++ [⟨false, []⟩] }).2
        db1.txs.length = true := by
      unfold Db.txOpen
      rw [hget]
      simp
    obtain ⟨hc1, _⟩ := Db.Commit_open hopenB
    rw [Db.fault_of_faults_nil (hfaultsB hA0).2] at hc1
    rcases hC : Db.Commit (SaveRankings (ctx.withValue .txKey (.tx db1.txs.length)) rs
        { db1.step (.begin db1.txs.length) with txs := db1.txs ++ [⟨false, []⟩] }).2
        db1.txs.length with ⟨_ | ce, dbC⟩
    · rfl
    · rw [hC] at hc1
      simp at hc1

/-- On a storage without failures holding blogs of non-empty id,
`CalculatePopularRanking` returns nil and leaves the ranking table holding one row per
blog of the query result, in its order, at positions `1, 2, ...`. -/
theorem CalculatePopularRanking_healthy (ctx : Context) (days : Int) (db : Db)
    (h0 : db.faults = []) (hids : ∀ b ∈ db.blogs, b ≠ "") :
    (CalculatePopularRanking ctx days db).1 = none ∧
      (CalculatePopularRanking ctx days db).2.rankings.map RankingRow.content =
        rankedContent (rankingQueryRows db days) := by
  have hok := CalculatePopularRanking_healthy_ok ctx days db h0 hids
  refine ⟨hok, ?_⟩
  obtain ⟨stats, rs, qs, cerr, hG, _, hB, _, _, hrank, hcerr⟩ :=
    CalculatePopularRanking_none ctx days db hok
  rw [GetBlogRankingData_healthy ctx days db h0] at hG
  simp only [Except.ok.injEq] at hG
  subst hG
  rw [hrank, if_pos (hcerr h0), stampedRows_content, buildRankings_content 0 _ rs hB]
  rfl


/-! ## Theorems: the score of a blog -/

theorem lookup_map_key (keys : List String) (f : String → Int) (b : String) :
    (keys.map (fun k => (k, f k))).lookup b = if b ∈ keys then some (f b) else none := by
  induction keys with
  | nil => rfl
  | cons k rest ih =>
    simp only [List.map_cons, List.lookup_cons, List.mem_cons]
    by_cases hbk : b = k
    · subst hbk
      simp
    · have : (b == k) = false := by simpa using hbk
      rw [this, ih]
      simp [hbk]

theorem countP_blogId_eq (db : Db) (days : Int) (b : String) :
    (db.comments.filter (inWindow db days)).countP (fun c => c.blogId == b) =
      commentsInWindow db days b := by
  unfold commentsInWindow
  rw [List.countP_eq_length_filter, List.filter_filter]
  congr 1

/-- Every blog is joined to its number of comments in the window, `0` when it has
none: the score of a row of the query is the comment count of its blog. -/
theorem joinRow_commentCounts (db : Db) (days : Int) (b : String) :
    joinRow (commentCounts db days) b =
      ⟨b, (commentsInWindow db days b : Int), (commentsInWindow db days b : Int)⟩ := by
  unfold joinRow commentCounts
  rw [lookup_map_key _ (fun k => (((db.comments.filter (inWindow db days)).countP
    (fun c => c.blogId == k) : Nat) : Int)) b]
  by_cases hb : b ∈ ((db.comments.filter (inWindow db days)).map (fun c => c.blogId)).dedup
  · rw [if_pos hb]
    simp only [countP_blogId_eq]
  · rw [if_neg hb]
    simp only
    have hzero : commentsInWindow db days b = 0 := by
      rw [← countP_blogId_eq, List.countP_eq_zero]
      intro c hc hcb
      apply hb
      rw [List.mem_dedup, List.mem_map]
      exact ⟨c, hc, by simpa using hcb⟩
    rw [hzero]
    rfl


/-- C1 fails on a run that returns nil: the query returns one blog, every call up to
the inserts succeeds, the `Commit` of `SaveRankings` fails and its error is dropped,
so `CalculatePopularRanking` returns nil while the run made no row durable and the
ranking table is still empty: position 1 is missing. -/
theorem calculatePopularRanking_nil_without_rows :
    (GetBlogRankingData .background 7 lostCommitDb).1 = .ok [⟨"B1", 0, 0⟩] ∧
      (CalculatePopularRanking .background 7 lostCommitDb).1 = none ∧
      (CalculatePopularRanking .background 7 lostCommitDb).2.rankings = [] ∧
      persistedRows (callsSince lostCommitDb
        (CalculatePopularRanking .background 7 lostCommitDb).2) = [] ∧
      (CalculatePopularRanking .background 7 lostCommitDb).2.log.getLast? =
        some ⟨.commit 0, none⟩ ∧
      (⟨.commit 1, some (.sentinel "bad connection")⟩ : LogEntry) ∈
        (CalculatePopularRanking .background 7 lostCommitDb).2.log := by
  refine ⟨by rfl, by rfl, by rfl, by decide, by rfl, by decide⟩

/-- C5 fails when the commit of the Unit-of-Work fails: `SaveRankings` has already
committed the new rows in its own transaction, so `CalculatePopularRanking` returns the
commit-failure error while the ranking table holds the new generation, not the
previous one. -/
theorem calculatePopularRanking_error_after_replace :
    (CalculatePopularRanking .background 7 lateCommitFailureDb).1 =
        some (.errorf "failed to commit transaction: " (.sentinel "bad connection") "") ∧
      lateCommitFailureDb.rankings = [previousRow] ∧
      (CalculatePopularRanking .background 7 lateCommitFailureDb).2.rankings =
        [⟨"B1", 1, 0, 0, 1⟩] ∧
      (CalculatePopularRanking .background 7 lateCommitFailureDb).2.rankings ≠
        lateCommitFailureDb.rankings := by
  refine ⟨by rfl, by rfl, by rfl, by decide⟩

/-- C6 fails when the `Commit` of `SaveRankings` fails: the deferred function drops the
error, `SaveRankings` returns nil, and the table still holds the previous generation
instead of the row of the entry. -/
theorem saveRankings_nil_without_replace :
    (SaveRankings .background [NewRanking ⟨"B1"⟩ 1 5] saveCommitFailureDb).1 = none ∧
      (SaveRankings .background [NewRanking ⟨"B1"⟩ 1 5] saveCommitFailureDb).2.rankings =
        [previousRow] ∧
      (SaveRankings .background [NewRanking ⟨"B1"⟩ 1 5] saveCommitFailureDb).2.log =
        [⟨.begin 0, none⟩, ⟨.exec 0 .deleteRankings, none⟩,
          ⟨.exec 0 (.insertRanking ⟨"B1", 1, 5, 0, 1⟩), none⟩,
          ⟨.commit 0, some (.sentinel "bad connection")⟩] := by
  refine ⟨by rfl, by rfl, by rfl⟩


/-- C2: after a run of `CalculatePopularRanking` that returned nil, the ranking rows the
run made durable are in non-increasing order of score: of two such rows, the one of
greater score has the smaller position.  These rows are the content of the table,
unless the run left the table as it was; so the table is ordered in this way after
the run whenever it was before. -/
theorem calculatePopularRanking_score_ordered (ctx : Context) (days : Int) (db : Db)
    (hok : (CalculatePopularRanking ctx days db).1 = none) :
    (∀ a ∈ persistedRows (callsSince db (CalculatePopularRanking ctx days db).2),
      ∀ b ∈ persistedRows (callsSince db (CalculatePopularRanking ctx days db).2),
        b.score < a.score → a.rankingPosition < b.rankingPosition) ∧
    ((CalculatePopularRanking ctx days db).2.rankings =
        persistedRows (callsSince db (CalculatePopularRanking ctx days db).2) ∨
      (CalculatePopularRanking ctx days db).2.rankings = db.rankings) ∧
    (ScoreOrdered db.rankings →
      ScoreOrdered (CalculatePopularRanking ctx days db).2.rankings) := by
  obtain ⟨stats, _, hpre, hcase⟩ := CalculatePopularRanking_rows ctx days db hok
  have hsorted : stats.Pairwise (fun a b => b.TotalScore ≤ a.TotalScore) :=
    (rankingQueryRows_sorted db days).sublist hpre.sublist
  rcases hcase with ⟨hnil, hsame⟩ | ⟨hcontent, htable⟩
  · refine ⟨?_, Or.inr hsame, fun hprev => by rw [hsame]; exact hprev⟩
    rw [hnil]
    intro a ha
    simp at ha
  · have hord : ScoreOrdered
        (persistedRows (callsSince db (CalculatePopularRanking ctx days db).2)) := by
      apply scoreOrdered_of_pairwise
      rw [hcontent]
      exact enumFrom_pairwise_of_sorted 0 stats hsorted
    exact ⟨hord, Or.inl htable, fun _ => by rw [htable]; exact hord⟩

theorem calculatePopularRanking_score_ordered_witness :
    (CalculatePopularRanking .background 7 scenarioDb).1 = none ∧
    ((∀ a ∈ persistedRows (callsSince scenarioDb
          (CalculatePopularRanking .background 7 scenarioDb).2),
      ∀ b ∈ persistedRows (callsSince scenarioDb
          (CalculatePopularRanking .background 7 scenarioDb).2),
        b.score < a.score → a.rankingPosition < b.rankingPosition) ∧
    ((CalculatePopularRanking .background 7 scenarioDb).2.rankings =
        persistedRows (callsSince scenarioDb
          (CalculatePopularRanking .background 7 scenarioDb).2) ∨
      (CalculatePopularRanking .background 7 scenarioDb).2.rankings = scenarioDb.rankings) ∧
    (ScoreOrdered scenarioDb.rankings →
      ScoreOrdered (CalculatePopularRanking .background 7 scenarioDb).2.rankings)) :=
  ⟨rfl, calculatePopularRanking_score_ordered .background 7 scenarioDb rfl⟩

theorem transaction_saveWork_error_keeps_rankings_witness :
    (Transaction .background
        (saveWork [NewRanking ⟨"B1"⟩ 1 5, NewRanking ⟨"B2"⟩ 2 3]) secondInsertFailureDb).2.log =
      [⟨.begin 0, none⟩, ⟨.begin 1, none⟩, ⟨.exec 1 .deleteRankings, none⟩,
        ⟨.exec 1 (.insertRanking ⟨"B1", 1, 5, 0, 1⟩), none⟩,
        ⟨.exec 1 (.insertRanking ⟨"B2", 2, 3, 2, 3⟩), some (.sentinel "bad connection")⟩,
        ⟨.rollback 1, none⟩, ⟨.rollback 0, none⟩] ∧
    ((Transaction .background
        (saveWork [NewRanking ⟨"B1"⟩ 1 5, NewRanking ⟨"B2"⟩ 2 3]) secondInsertFailureDb).1 ≠
        none ∧
      (Transaction .background
        (saveWork [NewRanking ⟨"B1"⟩ 1 5, NewRanking ⟨"B2"⟩ 2 3])
          secondInsertFailureDb).2.rankings = secondInsertFailureDb.rankings) :=
  ⟨rfl, transaction_saveWork_error_keeps_rankings .background
    [NewRanking ⟨"B1"⟩ 1 5, NewRanking ⟨"B2"⟩ 2 3] secondInsertFailureDb 0 _
    (.errorf "ランキングの保存に失敗しました: " (.sentinel "bad connection") "") rfl rfl⟩

theorem transaction_finishes_handle_once_witness :
    (Db.healthy [] [] 0 []).Begin.2.log = [] ++ [⟨.begin 0, none⟩] ∧
    ∃ outcome,
      (Transaction .background (failingWork (.sentinel "work failed"))
          (Db.healthy [] [] 0 [])).2.log =
        (failingWork (.sentinel "work failed")
          (Context.background.withValue .txKey (.tx 0)) (Db.healthy [] [] 0 []).Begin.2).2.log ++
          [⟨if (failingWork (.sentinel "work failed")
              (Context.background.withValue .txKey (.tx 0))
              (Db.healthy [] [] 0 []).Begin.2).1 = none then Call.commit 0
            else Call.rollback 0, outcome⟩] :=
  transaction_finishes_handle_once .background (failingWork (.sentinel "work failed"))
    (Db.healthy [] [] 0 []) 0 _ rfl


/-- When `CalculatePopularRanking` returns an error that is not the commit failure of
the Unit-of-Work, the ranking table is the one it was before the call. -/
theorem CalculatePopularRanking_error_rankings (ctx : Context) (days : Int) (db : Db)
    (e : GoError) (h : (CalculatePopularRanking ctx days db).1 = some e) :
    (CalculatePopularRanking ctx days db).2.rankings = db.rankings ∨
      ∃ ce, e = .errorf "failed to commit transaction: " ce "" := by
  unfold CalculatePopularRanking at h ⊢
  obtain ⟨hqr, _⟩ := GetBlogRankingData_frame ctx days db
  rcases hG : GetBlogRankingData ctx days db with ⟨ge | stats, db1⟩
  · rw [hG] at hqr
    exact Or.inl hqr
  · rw [hG] at h hqr
    simp only at h hqr ⊢
    cases hBR : buildRankings 0 stats with
    | error be => exact Or.inl hqr
    | ok rs =>
      rw [hBR] at h
      simp only at h ⊢
      have hb := Db.Begin_rankings db1
      unfold Transaction at h ⊢
      rcases hB : db1.Begin with ⟨be | tx, dbA⟩
      · rw [hB] at hb
        exact Or.inl (hb.trans hqr)
      · rw [hB] at h hb
        simp only at h hb ⊢
        rcases hW : saveWork rs (ctx.withValue .txKey (.tx tx)) dbA with ⟨_ | we, dbB⟩
        · rw [hW] at h
          simp only at h ⊢
          rcases hC : dbB.Commit tx with ⟨_ | ce, dbC⟩
          · rw [hC] at h
            simp at h
          · rw [hC] at h
            simp only [Option.some.injEq] at h
            exact Or.inr ⟨ce, h.symm⟩
        · have hw := saveWork_error_rankings _ rs dbA we (by rw [hW])
          rw [hW] at hw
          have hr := Db.Rollback_rankings dbB tx
          simp only at hw ⊢
          rcases hR : dbB.Rollback tx with ⟨_ | re, dbC⟩
          · rw [hR] at hr
            exact Or.inl (hr.trans (hw.trans (hb.trans hqr)))
          · rw [hR] at hr
            exact Or.inl (hr.trans (hw.trans (hb.trans hqr)))

/-! ## Theorems: the ranking repository and the ambient transaction -/

/-- The context plays no part in `SaveRankings`. -/
theorem SaveRankings_ignores_context (ctx ctx2 : Context) (rs : List Ranking) (db : Db) :
    SaveRankings ctx rs db = SaveRankings ctx2 rs db := rfl

/-- C11 fails on the code: called with a context that carries the open handle `0`,
`SaveRankings` begins handle `1`, issues its delete and its insert on handle `1`,
and commits handle `1` itself; handle `0` receives no statement, and the new row is
committed while handle `0` is still open. -/
theorem saveRankings_bypasses_ambient_transaction :
    GetTx ambientCtx = some 0 ∧ ambientDb.txOpen 0 = true ∧
      (SaveRankings ambientCtx [NewRanking ⟨"B1"⟩ 1 5] ambientDb).1 = none ∧
      callsSince ambientDb (SaveRankings ambientCtx [NewRanking ⟨"B1"⟩ 1 5] ambientDb).2 =
        [⟨.begin 1, none⟩, ⟨.exec 1 .deleteRankings, none⟩,
          ⟨.exec 1 (.insertRanking ⟨"B1", 1, 5, 0, 1⟩), none⟩, ⟨.commit 1, none⟩] ∧
      (SaveRankings ambientCtx [NewRanking ⟨"B1"⟩ 1 5] ambientDb).2.pending 0 = [] ∧
      (SaveRankings ambientCtx [NewRanking ⟨"B1"⟩ 1 5] ambientDb).2.txOpen 0 = true ∧
      (SaveRankings ambientCtx [NewRanking ⟨"B1"⟩ 1 5] ambientDb).2.rankings =
        [⟨"B1", 1, 5, 0, 1⟩] := by
  refine ⟨by rfl, by rfl, by rfl, by rfl, by rfl, by rfl, by rfl⟩

/-- C18 fails on the code, in two ways.  On `staleCommitDb` the `Commit` of
`SaveRankings` fails and `CalculatePopularRanking` returns nil, the table keeping the
previous generation.  On `brokenRowsDb` the first `rows.Next()` of the query fails,
the query returns no blog and no error, and `CalculatePopularRanking` returns nil
after emptying the table although two blogs exist. -/
theorem calculatePopularRanking_swallows_storage_errors :
    ((CalculatePopularRanking .background 7 staleCommitDb).1 = none ∧
      (⟨.commit 1, some (.sentinel "bad connection")⟩ : LogEntry) ∈
        (CalculatePopularRanking .background 7 staleCommitDb).2.log ∧
      (CalculatePopularRanking .background 7 staleCommitDb).2.rankings = [previousRow]) ∧
    ((CalculatePopularRanking .background 7 brokenRowsDb).1 = none ∧
      (⟨.rowsNext, some (.sentinel "bad connection")⟩ : LogEntry) ∈
        (CalculatePopularRanking .background 7 brokenRowsDb).2.log ∧
      (GetBlogRankingData .background 7 brokenRowsDb).1 = .ok [] ∧
      (CalculatePopularRanking .background 7 brokenRowsDb).2.rankings = []) := by
  refine ⟨⟨by rfl, by decide, by rfl⟩, ⟨by rfl, by decide, by rfl, by rfl⟩⟩

/-! ## Theorems: generations of the ranking table -/

/-- On a storage that answers every call, the Unit-of-Work around `SaveRankings`
returns nil and leaves the table holding exactly the rows of the entries. -/
theorem Transaction_saveWork_healthy (ctx : Context) (rs : List Ranking) (db : Db)
    (h0 : db.faults = []) :
    (Transaction ctx (saveWork rs) db).1 = none ∧
      (Transaction ctx (saveWork rs) db).2.rankings = stampedRows rs db.clock := by
  unfold Transaction Db.Begin
  rw [Db.fault_of_faults_nil h0]
  simp only
  have hA0 : Db.faults { db.step (.begin db.txs.length) with
      txs := db.txs ++ [⟨false, []⟩] } = [] := by simp [Db.step, h0]
  have hSnone := SaveRankings_healthy (ctx.withValue .txKey (.tx db.txs.length)) rs _ hA0
  obtain ⟨cerr, _, hrankB, hframeB, hfaultsB⟩ := SaveRankings_none _ rs _ hSnone
  have hW : saveWork rs (ctx.withValue .txKey (.tx db.txs.length))
      { db.step (.begin db.txs.length) with txs := db.txs ++ [⟨false, []⟩] } =
      (none, (SaveRankings (ctx.withValue .txKey (.tx db.txs.length)) rs
        { db.step (.begin db.txs.length) with txs := db.txs ++ [⟨false, []⟩] }).2) := by
    unfold saveWork
    rcases hS : SaveRankings (ctx.withValue .txKey (.tx db.txs.length)) rs
        { db.step (.begin db.txs.length) with txs := db.txs ++ [⟨false, []⟩] }
      with ⟨_ | se, dbB⟩
    · rfl
    · rw [hS] at hSnone
      simp at hSnone
  rw [hW]
  simp only
  have hget := hframeB db.txs.length (by simp)
  have hopenB : Db.txOpen (SaveRankings (ctx.withValue .txKey (.tx db.txs.length)) rs
      { db.step (.begin db.txs.length) with txs := db.txs ++ [⟨false, []⟩] }).2
      db.txs.length = true := by
    unfold Db.txOpen
    rw [hget]
    simp
  have hpendB : Db.pending (SaveRankings (ctx.withValue .txKey (.tx db.txs.length)) rs
      { db.step (.begin db.txs.length) with txs := db.txs ++ [⟨false, []⟩] }).2
      db.txs.length = [] := by
    unfold Db.pending
    rw [hget]
    simp
  obtain ⟨hc1, _, hcrank, _, _⟩ := Db.Commit_open hopenB
  rw [Db.fault_of_faults_nil (hfaultsB hA0).2] at hc1 hcrank
  rw [hpendB, hrankB, if_pos (hfaultsB hA0).1] at hcrank
  rcases hC : Db.Commit (SaveRankings (ctx.withValue .txKey (.tx db.txs.length)) rs
      { db.step (.begin db.txs.length) with txs := db.txs ++ [⟨false, []⟩] }).2
      db.txs.length with ⟨_ | ce, dbC⟩
  · rw [hC] at hcrank
    exact ⟨rfl, by simpa [Db.step] using hcrank⟩
  · rw [hC] at hc1
    simp at hc1

/-- C20 fails on the code: the aggregation query returns zero blogs, the `Commit` of
`SaveRankings` fails and its error is dropped; `CalculatePopularRanking` returns nil
and the ranking table still holds the previous generation. -/
theorem calculatePopularRanking_no_blogs_keeps_rows :
    noBlogLostCommitDb.rankings = [previousRow] ∧
      (GetBlogRankingData .background 7 noBlogLostCommitDb).1 = .ok [] ∧
      (CalculatePopularRanking .background 7 noBlogLostCommitDb).1 = none ∧
      (CalculatePopularRanking .background 7 noBlogLostCommitDb).2.rankings = [previousRow] ∧
      (CalculatePopularRanking .background 7 noBlogLostCommitDb).2.log =
        [⟨.query 7, none⟩, ⟨.rowsNext, none⟩, ⟨.begin 0, none⟩, ⟨.begin 1, none⟩,
          ⟨.exec 1 .deleteRankings, none⟩, ⟨.commit 1, some (.sentinel "bad connection")⟩,
          ⟨.commit 0, none⟩] := by
  refine ⟨by rfl, by rfl, by rfl, by rfl, by rfl⟩

/-- When the aggregation query returns zero blogs and the storage answers every call
that follows, `CalculatePopularRanking` returns nil and the ranking table is empty
afterwards, whatever it held before. -/
theorem calculatePopularRanking_no_blogs (ctx : Context) (days : Int) (db db1 : Db)
    (hquery : GetBlogRankingData ctx days db = (.ok [], db1))
    (hhealthy : db1.faults = []) :
    (CalculatePopularRanking ctx days db).1 = none ∧
      (CalculatePopularRanking ctx days db).2.rankings = [] := by
  unfold CalculatePopularRanking
  rw [hquery]
  simp only [buildRankings]
  exact Transaction_saveWork_healthy ctx [] db1 hhealthy

theorem calculatePopularRanking_no_blogs_witness :
    noBlogDb.rankings = [previousRow] ∧
      ((CalculatePopularRanking .background 7 noBlogDb).1 = none ∧
        (CalculatePopularRanking .background 7 noBlogDb).2.rankings = []) :=
  ⟨rfl, calculatePopularRanking_no_blogs .background 7 noBlogDb _ rfl rfl⟩

/-- C19 as stated fails, in three ways, each with the same blog and comment data at both
runs.  The window slides: the second run reads the clock one second later, the only
comment has left the window of 7 days, and the score of the blog is 1 in the first
generation and 0 in the second.  Ties have no order: two blogs of equal score that the
engine lists in the other order at the second run exchange their positions.  A failure
goes unseen: when the first `rows.Next()` of the second run fails, the run returns nil
and leaves an empty table where the first generation had two rows. -/
theorem calculatePopularRanking_generations_differ :
    ((CalculatePopularRanking .background 7 agingDb).1 = none ∧
      (CalculatePopularRanking .background 7 agingDb).2.rankings.map RankingRow.content =
        [("B1", 1, 1)] ∧
      (CalculatePopularRanking .background 7 agingDb).2.blogs = agingDb.blogs ∧
      (CalculatePopularRanking .background 7 agingDb).2.comments = agingDb.comments ∧
      (CalculatePopularRanking .background 7
        { (CalculatePopularRanking .background 7 agingDb).2 with now := 604801 }).1 = none ∧
      (CalculatePopularRanking .background 7
        { (CalculatePopularRanking .background 7 agingDb).2 with now := 604801 }).2.rankings.map
          RankingRow.content = [("B1", 1, 0)]) ∧
    ((CalculatePopularRanking .background 7 tiedDb).1 = none ∧
      (CalculatePopularRanking .background 7 tiedDb).2.rankings.map RankingRow.content =
        [("B1", 1, 0), ("B2", 2, 0)] ∧
      (CalculatePopularRanking .background 7
        { (CalculatePopularRanking .background 7 tiedDb).2 with blogs := ["B2", "B1"] }).1 =
        none ∧
      (CalculatePopularRanking .background 7
        { (CalculatePopularRanking .background 7 tiedDb).2 with
            blogs := ["B2", "B1"] }).2.rankings.map RankingRow.content =
        [("B2", 1, 0), ("B1", 2, 0)]) ∧
    ((CalculatePopularRanking .background 7
        { (CalculatePopularRanking .background 7 tiedDb).2 with
            faults := [none, some (.sentinel "bad connection")] }).1 = none ∧
      (CalculatePopularRanking .background 7
        { (CalculatePopularRanking .background 7 tiedDb).2 with
            faults := [none, some (.sentinel "bad connection")] }).2.rankings = []) := by
  refine ⟨⟨by rfl, by rfl, by rfl, by rfl, by rfl, by rfl⟩, ⟨by rfl, by rfl, by rfl, by rfl⟩,
    ⟨by rfl, by rfl⟩⟩

theorem rankingQueryRows_congr (db db2 : Db) (days : Int) (hblogs : db2.blogs = db.blogs)
    (hcomments : db2.comments = db.comments)
    (hwindow : ∀ c ∈ db.comments, inWindow db2 days c = inWindow db days c) :
    rankingQueryRows db2 days = rankingQueryRows db days := by
  have hfilter : db2.comments.filter (inWindow db2 days) =
      db.comments.filter (inWindow db days) := by
    rw [hcomments]
    exact List.filter_congr hwindow
  unfold rankingQueryRows commentCounts
  rw [hblogs, hfilter]

/-! ## Theorems: the exclusive lock and the batch handler -/

/-- The method `Mutex.Lock` succeeds on every call and leaves the lock records as they
are. -/
theorem Mutex.Lock_ok {σ : Type} (m : Mutex) (ctx : Context) (id : String) (ttl : Nat)
    (locks : σ) : (Mutex.Lock m ctx id ttl locks).1.toBool = true ∧
      (Mutex.Lock m ctx id ttl locks).2 = locks := ⟨rfl, rfl⟩

/-- C13 fails on the code: a first `Lock` with the id and the TTL of the batch succeeds
and writes no record; a second `Lock` with the same id, made on the records the first
one left and before any release, succeeds as well instead of failing with `errLocked`. -/
theorem mutex_second_lock_succeeds :
    (Mutex.Lock ⟨none⟩ .background lockID lockTTL ([] : List LockRecord)).1.toBool = true ∧
      (Mutex.Lock ⟨none⟩ .background lockID lockTTL ([] : List LockRecord)).2 = [] ∧
      (Mutex.Lock ⟨none⟩ .background lockID lockTTL
        (Mutex.Lock ⟨none⟩ .background lockID lockTTL
          ([] : List LockRecord)).2).1.toBool = true := by
  refine ⟨by rfl, by rfl, by rfl⟩

/-- C14: with an argument that denotes `days >= 1`, when `Lock` succeeds the handler
calls `Lock`, then the use case, then the release function, once each and in this
order, whether the use case returns nil or an error, and the lock records are the ones
one call of the release function leaves; when `Lock` fails the handler returns an
error after the call of `Lock` alone: the use case is not run, the storage is
untouched and no release function is called. -/
theorem ranking_handler_releases_once {σ : Type}
    (lock : Context → String → Nat → σ → Except GoError (σ → σ) × σ)
    (ctx : Context) (arg : String) (w : BatchWorld σ) (days : Int)
    (hdays : Atoi arg = .ok days) (hpos : 0 < days) :
    (∀ unlock locks1, lock ctx lockID lockTTL w.locks = (.ok unlock, locks1) →
      eventsSince w (ranking.CalculatePopularRanking lock ctx arg w).2 =
          [.lock lockID lockTTL, .useCase days, .unlock] ∧
        (ranking.CalculatePopularRanking lock ctx arg w).2.locks = unlock locks1 ∧
        (ranking.CalculatePopularRanking lock ctx arg w).2.db =
          (Myblog.CalculatePopularRanking ctx days w.db).2 ∧
        ((ranking.CalculatePopularRanking lock ctx arg w).1 = none ↔
          (Myblog.CalculatePopularRanking ctx days w.db).1 = none)) ∧
    (∀ err locks1, lock ctx lockID lockTTL w.locks = (.error err, locks1) →
      (ranking.CalculatePopularRanking lock ctx arg w).1 ≠ none ∧
        eventsSince w (ranking.CalculatePopularRanking lock ctx arg w).2 =
          [.lock lockID lockTTL] ∧
        (ranking.CalculatePopularRanking lock ctx arg w).2.locks = locks1 ∧
        (ranking.CalculatePopularRanking lock ctx arg w).2.db = w.db) := by
  have hnot : ¬ days ≤ 0 := by omega
  constructor
  · intro unlock locks1 hlock
    unfold ranking.CalculatePopularRanking
    rw [hdays]
    simp only [hnot, ↓reduceIte, hlock]
    rcases hU : Myblog.CalculatePopularRanking ctx days w.db with ⟨_ | e, db1⟩
    · simp [eventsSince]
    · simp [eventsSince]
  · intro err locks1 hlock
    unfold ranking.CalculatePopularRanking
    rw [hdays]
    simp only [hnot, ↓reduceIte, hlock]
    split <;> simp [eventsSince]

theorem ranking_handler_releases_once_witness :
    (eventsSince scenarioWorld
          (ranking.CalculatePopularRanking (Mutex.Lock ⟨none⟩) .background "7"
            scenarioWorld).2 =
          [.lock lockID lockTTL, .useCase 7, .unlock] ∧
        (ranking.CalculatePopularRanking (Mutex.Lock ⟨none⟩) .background "7"
          scenarioWorld).2.locks = (fun s => s) [] ∧
        (ranking.CalculatePopularRanking (Mutex.Lock ⟨none⟩) .background "7"
          scenarioWorld).2.db =
          (Myblog.CalculatePopularRanking .background 7 scenarioWorld.db).2 ∧
        ((ranking.CalculatePopularRanking (Mutex.Lock ⟨none⟩) .background "7"
            scenarioWorld).1 = none ↔
          (Myblog.CalculatePopularRanking .background 7 scenarioWorld.db).1 = none)) ∧
    ((ranking.CalculatePopularRanking refusingLock .background "7" scenarioWorld).1 ≠ none ∧
        eventsSince scenarioWorld
          (ranking.CalculatePopularRanking refusingLock .background "7" scenarioWorld).2 =
          [.lock lockID lockTTL] ∧
        (ranking.CalculatePopularRanking refusingLock .background "7"
          scenarioWorld).2.locks = [] ∧
        (ranking.CalculatePopularRanking refusingLock .background "7"
          scenarioWorld).2.db = scenarioWorld.db) :=
  ⟨(ranking_handler_releases_once (Mutex.Lock ⟨none⟩) .background "7" scenarioWorld 7
      rfl (by decide)).1 (fun s => s) [] rfl,
    (ranking_handler_releases_once refusingLock .background "7" scenarioWorld 7
      rfl (by decide)).2 httpErrLocked [] rfl⟩

theorem Atoi_ok {s : String} {n : Int} (h : Atoi s = .ok n) : decimalValue s = some n := by
  unfold Atoi at h
  cases hd : decimalValue s with
  | none =>
    rw [hd] at h
    simp at h
  | some m =>
    rw [hd] at h
    simp only at h
    split at h
    · simp only [Except.ok.injEq] at h
      rw [h]
    · simp at h

/-- C15: an argument that is not the decimal text of an integer `>= 1` makes the handler
return an error and leave the world as it was: no call of `Lock`, no call of the use
case, storage untouched.  Hence every call of `Lock` and every call of the use case
the handler makes comes with an argument that denotes some `days >= 1`, and the use
case receives that `days`. -/
theorem ranking_handler_rejects_bad_days {σ : Type}
    (lock : Context → String → Nat → σ → Except GoError (σ → σ) × σ)
    (ctx : Context) (arg : String) (w : BatchWorld σ) :
    ((∀ n, decimalValue arg = some n → n < 1) →
      (ranking.CalculatePopularRanking lock ctx arg w).1 ≠ none ∧
        (ranking.CalculatePopularRanking lock ctx arg w).2 = w) ∧
    (∀ d, BatchEvent.useCase d ∈
        eventsSince w (ranking.CalculatePopularRanking lock ctx arg w).2 →
      1 ≤ d ∧ decimalValue arg = some d) ∧
    (∀ id ttl, BatchEvent.lock id ttl ∈
        eventsSince w (ranking.CalculatePopularRanking lock ctx arg w).2 →
      ∃ d, 1 ≤ d ∧ decimalValue arg = some d) := by
  unfold ranking.CalculatePopularRanking
  cases hA : Atoi arg with
  | error e =>
    simp [eventsSince]
  | ok days =>
    have hdec := Atoi_ok hA
    by_cases hle : days ≤ 0
    · simp only [hle, ↓reduceIte]
      simp [eventsSince]
    · simp only [hle, ↓reduceIte]
      have hpos : 1 ≤ days := by omega
      refine ⟨?_, ?_, ?_⟩
      · intro hbad
        have := hbad days hdec
        omega
      · intro d hd
        rcases hL : lock ctx lockID lockTTL w.locks with ⟨err | unlock, locks1⟩
        · rw [hL] at hd
          simp only at hd
          split at hd <;> simp [eventsSince] at hd
        · rw [hL] at hd
          simp only at hd
          rcases hU : Myblog.CalculatePopularRanking ctx days w.db with ⟨_ | e, db1⟩
          · rw [hU] at hd
            simp [eventsSince] at hd
            subst hd
            exact ⟨hpos, hdec⟩
          · rw [hU] at hd
            simp [eventsSince] at hd
            subst hd
            exact ⟨hpos, hdec⟩
      · intro _ _ _
        exact ⟨days, hpos, hdec⟩

theorem ranking_handler_rejects_bad_days_witness :
    ((ranking.CalculatePopularRanking (Mutex.Lock ⟨none⟩) .background "0"
        scenarioWorld).1 ≠ none ∧
      (ranking.CalculatePopularRanking (Mutex.Lock ⟨none⟩) .background "0"
        scenarioWorld).2 = scenarioWorld) ∧
    ((ranking.CalculatePopularRanking (Mutex.Lock ⟨none⟩) .background "-3"
        scenarioWorld).1 ≠ none ∧
      (ranking.CalculatePopularRanking (Mutex.Lock ⟨none⟩) .background "-3"
        scenarioWorld).2 = scenarioWorld) ∧
    ((ranking.CalculatePopularRanking (Mutex.Lock ⟨none⟩) .background "seven"
        scenarioWorld).1 ≠ none ∧
      (ranking.CalculatePopularRanking (Mutex.Lock ⟨none⟩) .background "seven"
        scenarioWorld).2 = scenarioWorld) :=
  ⟨(ranking_handler_rejects_bad_days (Mutex.Lock ⟨none⟩) .background "0" scenarioWorld).1
      (fun n h => by
        have h0 : decimalValue "0" = some 0 := rfl
        rw [h0] at h
        simp only [Option.some.injEq] at h
        omega),
    (ranking_handler_rejects_bad_days (Mutex.Lock ⟨none⟩) .background "-3" scenarioWorld).1
      (fun n h => by
        have h0 : decimalValue "-3" = some (-3) := rfl
        rw [h0] at h
        simp only [Option.some.injEq] at h
        omega),
    (ranking_handler_rejects_bad_days (Mutex.Lock ⟨none⟩) .background "seven"
      scenarioWorld).1
      (fun n h => by
        have h0 : decimalValue "seven" = none := rfl
        rw [h0] at h
        simp at h)⟩

/-! ## Theorems: the repositories of the entity tables -/

theorem BlogRepository_Save_dual (ctx : Context) (blog : Blog) (s : Store) :
    BlogRepository.Save ctx blog s =
      (saveOutcome (s.exec (targetOf ctx) (.insertBlog blog.id.String blog.userID.String blog.title blog.content
          blog.createdAt blog.updatedAt)).1,
        (s.exec (targetOf ctx) (.insertBlog blog.id.String blog.userID.String blog.title blog.content
          blog.createdAt blog.updatedAt)).2) := by
  unfold BlogRepository.Save targetOf saveOutcome
  cases GetTx ctx <;> simp only [Store.txNamedExec, Store.NamedExecContext] <;>
    generalize Store.exec _ _ _ = r <;> rcases r with ⟨e | res, s1⟩ <;> rfl

theorem BlogRepository_FindByID_dual (ctx : Context) (id : String) (s : Store) :
    BlogRepository.FindByID ctx id s =
      (findOutcome (.sentinel ("blog not found with id: " ++ id)) blogDTO.toModel
            (s.structScan scanBlog (targetOf ctx) (.selectBlogByID id)).1,
        (s.structScan scanBlog (targetOf ctx) (.selectBlogByID id)).2) := by
  unfold BlogRepository.FindByID targetOf findOutcome
  cases GetTx ctx <;> simp only [Store.txQueryRowx, Store.QueryRowxContext] <;>
    generalize Store.structScan _ _ _ _ = r <;> rcases r with ⟨e | dto, s1⟩ <;>
    simp only <;> split <;> rfl

theorem BlogRepository_FindByUserID_dual (ctx : Context) (userID : ID) (s : Store) :
    BlogRepository.FindByUserID ctx userID s =
      (listOutcome blogDTO.toModel
            (s.selectAll scanBlog (targetOf ctx) (.selectBlogsByUserID userID.String)).1,
        (s.selectAll scanBlog (targetOf ctx) (.selectBlogsByUserID userID.String)).2) := by
  unfold BlogRepository.FindByUserID targetOf listOutcome
  cases GetTx ctx <;> simp only [Store.txSelect, Store.SelectContext] <;>
    generalize Store.selectAll _ _ _ _ = r <;> rcases r with ⟨e | dtos, s1⟩ <;> rfl

theorem BlogRepository_FindAll_dual (ctx : Context) (offset limit : Int) (s : Store) :
    BlogRepository.FindAll ctx offset limit s =
      (listOutcome blogDTO.toModel
            (s.selectAll scanBlog (targetOf ctx) (.selectBlogsPage limit offset)).1,
        (s.selectAll scanBlog (targetOf ctx) (.selectBlogsPage limit offset)).2) := by
  unfold BlogRepository.FindAll targetOf listOutcome
  cases GetTx ctx <;> simp only [Store.txSelect, Store.SelectContext] <;>
    generalize Store.selectAll _ _ _ _ = r <;> rcases r with ⟨e | dtos, s1⟩ <;> rfl

theorem BlogRepository_Update_dual (ctx : Context) (blog : Blog) (s : Store) :
    BlogRepository.Update ctx blog s =
      (writeOutcome (.sentinel ("blog not found with id: " ++ blog.id.String))
            (s.timeNow.2.exec (targetOf ctx) (.updateBlog blog.id.String blog.title blog.content s.timeNow.1)).1,
        (s.timeNow.2.exec (targetOf ctx) (.updateBlog blog.id.String blog.title blog.content s.timeNow.1)).2) := by
  unfold BlogRepository.Update targetOf writeOutcome
  cases GetTx ctx <;> simp only [Store.txNamedExec, Store.NamedExecContext] <;>
    generalize Store.exec _ _ _ = r <;> rcases r with ⟨e | res, s1⟩ <;> simp only <;>
    cases res.RowsAffected <;> simp only <;> split <;> rfl

theorem BlogRepository_Delete_dual (ctx : Context) (id : String) (s : Store) :
    BlogRepository.Delete ctx id s =
      (writeOutcome (.sentinel ("blog not found with id: " ++ id))
            (s.exec (targetOf ctx) (.deleteBlog id)).1,
        (s.exec (targetOf ctx) (.deleteBlog id)).2) := by
  unfold BlogRepository.Delete targetOf writeOutcome
  cases GetTx ctx <;> simp only [Store.txExec, Store.ExecContext] <;>
    generalize Store.exec _ _ _ = r <;> rcases r with ⟨e | res, s1⟩ <;> simp only <;>
    cases res.RowsAffected <;> simp only <;> split <;> rfl

theorem CommentRepository_Save_dual (ctx : Context) (comment : Comment) (s : Store) :
    CommentRepository.Save ctx comment s =
      (saveOutcome (s.exec (targetOf ctx) (.insertComment comment.id.String comment.blogID.String
          comment.userID.String comment.content comment.createdAt comment.updatedAt)).1,
        (s.exec (targetOf ctx) (.insertComment comment.id.String comment.blogID.String
          comment.userID.String comment.content comment.createdAt comment.updatedAt)).2) := by
  unfold CommentRepository.Save targetOf saveOutcome
  cases GetTx ctx <;> simp only [Store.txNamedExec, Store.NamedExecContext] <;>
    generalize Store.exec _ _ _ = r <;> rcases r with ⟨e | res, s1⟩ <;> rfl

theorem CommentRepository_FindByID_dual (ctx : Context) (id : String) (s : Store) :
    CommentRepository.FindByID ctx id s =
      (findOutcome (.sentinel ("comment not found with id: " ++ id)) commentDTO.toModel
            (s.structScan scanComment (targetOf ctx) (.selectCommentByID id)).1,
        (s.structScan scanComment (targetOf ctx) (.selectCommentByID id)).2) := by
  unfold CommentRepository.FindByID targetOf findOutcome
  cases GetTx ctx <;> simp only [Store.txQueryRowx, Store.QueryRowxContext] <;>
    generalize Store.structScan _ _ _ _ = r <;> rcases r with ⟨e | dto, s1⟩ <;>
    simp only <;> split <;> rfl

theorem CommentRepository_FindByBlogID_dual (ctx : Context) (blogID : ID) (s : Store) :
    CommentRepository.FindByBlogID ctx blogID s =
      (listOutcome commentDTO.toModel
            (s.selectAll scanComment (targetOf ctx) (.selectCommentsByBlogID blogID.String)).1,
        (s.selectAll scanComment (targetOf ctx) (.selectCommentsByBlogID blogID.String)).2) := by
  unfold CommentRepository.FindByBlogID targetOf listOutcome
  cases GetTx ctx <;> simp only [Store.txSelect, Store.SelectContext] <;>
    generalize Store.selectAll _ _ _ _ = r <;> rcases r with ⟨e | dtos, s1⟩ <;> rfl

theorem CommentRepository_FindByUserID_dual (ctx : Context) (userID : ID) (s : Store) :
    CommentRepository.FindByUserID ctx userID s =
      (listOutcome commentDTO.toModel
            (s.selectAll scanComment (targetOf ctx) (.selectCommentsByUserID userID.String)).1,
        (s.selectAll scanComment (targetOf ctx) (.selectCommentsByUserID userID.String)).2) := by
  unfold CommentRepository.FindByUserID targetOf listOutcome
  cases GetTx ctx <;> simp only [Store.txSelect, Store.SelectContext] <;>
    generalize Store.selectAll _ _ _ _ = r <;> rcases r with ⟨e | dtos, s1⟩ <;> rfl

theorem CommentRepository_Update_dual (ctx : Context) (comment : Comment) (s : Store) :
    CommentRepository.Update ctx comment s =
      (writeOutcome (.sentinel ("comment not found with id: " ++ comment.id.String))
            (s.timeNow.2.exec (targetOf ctx) (.updateComment comment.id.String comment.content s.timeNow.1)).1,
        (s.timeNow.2.exec (targetOf ctx) (.updateComment comment.id.String comment.content s.timeNow.1)).2) := by
  unfold CommentRepository.Update targetOf writeOutcome
  cases GetTx ctx <;> simp only [Store.txNamedExec, Store.NamedExecContext] <;>
    generalize Store.exec _ _ _ = r <;> rcases r with ⟨e | res, s1⟩ <;> simp only <;>
    cases res.RowsAffected <;> simp only <;> split <;> rfl

theorem CommentRepository_Delete_dual (ctx : Context) (id : String) (s : Store) :
    CommentRepository.Delete ctx id s =
      (writeOutcome (.sentinel ("comment not found with id: " ++ id))
            (s.exec (targetOf ctx) (.deleteComment id)).1,
        (s.exec (targetOf ctx) (.deleteComment id)).2) := by
  unfold CommentRepository.Delete targetOf writeOutcome
  cases GetTx ctx <;> simp only [Store.txExec, Store.ExecContext] <;>
    generalize Store.exec _ _ _ = r <;> rcases r with ⟨e | res, s1⟩ <;> simp only <;>
    cases res.RowsAffected <;> simp only <;> split <;> rfl

theorem UserRepository_Save_dual (ctx : Context) (user : User) (s : Store) :
    UserRepository.Save ctx user s =
      (saveOutcome (s.exec (targetOf ctx) (.insertUser user.id.String user.username user.email user.password
          user.createdAt user.updatedAt)).1,
        (s.exec (targetOf ctx) (.insertUser user.id.String user.username user.email user.password
          user.createdAt user.updatedAt)).2) := by
  unfold UserRepository.Save targetOf saveOutcome
  cases GetTx ctx <;> simp only [Store.txNamedExec, Store.NamedExecContext] <;>
    generalize Store.exec _ _ _ = r <;> rcases r with ⟨e | res, s1⟩ <;> rfl

theorem UserRepository_FindByID_dual (ctx : Context) (id : String) (s : Store) :
    UserRepository.FindByID ctx id s =
      (findOutcome (.sentinel ("user not found with id: " ++ id)) userDTO.toModel
            (s.structScan scanUser (targetOf ctx) (.selectUserByID id)).1,
        (s.structScan scanUser (targetOf ctx) (.selectUserByID id)).2) := by
  unfold UserRepository.FindByID targetOf findOutcome
  cases GetTx ctx <;> simp only [Store.txQueryRowx, Store.QueryRowxContext] <;>
    generalize Store.structScan _ _ _ _ = r <;> rcases r with ⟨e | dto, s1⟩ <;>
    simp only <;> split <;> rfl

theorem UserRepository_FindByEmail_dual (ctx : Context) (email : String) (s : Store) :
    UserRepository.FindByEmail ctx email s =
      (findOutcome (.sentinel ("user not found with email: " ++ email)) userDTO.toModel
            (s.structScan scanUser (targetOf ctx) (.selectUserByEmail email)).1,
        (s.structScan scanUser (targetOf ctx) (.selectUserByEmail email)).2) := by
  unfold UserRepository.FindByEmail targetOf findOutcome
  cases GetTx ctx <;> simp only [Store.txQueryRowx, Store.QueryRowxContext] <;>
    generalize Store.structScan _ _ _ _ = r <;> rcases r with ⟨e | dto, s1⟩ <;>
    simp only <;> split <;> rfl

theorem UserRepository_Update_dual (ctx : Context) (user : User) (s : Store) :
    UserRepository.Update ctx user s =
      (writeOutcome (.sentinel ("user not found with id: " ++ user.id.String))
            (s.timeNow.2.exec (targetOf ctx) (.updateUser user.id.String user.username user.email user.password
          s.timeNow.1)).1,
        (s.timeNow.2.exec (targetOf ctx) (.updateUser user.id.String user.username user.email user.password
          s.timeNow.1)).2) := by
  unfold UserRepository.Update targetOf writeOutcome
  cases GetTx ctx <;> simp only [Store.txNamedExec, Store.NamedExecContext] <;>
    generalize Store.exec _ _ _ = r <;> rcases r with ⟨e | res, s1⟩ <;> simp only <;>
    cases res.RowsAffected <;> simp only <;> split <;> rfl

theorem UserRepository_Delete_dual (ctx : Context) (id : String) (s : Store) :
    UserRepository.Delete ctx id s =
      (writeOutcome (.sentinel ("user not found with id: " ++ id))
            (s.exec (targetOf ctx) (.deleteUser id)).1,
        (s.exec (targetOf ctx) (.deleteUser id)).2) := by
  unfold UserRepository.Delete targetOf writeOutcome
  cases GetTx ctx <;> simp only [Store.txExec, Store.ExecContext] <;>
    generalize Store.exec _ _ _ = r <;> rcases r with ⟨e | res, s1⟩ <;> simp only <;>
    cases res.RowsAffected <;> simp only <;> split <;> rfl

theorem Store.exec_log (s : Store) (t : Target) (q : Query) :
    (s.exec t q).2.log = s.log ++ [(t, q)] := by
  unfold Store.exec
  split
  · split
    · rfl
    · cases t <;> rfl
  · rfl

theorem Store.queryRows_log (s : Store) (t : Target) (q : Query) :
    (s.queryRows t q).2.log = s.log ++ [(t, q)] := by
  unfold Store.queryRows
  split
  · split <;> rfl
  · rfl

theorem Store.structScan_log {α : Type} (s : Store) (scan : Row → Except GoError α)
    (t : Target) (q : Query) : (s.structScan scan t q).2.log = s.log ++ [(t, q)] := by
  unfold Store.structScan
  have h := Store.queryRows_log s t q
  rcases hq : s.queryRows t q with ⟨e | rows, s1⟩
  · rw [hq] at h
    exact h
  · rw [hq] at h
    cases rows <;> exact h

theorem Store.selectAll_log {α : Type} (s : Store) (scan : Row → Except GoError α)
    (t : Target) (q : Query) : (s.selectAll scan t q).2.log = s.log ++ [(t, q)] := by
  unfold Store.selectAll
  have h := Store.queryRows_log s t q
  rcases hq : s.queryRows t q with ⟨e | rows, s1⟩
  · rw [hq] at h
    exact h
  · rw [hq] at h
    exact h

/-- C12: every operation of the Blog, Comment and User repositories, in every context
and on every state of the storage, is the rule of the spec: one statement with its
parameters, the same in both modes, issued against the handle of the context when it
carries one and against the pool otherwise, and the response of the storage turned
into the result or the error by one mapping, the same in both modes.  The statement is
logged with the target it was issued against. -/
theorem repositories_follow_dual_mode_rule (ctx : Context) (s : Store) :
    (∀ (blog : Blog),
      BlogRepository.Save ctx blog s =
        (saveOutcome (s.exec (targetOf ctx) (.insertBlog blog.id.String blog.userID.String blog.title blog.content
          blog.createdAt blog.updatedAt)).1,
          (s.exec (targetOf ctx) (.insertBlog blog.id.String blog.userID.String blog.title blog.content
          blog.createdAt blog.updatedAt)).2)) ∧
    (∀ (id : String),
      BlogRepository.FindByID ctx id s =
        (findOutcome (.sentinel ("blog not found with id: " ++ id)) blogDTO.toModel
              (s.structScan scanBlog (targetOf ctx) (.selectBlogByID id)).1,
          (s.structScan scanBlog (targetOf ctx) (.selectBlogByID id)).2)) ∧
    (∀ (userID : ID),
      BlogRepository.FindByUserID ctx userID s =
        (listOutcome blogDTO.toModel
              (s.selectAll scanBlog (targetOf ctx) (.selectBlogsByUserID userID.String)).1,
          (s.selectAll scanBlog (targetOf ctx) (.selectBlogsByUserID userID.String)).2)) ∧
    (∀ (offset limit : Int),
      BlogRepository.FindAll ctx offset limit s =
        (listOutcome blogDTO.toModel
              (s.selectAll scanBlog (targetOf ctx) (.selectBlogsPage limit offset)).1,
          (s.selectAll scanBlog (targetOf ctx) (.selectBlogsPage limit offset)).2)) ∧
    (∀ (blog : Blog),
      BlogRepository.Update ctx blog s =
        (writeOutcome (.sentinel ("blog not found with id: " ++ blog.id.String))
              (s.timeNow.2.exec (targetOf ctx) (.updateBlog blog.id.String blog.title blog.content s.timeNow.1)).1,
          (s.timeNow.2.exec (targetOf ctx) (.updateBlog blog.id.String blog.title blog.content s.timeNow.1)).2)) ∧
    (∀ (id : String),
      BlogRepository.Delete ctx id s =
        (writeOutcome (.sentinel ("blog not found with id: " ++ id))
              (s.exec (targetOf ctx) (.deleteBlog id)).1,
          (s.exec (targetOf ctx) (.deleteBlog id)).2)) ∧
    (∀ (comment : Comment),
      CommentRepository.Save ctx comment s =
        (saveOutcome (s.exec (targetOf ctx) (.insertComment comment.id.String comment.blogID.String
          comment.userID.String comment.content comment.createdAt comment.updatedAt)).1,
          (s.exec (targetOf ctx) (.insertComment comment.id.String comment.blogID.String
          comment.userID.String comment.content comment.createdAt comment.updatedAt)).2)) ∧
    (∀ (id : String),
      CommentRepository.FindByID ctx id s =
        (findOutcome (.sentinel ("comment not found with id: " ++ id)) commentDTO.toModel
              (s.structScan scanComment (targetOf ctx) (.selectCommentByID id)).1,
          (s.structScan scanComment (targetOf ctx) (.selectCommentByID id)).2)) ∧
    (∀ (blogID : ID),
      CommentRepository.FindByBlogID ctx blogID s =
        (listOutcome commentDTO.toModel
              (s.selectAll scanComment (targetOf ctx) (.selectCommentsByBlogID blogID.String)).1,
          (s.selectAll scanComment (targetOf ctx) (.selectCommentsByBlogID blogID.String)).2)) ∧
    (∀ (userID : ID),
      CommentRepository.FindByUserID ctx userID s =
        (listOutcome commentDTO.toModel
              (s.selectAll scanComment (targetOf ctx) (.selectCommentsByUserID userID.String)).1,
          (s.selectAll scanComment (targetOf ctx) (.selectCommentsByUserID userID.String)).2)) ∧
    (∀ (comment : Comment),
      CommentRepository.Update ctx comment s =
        (writeOutcome (.sentinel ("comment not found with id: " ++ comment.id.String))
              (s.timeNow.2.exec (targetOf ctx) (.updateComment comment.id.String comment.content s.timeNow.1)).1,
          (s.timeNow.2.exec (targetOf ctx) (.updateComment comment.id.String comment.content s.timeNow.1)).2)) ∧
    (∀ (id : String),
      CommentRepository.Delete ctx id s =
        (writeOutcome (.sentinel ("comment not found with id: " ++ id))
              (s.exec (targetOf ctx) (.deleteComment id)).1,
          (s.exec (targetOf ctx) (.deleteComment id)).2)) ∧
    (∀ (user : User),
      UserRepository.Save ctx user s =
        (saveOutcome (s.exec (targetOf ctx) (.insertUser user.id.String user.username user.email user.password
          user.createdAt user.updatedAt)).1,
          (s.exec (targetOf ctx) (.insertUser user.id.String user.username user.email user.password
          user.createdAt user.updatedAt)).2)) ∧
    (∀ (id : String),
      UserRepository.FindByID ctx id s =
        (findOutcome (.sentinel ("user not found with id: " ++ id)) userDTO.toModel
              (s.structScan scanUser (targetOf ctx) (.selectUserByID id)).1,
          (s.structScan scanUser (targetOf ctx) (.selectUserByID id)).2)) ∧
    (∀ (email : String),
      UserRepository.FindByEmail ctx email s =
        (findOutcome (.sentinel ("user not found with email: " ++ email)) userDTO.toModel
              (s.structScan scanUser (targetOf ctx) (.selectUserByEmail email)).1,
          (s.structScan scanUser (targetOf ctx) (.selectUserByEmail email)).2)) ∧
    (∀ (user : User),
      UserRepository.Update ctx user s =
        (writeOutcome (.sentinel ("user not found with id: " ++ user.id.String))
              (s.timeNow.2.exec (targetOf ctx) (.updateUser user.id.String user.username user.email user.password
          s.timeNow.1)).1,
          (s.timeNow.2.exec (targetOf ctx) (.updateUser user.id.String user.username user.email user.password
          s.timeNow.1)).2)) ∧
    (∀ (id : String),
      UserRepository.Delete ctx id s =
        (writeOutcome (.sentinel ("user not found with id: " ++ id))
              (s.exec (targetOf ctx) (.deleteUser id)).1,
          (s.exec (targetOf ctx) (.deleteUser id)).2)) ∧
    (∀ (t : Target) (q : Query), (s.exec t q).2.log = s.log ++ [(t, q)] ∧
      (s.queryRows t q).2.log = s.log ++ [(t, q)]) ∧
    (∀ tx, GetTx ctx = some tx → targetOf ctx = .tx tx) ∧
    (GetTx ctx = none → targetOf ctx = .pool) := by
  refine ⟨fun _ => BlogRepository_Save_dual ctx _ s, fun _ => BlogRepository_FindByID_dual ctx _ s, fun _ => BlogRepository_FindByUserID_dual ctx _ s, fun _ _ => BlogRepository_FindAll_dual ctx _ _ s, fun _ => BlogRepository_Update_dual ctx _ s, fun _ => BlogRepository_Delete_dual ctx _ s, fun _ => CommentRepository_Save_dual ctx _ s, fun _ => CommentRepository_FindByID_dual ctx _ s, fun _ => CommentRepository_FindByBlogID_dual ctx _ s, fun _ => CommentRepository_FindByUserID_dual ctx _ s, fun _ => CommentRepository_Update_dual ctx _ s, fun _ => CommentRepository_Delete_dual ctx _ s, fun _ => UserRepository_Save_dual ctx _ s, fun _ => UserRepository_FindByID_dual ctx _ s, fun _ => UserRepository_FindByEmail_dual ctx _ s, fun _ => UserRepository_Update_dual ctx _ s, fun _ => UserRepository_Delete_dual ctx _ s,
    fun t q => ⟨Store.exec_log s t q, Store.queryRows_log s t q⟩, ?_, ?_⟩
  · intro tx h
    simp [targetOf, h]
  · intro h
    simp [targetOf, h]

/-! ## Theorems: statements that affect no row -/

theorem Store.exec_noop (s : Store) (t : Target) (q : Query)
    (hu : s.usable t = true) (hf : s.fault = none)
    (hrows : q.rowsAffected (s.view t) = 0) (happly : q.apply (s.view t) = s.view t) :
    (∃ s1, s.exec t q = (.ok ⟨.ok 0⟩, s1)) ∧ (s.exec t q).2.tables = s.tables ∧
      (s.exec t q).2.view t = s.view t := by
  unfold Store.exec
  rw [if_pos hu, hf]
  simp only [hrows]
  refine ⟨⟨_, rfl⟩, ?_, ?_⟩
  · cases t with
    | pool =>
      simp only [Store.written, Store.answered]
      exact happly
    | tx h => rfl
  · cases t with
    | pool =>
      simp only [Store.written, Store.answered, Store.view]
      exact happly
    | tx h =>
      simp only [Store.usable] at hu
      simp only [Store.view] at happly ⊢
      simp only [Store.written, Store.answered, List.getElem?_modify]
      cases hget : s.txs[h]? with
      | none => simp [hget] at hu
      | some x =>
        rw [hget] at happly
        simp only [Option.map_eq_map, Option.map_some', ↓reduceIte, List.foldl_append,
          List.foldl_cons, List.foldl_nil]
        exact happly

theorem Store.timeNow_usable (s : Store) (t : Target) :
    s.timeNow.2.usable t = s.usable t := by
  cases t <;> rfl

theorem Store.timeNow_view (s : Store) (t : Target) : s.timeNow.2.view t = s.view t := by
  cases t <;> rfl

theorem map_ite_of_forall_ne {α : Type} (rows : List α) (key : α → String) (id : String)
    (f : α → α) (h : ∀ r ∈ rows, key r ≠ id) :
    rows.map (fun r => if key r = id then f r else r) = rows := by
  induction rows with
  | nil => rfl
  | cons r rest ih =>
    have hr : key r ≠ id := h r (List.mem_cons_self _ _)
    simp only [List.map_cons, hr, ↓reduceIte]
    rw [ih (fun x hx => h x (List.mem_cons_of_mem _ hx))]

theorem filter_ne_of_forall_ne {α : Type} (rows : List α) (key : α → String) (id : String)
    (h : ∀ r ∈ rows, key r ≠ id) :
    rows.filter (fun r => decide (key r ≠ id)) = rows := by
  rw [List.filter_eq_self]
  intro r hr
  simpa using h r hr

theorem countP_eq_of_forall_ne {α : Type} (rows : List α) (key : α → String) (id : String)
    (p : α → Bool) (h : ∀ r ∈ rows, key r ≠ id) :
    rows.countP (fun r => decide (key r = id) && p r) = 0 := by
  rw [List.countP_eq_zero]
  intro r hr
  simp [h r hr]

theorem countP_key_of_forall_ne {α : Type} (rows : List α) (key : α → String) (id : String)
    (h : ∀ r ∈ rows, key r ≠ id) :
    rows.countP (fun r => decide (key r = id)) = 0 := by
  rw [List.countP_eq_zero]
  intro r hr
  simp [h r hr]

theorem BlogRepository_Update_missing (ctx : Context) (blog : Blog) (s : Store)
    (hu : s.usable (targetOf ctx) = true) (hf : s.fault = none)
    (hmiss : ∀ r ∈ (s.view (targetOf ctx)).blogs, r.ID ≠ blog.id.String) :
    (BlogRepository.Update ctx blog s).1 =
          some (.sentinel ("blog not found with id: " ++ blog.id.String)) ∧
      (BlogRepository.Update ctx blog s).2.tables = s.tables ∧
      (BlogRepository.Update ctx blog s).2.view (targetOf ctx) = s.view (targetOf ctx) := by
  rw [BlogRepository_Update_dual]
  obtain ⟨⟨s1, he⟩, ht, hv⟩ := Store.exec_noop s.timeNow.2 (targetOf ctx) (.updateBlog blog.id.String blog.title blog.content s.timeNow.1)
    (by rw [Store.timeNow_usable]; exact hu) hf
    (by
      simp only [Store.timeNow_view, Query.rowsAffected]
      rw [countP_eq_of_forall_ne _ blogDTO.ID _ _ hmiss]
      rfl)
    (by
      simp only [Store.timeNow_view, Query.apply]
      rw [map_ite_of_forall_ne _ blogDTO.ID _ _ hmiss])
  rw [he] at ht hv ⊢
  refine ⟨by simp [writeOutcome], ?_, ?_⟩
  · exact ht
  · rw [← Store.timeNow_view s]; exact hv

theorem BlogRepository_Delete_missing (ctx : Context) (id : String) (s : Store)
    (hu : s.usable (targetOf ctx) = true) (hf : s.fault = none)
    (hmiss : ∀ r ∈ (s.view (targetOf ctx)).blogs, r.ID ≠ id) :
    (BlogRepository.Delete ctx id s).1 =
          some (.sentinel ("blog not found with id: " ++ id)) ∧
      (BlogRepository.Delete ctx id s).2.tables = s.tables ∧
      (BlogRepository.Delete ctx id s).2.view (targetOf ctx) = s.view (targetOf ctx) := by
  rw [BlogRepository_Delete_dual]
  obtain ⟨⟨s1, he⟩, ht, hv⟩ := Store.exec_noop s (targetOf ctx) (.deleteBlog id)
    hu hf
    (by
      simp only [Query.rowsAffected]
      rw [countP_key_of_forall_ne _ blogDTO.ID _ hmiss]
      rfl)
    (by
      simp only [Query.apply]
      rw [filter_ne_of_forall_ne _ blogDTO.ID _ hmiss])
  rw [he] at ht hv ⊢
  refine ⟨by simp [writeOutcome], ?_, ?_⟩
  · exact ht
  · exact hv

theorem CommentRepository_Update_missing (ctx : Context) (comment : Comment) (s : Store)
    (hu : s.usable (targetOf ctx) = true) (hf : s.fault = none)
    (hmiss : ∀ r ∈ (s.view (targetOf ctx)).comments, r.ID ≠ comment.id.String) :
    (CommentRepository.Update ctx comment s).1 =
          some (.sentinel ("comment not found with id: " ++ comment.id.String)) ∧
      (CommentRepository.Update ctx comment s).2.tables = s.tables ∧
      (CommentRepository.Update ctx comment s).2.view (targetOf ctx) = s.view (targetOf ctx) := by
  rw [CommentRepository_Update_dual]
  obtain ⟨⟨s1, he⟩, ht, hv⟩ := Store.exec_noop s.timeNow.2 (targetOf ctx) (.updateComment comment.id.String comment.content s.timeNow.1)
    (by rw [Store.timeNow_usable]; exact hu) hf
    (by
      simp only [Store.timeNow_view, Query.rowsAffected]
      rw [countP_eq_of_forall_ne _ commentDTO.ID _ _ hmiss]
      rfl)
    (by
      simp only [Store.timeNow_view, Query.apply]
      rw [map_ite_of_forall_ne _ commentDTO.ID _ _ hmiss])
  rw [he] at ht hv ⊢
  refine ⟨by simp [writeOutcome], ?_, ?_⟩
  · exact ht
  · rw [← Store.timeNow_view s]; exact hv

theorem CommentRepository_Delete_missing (ctx : Context) (id : String) (s : Store)
    (hu : s.usable (targetOf ctx) = true) (hf : s.fault = none)
    (hmiss : ∀ r ∈ (s.view (targetOf ctx)).comments, r.ID ≠ id) :
    (CommentRepository.Delete ctx id s).1 =
          some (.sentinel ("comment not found with id: " ++ id)) ∧
      (CommentRepository.Delete ctx id s).2.tables = s.tables ∧
      (CommentRepository.Delete ctx id s).2.view (targetOf ctx) = s.view (targetOf ctx) := by
  rw [CommentRepository_Delete_dual]
  obtain ⟨⟨s1, he⟩, ht, hv⟩ := Store.exec_noop s (targetOf ctx) (.deleteComment id)
    hu hf
    (by
      simp only [Query.rowsAffected]
      rw [countP_key_of_forall_ne _ commentDTO.ID _ hmiss]
      rfl)
    (by
      simp only [Query.apply]
      rw [filter_ne_of_forall_ne _ commentDTO.ID _ hmiss])
  rw [he] at ht hv ⊢
  refine ⟨by simp [writeOutcome], ?_, ?_⟩
  · exact ht
  · exact hv

theorem UserRepository_Update_missing (ctx : Context) (user : User) (s : Store)
    (hu : s.usable (targetOf ctx) = true) (hf : s.fault = none)
    (hmiss : ∀ r ∈ (s.view (targetOf ctx)).users, r.ID ≠ user.id.String) :
    (UserRepository.Update ctx user s).1 =
          some (.sentinel ("user not found with id: " ++ user.id.String)) ∧
      (UserRepository.Update ctx user s).2.tables = s.tables ∧
      (UserRepository.Update ctx user s).2.view (targetOf ctx) = s.view (targetOf ctx) := by
  rw [UserRepository_Update_dual]
  obtain ⟨⟨s1, he⟩, ht, hv⟩ := Store.exec_noop s.timeNow.2 (targetOf ctx) (.updateUser user.id.String user.username user.email user.password s.timeNow.1)
    (by rw [Store.timeNow_usable]; exact hu) hf
    (by
      simp only [Store.timeNow_view, Query.rowsAffected]
      rw [countP_eq_of_forall_ne _ userDTO.ID _ _ hmiss]
      rfl)
    (by
      simp only [Store.timeNow_view, Query.apply]
      rw [map_ite_of_forall_ne _ userDTO.ID _ _ hmiss])
  rw [he] at ht hv ⊢
  refine ⟨by simp [writeOutcome], ?_, ?_⟩
  · exact ht
  · rw [← Store.timeNow_view s]; exact hv

theorem UserRepository_Delete_missing (ctx : Context) (id : String) (s : Store)
    (hu : s.usable (targetOf ctx) = true) (hf : s.fault = none)
    (hmiss : ∀ r ∈ (s.view (targetOf ctx)).users, r.ID ≠ id) :
    (UserRepository.Delete ctx id s).1 =
          some (.sentinel ("user not found with id: " ++ id)) ∧
      (UserRepository.Delete ctx id s).2.tables = s.tables ∧
      (UserRepository.Delete ctx id s).2.view (targetOf ctx) = s.view (targetOf ctx) := by
  rw [UserRepository_Delete_dual]
  obtain ⟨⟨s1, he⟩, ht, hv⟩ := Store.exec_noop s (targetOf ctx) (.deleteUser id)
    hu hf
    (by
      simp only [Query.rowsAffected]
      rw [countP_key_of_forall_ne _ userDTO.ID _ hmiss]
      rfl)
    (by
      simp only [Query.apply]
      rw [filter_ne_of_forall_ne _ userDTO.ID _ hmiss])
  rw [he] at ht hv ⊢
  refine ⟨by simp [writeOutcome], ?_, ?_⟩
  · exact ht
  · exact hv

/-- C16: in both modes, when the target takes the statement and the engine answers it,
`Update` and `Delete` of the Blog, Comment and User repositories on an id that matches
no row of the table, as the target sees it, affect zero rows and return the not-found
error of the entity instead of nil; the committed tables and the tables the target
sees are the same after the call as before it. -/
theorem repositories_write_missing_id (ctx : Context) (s : Store)
    (husable : s.usable (targetOf ctx) = true) (hanswer : s.fault = none) :
    (∀ (blog : Blog), (∀ r ∈ (s.view (targetOf ctx)).blogs, r.ID ≠ blog.id.String) →
      (BlogRepository.Update ctx blog s).1 =
            some (.sentinel ("blog not found with id: " ++ blog.id.String)) ∧
        (BlogRepository.Update ctx blog s).2.tables = s.tables ∧
        (BlogRepository.Update ctx blog s).2.view (targetOf ctx) = s.view (targetOf ctx)) ∧
    (∀ (id : String), (∀ r ∈ (s.view (targetOf ctx)).blogs, r.ID ≠ id) →
      (BlogRepository.Delete ctx id s).1 =
            some (.sentinel ("blog not found with id: " ++ id)) ∧
        (BlogRepository.Delete ctx id s).2.tables = s.tables ∧
        (BlogRepository.Delete ctx id s).2.view (targetOf ctx) = s.view (targetOf ctx)) ∧
    (∀ (comment : Comment), (∀ r ∈ (s.view (targetOf ctx)).comments, r.ID ≠ comment.id.String) →
      (CommentRepository.Update ctx comment s).1 =
            some (.sentinel ("comment not found with id: " ++ comment.id.String)) ∧
        (CommentRepository.Update ctx comment s).2.tables = s.tables ∧
        (CommentRepository.Update ctx comment s).2.view (targetOf ctx) = s.view (targetOf ctx)) ∧
    (∀ (id : String), (∀ r ∈ (s.view (targetOf ctx)).comments, r.ID ≠ id) →
      (CommentRepository.Delete ctx id s).1 =
            some (.sentinel ("comment not found with id: " ++ id)) ∧
        (CommentRepository.Delete ctx id s).2.tables = s.tables ∧
        (CommentRepository.Delete ctx id s).2.view (targetOf ctx) = s.view (targetOf ctx)) ∧
    (∀ (user : User), (∀ r ∈ (s.view (targetOf ctx)).users, r.ID ≠ user.id.String) →
      (UserRepository.Update ctx user s).1 =
            some (.sentinel ("user not found with id: " ++ user.id.String)) ∧
        (UserRepository.Update ctx user s).2.tables = s.tables ∧
        (UserRepository.Update ctx user s).2.view (targetOf ctx) = s.view (targetOf ctx)) ∧
    (∀ (id : String), (∀ r ∈ (s.view (targetOf ctx)).users, r.ID ≠ id) →
      (UserRepository.Delete ctx id s).1 =
            some (.sentinel ("user not found with id: " ++ id)) ∧
        (UserRepository.Delete ctx id s).2.tables = s.tables ∧
        (UserRepository.Delete ctx id s).2.view (targetOf ctx) = s.view (targetOf ctx)) := by
  exact ⟨fun _ h => BlogRepository_Update_missing ctx _ s husable hanswer h,
    fun _ h => BlogRepository_Delete_missing ctx _ s husable hanswer h,
    fun _ h => CommentRepository_Update_missing ctx _ s husable hanswer h,
    fun _ h => CommentRepository_Delete_missing ctx _ s husable hanswer h,
    fun _ h => UserRepository_Update_missing ctx _ s husable hanswer h,
    fun _ h => UserRepository_Delete_missing ctx _ s husable hanswer h⟩

/-! ## Theorems: single-row lookups -/

theorem Store.structScan_no_rows {α : Type} (s : Store) (scan : Row → Except GoError α)
    (t : Target) (q : Query) (hu : s.usable t = true) (hf : s.fault = none)
    (hrows : q.rows (s.view t) = .ok []) :
    (s.structScan scan t q).1 = .error ErrNoRows := by
  unfold Store.structScan Store.queryRows
  rw [if_pos hu, hf]
  simp only [hrows]

theorem filter_key_of_forall_ne {α : Type} (rows : List α) (key : α → String) (id : String)
    (h : ∀ r ∈ rows, key r ≠ id) :
    rows.filter (fun r => decide (key r = id)) = [] := by
  rw [List.filter_eq_nil_iff]
  intro r hr
  simpa using h r hr

theorem errorsIs_ErrNoRows : errorsIs ErrNoRows ErrNoRows = true := by decide

theorem BlogRepository_FindByID_absent (ctx : Context) (id : String) (s : Store)
    (hu : s.usable (targetOf ctx) = true) (hf : s.fault = none)
    (hmiss : ∀ r ∈ (s.view (targetOf ctx)).blogs, r.ID ≠ id) :
    (BlogRepository.FindByID ctx id s).1 = .error (.sentinel ("blog not found with id: " ++ id)) := by
  rw [BlogRepository_FindByID_dual]
  have h := Store.structScan_no_rows s scanBlog (targetOf ctx) (.selectBlogByID id) hu hf
    (by
      simp only [Query.rows]
      rw [filter_key_of_forall_ne _ blogDTO.ID _ hmiss]
      rfl)
  simp only [h, findOutcome, errorsIs_ErrNoRows, ↓reduceIte]

theorem BlogRepository_FindByID_failure (ctx : Context) (id : String) (s : Store) (e : GoError)
    (hresp : (s.structScan scanBlog (targetOf ctx) (.selectBlogByID id)).1 = .error e)
    (hother : errorsIs e ErrNoRows = false) :
    (BlogRepository.FindByID ctx id s).1 = .error e := by
  rw [BlogRepository_FindByID_dual]
  simp only [hresp, findOutcome, hother]
  rfl

theorem CommentRepository_FindByID_absent (ctx : Context) (id : String) (s : Store)
    (hu : s.usable (targetOf ctx) = true) (hf : s.fault = none)
    (hmiss : ∀ r ∈ (s.view (targetOf ctx)).comments, r.ID ≠ id) :
    (CommentRepository.FindByID ctx id s).1 = .error (.sentinel ("comment not found with id: " ++ id)) := by
  rw [CommentRepository_FindByID_dual]
  have h := Store.structScan_no_rows s scanComment (targetOf ctx) (.selectCommentByID id) hu hf
    (by
      simp only [Query.rows]
      rw [filter_key_of_forall_ne _ commentDTO.ID _ hmiss]
      rfl)
  simp only [h, findOutcome, errorsIs_ErrNoRows, ↓reduceIte]

theorem CommentRepository_FindByID_failure (ctx : Context) (id : String) (s : Store) (e : GoError)
    (hresp : (s.structScan scanComment (targetOf ctx) (.selectCommentByID id)).1 = .error e)
    (hother : errorsIs e ErrNoRows = false) :
    (CommentRepository.FindByID ctx id s).1 = .error e := by
  rw [CommentRepository_FindByID_dual]
  simp only [hresp, findOutcome, hother]
  rfl

theorem UserRepository_FindByID_absent (ctx : Context) (id : String) (s : Store)
    (hu : s.usable (targetOf ctx) = true) (hf : s.fault = none)
    (hmiss : ∀ r ∈ (s.view (targetOf ctx)).users, r.ID ≠ id) :
    (UserRepository.FindByID ctx id s).1 = .error (.sentinel ("user not found with id: " ++ id)) := by
  rw [UserRepository_FindByID_dual]
  have h := Store.structScan_no_rows s scanUser (targetOf ctx) (.selectUserByID id) hu hf
    (by
      simp only [Query.rows]
      rw [filter_key_of_forall_ne _ userDTO.ID _ hmiss]
      rfl)
  simp only [h, findOutcome, errorsIs_ErrNoRows, ↓reduceIte]

theorem UserRepository_FindByID_failure (ctx : Context) (id : String) (s : Store) (e : GoError)
    (hresp : (s.structScan scanUser (targetOf ctx) (.selectUserByID id)).1 = .error e)
    (hother : errorsIs e ErrNoRows = false) :
    (UserRepository.FindByID ctx id s).1 = .error e := by
  rw [UserRepository_FindByID_dual]
  simp only [hresp, findOutcome, hother]
  rfl

theorem UserRepository_FindByEmail_absent (ctx : Context) (email : String) (s : Store)
    (hu : s.usable (targetOf ctx) = true) (hf : s.fault = none)
    (hmiss : ∀ r ∈ (s.view (targetOf ctx)).users, r.Email ≠ email) :
    (UserRepository.FindByEmail ctx email s).1 = .error (.sentinel ("user not found with email: " ++ email)) := by
  rw [UserRepository_FindByEmail_dual]
  have h := Store.structScan_no_rows s scanUser (targetOf ctx) (.selectUserByEmail email) hu hf
    (by
      simp only [Query.rows]
      rw [filter_key_of_forall_ne _ userDTO.Email _ hmiss]
      rfl)
  simp only [h, findOutcome, errorsIs_ErrNoRows, ↓reduceIte]

theorem UserRepository_FindByEmail_failure (ctx : Context) (email : String) (s : Store) (e : GoError)
    (hresp : (s.structScan scanUser (targetOf ctx) (.selectUserByEmail email)).1 = .error e)
    (hother : errorsIs e ErrNoRows = false) :
    (UserRepository.FindByEmail ctx email s).1 = .error e := by
  rw [UserRepository_FindByEmail_dual]
  simp only [hresp, findOutcome, hother]
  rfl

/-- C17 as stated fails on the kind of the error: a lookup of a blog id that matches no
row returns the not-found error, a lookup through a transaction that is already
finished returns `sql.ErrTxDone`; both are plain `errors.New` values of the same
dynamic type that wrap nothing, so only their messages tell them apart. -/
theorem lookup_errors_share_their_kind :
    (BlogRepository.FindByID .background "b9" entityStore).1 =
        .error (.sentinel "blog not found with id: b9") ∧
      (BlogRepository.FindByID ambientCtx "b1" finishedTxStore).1 = .error ErrTxDone ∧
      (GoError.sentinel "blog not found with id: b9").dynamicType =
        ErrTxDone.dynamicType ∧
      (GoError.sentinel "blog not found with id: b9").Unwrap = none ∧
      ErrTxDone.Unwrap = none ∧
      errorsIs (.sentinel "blog not found with id: b9") ErrNoRows = false := by
  refine ⟨by rfl, by rfl, by rfl, by rfl, by rfl, by decide⟩

/-- C17, amended: for `FindByID` of the three repositories and `FindByEmail` of the User
repository, in both modes: when the engine answers and no row matches, the result is
no entity and the error whose message is the not-found text of the entity; when the
lookup fails with an error that is not `sql.ErrNoRows`, that error is returned as it
is.  The not-found error is a plain `errors.New` value that wraps nothing: it differs
from a storage failure by its message, not by a kind of its own. -/
theorem lookups_map_no_rows_to_not_found (ctx : Context) (s : Store) :
    (∀ id, s.usable (targetOf ctx) = true → s.fault = none →
      (∀ r ∈ (s.view (targetOf ctx)).blogs, r.ID ≠ id) →
      (BlogRepository.FindByID ctx id s).1 =
        .error (.sentinel ("blog not found with id: " ++ id))) ∧
    (∀ id, s.usable (targetOf ctx) = true → s.fault = none →
      (∀ r ∈ (s.view (targetOf ctx)).comments, r.ID ≠ id) →
      (CommentRepository.FindByID ctx id s).1 =
        .error (.sentinel ("comment not found with id: " ++ id))) ∧
    (∀ id, s.usable (targetOf ctx) = true → s.fault = none →
      (∀ r ∈ (s.view (targetOf ctx)).users, r.ID ≠ id) →
      (UserRepository.FindByID ctx id s).1 =
        .error (.sentinel ("user not found with id: " ++ id))) ∧
    (∀ email, s.usable (targetOf ctx) = true → s.fault = none →
      (∀ r ∈ (s.view (targetOf ctx)).users, r.Email ≠ email) →
      (UserRepository.FindByEmail ctx email s).1 =
        .error (.sentinel ("user not found with email: " ++ email))) ∧
    (∀ id e, (s.structScan scanBlog (targetOf ctx) (.selectBlogByID id)).1 = .error e →
      errorsIs e ErrNoRows = false → (BlogRepository.FindByID ctx id s).1 = .error e) ∧
    (∀ id e, (s.structScan scanComment (targetOf ctx) (.selectCommentByID id)).1 = .error e →
      errorsIs e ErrNoRows = false → (CommentRepository.FindByID ctx id s).1 = .error e) ∧
    (∀ id e, (s.structScan scanUser (targetOf ctx) (.selectUserByID id)).1 = .error e →
      errorsIs e ErrNoRows = false → (UserRepository.FindByID ctx id s).1 = .error e) ∧
    (∀ email e,
      (s.structScan scanUser (targetOf ctx) (.selectUserByEmail email)).1 = .error e →
      errorsIs e ErrNoRows = false → (UserRepository.FindByEmail ctx email s).1 = .error e) ∧
    (∀ msg, (GoError.sentinel msg).dynamicType = .errorString ∧
      (GoError.sentinel msg).Unwrap = none) :=
  ⟨fun id hu hf h => BlogRepository_FindByID_absent ctx id s hu hf h,
    fun id hu hf h => CommentRepository_FindByID_absent ctx id s hu hf h,
    fun id hu hf h => UserRepository_FindByID_absent ctx id s hu hf h,
    fun email hu hf h => UserRepository_FindByEmail_absent ctx email s hu hf h,
    fun id e h1 h2 => BlogRepository_FindByID_failure ctx id s e h1 h2,
    fun id e h1 h2 => CommentRepository_FindByID_failure ctx id s e h1 h2,
    fun id e h1 h2 => UserRepository_FindByID_failure ctx id s e h1 h2,
    fun email e h1 h2 => UserRepository_FindByEmail_failure ctx email s e h1 h2,
    fun _ => ⟨rfl, rfl⟩⟩

theorem lookups_map_no_rows_to_not_found_witness :
    (UserRepository.FindByEmail ambientCtx "bob@example.com" entityStore).1 =
        .error (.sentinel ("user not found with email: " ++ "bob@example.com")) ∧
      (BlogRepository.FindByID ambientCtx "b1" finishedTxStore).1 = .error ErrTxDone :=
  ⟨(lookups_map_no_rows_to_not_found ambientCtx entityStore).2.2.2.1 "bob@example.com"
      rfl rfl (by decide),
    (lookups_map_no_rows_to_not_found ambientCtx finishedTxStore).2.2.2.2.1 "b1" ErrTxDone
      rfl (by decide)⟩

theorem repositories_write_missing_id_witness :
    ((BlogRepository.Update ambientCtx missingBlog entityStore).1 =
        some (.sentinel ("blog not found with id: " ++ missingBlog.id.String)) ∧
      (BlogRepository.Update ambientCtx missingBlog entityStore).2.tables =
        entityStore.tables ∧
      (BlogRepository.Update ambientCtx missingBlog entityStore).2.view (targetOf ambientCtx) =
        entityStore.view (targetOf ambientCtx)) ∧
    ((UserRepository.Delete .background "u9" entityStore).1 =
        some (.sentinel ("user not found with id: " ++ "u9")) ∧
      (UserRepository.Delete .background "u9" entityStore).2.tables = entityStore.tables ∧
      (UserRepository.Delete .background "u9" entityStore).2.view
        (targetOf .background) = entityStore.view (targetOf .background)) :=
  ⟨(repositories_write_missing_id ambientCtx entityStore rfl rfl).1 missingBlog
      (by decide),
    (repositories_write_missing_id .background entityStore rfl rfl).2.2.2.2.2 "u9"
      (by decide)⟩

theorem repositories_follow_dual_mode_rule_witness :
    (BlogRepository.Delete ambientCtx "b2" entityStore =
        (writeOutcome (.sentinel ("blog not found with id: " ++ "b2"))
            (entityStore.exec (targetOf ambientCtx) (.deleteBlog "b2")).1,
          (entityStore.exec (targetOf ambientCtx) (.deleteBlog "b2")).2)) ∧
      targetOf ambientCtx = .tx 0 ∧ targetOf .background = .pool ∧
      (BlogRepository.Delete ambientCtx "b2" entityStore).1 = none ∧
      (BlogRepository.Delete .background "b2" entityStore).1 =
        some (.sentinel "blog not found with id: b2") :=
  ⟨(repositories_follow_dual_mode_rule ambientCtx entityStore).2.2.2.2.2.1 "b2",
    (repositories_follow_dual_mode_rule ambientCtx entityStore).2.2.2.2.2.2.2.2.2.2.2.2.2.2.2.2.2.2.1
      0 rfl,
    (repositories_follow_dual_mode_rule .background entityStore).2.2.2.2.2.2.2.2.2.2.2.2.2.2.2.2.2.2.2
      rfl,
    rfl, rfl⟩

/-! ## Theorems: the context of the Unit-of-Work -/

theorem GetTx_of_no_txKey (c : Context) (h : CtxKey.txKey ∉ c.keys) : GetTx c = none := by
  have hv : c.Value .txKey = none := by
    induction c with
    | background => rfl
    | withValue parent key val ih =>
      simp only [Context.keys, List.mem_cons, not_or] at h
      simp only [Context.Value]
      rw [if_neg (fun hk => h.1 hk.symm)]
      exact ih h.2
  simp [GetTx, hv]

/-- C22: after a successful `Begin`, `Transaction` runs the work function on the child
context `ctx.withValue txKey tx`, on the storage as `Begin` left it, and ends in the
state the work function left followed by the `Commit` or the `Rollback` of the handle;
a work function that looks up the handle of the context it is given finds the handle
just begun and works on it; `Transaction` depends on the work function through that
one call only; `GetTx` on the child context returns the handle just begun, every other
key has in the child the value it has in the parent, and `GetTx` on a context that
stores nothing under `txKey` returns false. -/
theorem transaction_context_carries_handle (ctx : Context) (db : Db) (tx : Nat) (db1 : Db)
    (hbegin : db.Begin = (.ok tx, db1)) :
    (∀ fn : Context → Db → Option GoError × Db,
      (Transaction ctx fn db).2 =
        if (fn (ctx.withValue .txKey (.tx tx)) db1).1 = none then
          ((fn (ctx.withValue .txKey (.tx tx)) db1).2.Commit tx).2
        else ((fn (ctx.withValue .txKey (.tx tx)) db1).2.Rollback tx).2) ∧
    (Transaction ctx deleteThroughContext db).2 =
      (if (db1.Exec tx .deleteRankings).1 = none then
        ((db1.Exec tx .deleteRankings).2.Commit tx).2
      else ((db1.Exec tx .deleteRankings).2.Rollback tx).2) ∧
    (∀ fn g : Context → Db → Option GoError × Db,
      fn (ctx.withValue .txKey (.tx tx)) db1 = g (ctx.withValue .txKey (.tx tx)) db1 →
      Transaction ctx fn db = Transaction ctx g db) ∧
    GetTx (ctx.withValue .txKey (.tx tx)) = some tx ∧
    (∀ key, key ≠ CtxKey.txKey →
      (ctx.withValue .txKey (.tx tx)).Value key = ctx.Value key) ∧
    (∀ c : Context, CtxKey.txKey ∉ c.keys → GetTx c = none) := by
  have hget : GetTx (ctx.withValue .txKey (.tx tx)) = some tx := by
    simp [GetTx, Context.Value]
  have hstate : ∀ fn : Context → Db → Option GoError × Db,
      (Transaction ctx fn db).2 =
        if (fn (ctx.withValue .txKey (.tx tx)) db1).1 = none then
          ((fn (ctx.withValue .txKey (.tx tx)) db1).2.Commit tx).2
        else ((fn (ctx.withValue .txKey (.tx tx)) db1).2.Rollback tx).2 := by
    intro fn
    unfold Transaction
    rw [hbegin]
    simp only
    rcases hfn : fn (ctx.withValue .txKey (.tx tx)) db1 with ⟨_ | err, db2⟩
    · simp only [↓reduceIte]
      rcases hc : db2.Commit tx with ⟨_ | ce, db3⟩ <;> rfl
    · simp only [reduceCtorEq, ↓reduceIte]
      rcases hr : db2.Rollback tx with ⟨_ | re, db3⟩ <;> rfl
  refine ⟨hstate, ?_, ?_, hget, ?_, GetTx_of_no_txKey⟩
  · have h := hstate deleteThroughContext
    simp only [deleteThroughContext, hget] at h
    exact h
  · intro fn g hfg
    unfold Transaction
    rw [hbegin]
    simp only [hfg]
  · intro key hkey
    simp only [Context.Value]
    rw [if_neg (fun hk => hkey hk.symm)]

theorem transaction_context_carries_handle_witness :
    (Transaction requestCtx deleteThroughContext (Db.healthy [] [] 0 [previousRow])).2 =
      (if ((Db.healthy [] [] 0 [previousRow]).Begin.2.Exec 0 .deleteRankings).1 = none then
        (((Db.healthy [] [] 0 [previousRow]).Begin.2.Exec 0 .deleteRankings).2.Commit 0).2
      else (((Db.healthy [] [] 0 [previousRow]).Begin.2.Exec 0 .deleteRankings).2.Rollback 0).2) ∧
    (Transaction requestCtx deleteThroughContext (Db.healthy [] [] 0 [previousRow])).2.log =
      [⟨.begin 0, none⟩, ⟨.exec 0 .deleteRankings, none⟩, ⟨.commit 0, none⟩] ∧
    (Transaction requestCtx deleteThroughContext (Db.healthy [] [] 0 [previousRow])).2.rankings =
      [] ∧
    GetTx (requestCtx.withValue .txKey (.tx 0)) = some 0 ∧
      (requestCtx.withValue .txKey (.tx 0)).Value (.other "user") =
        requestCtx.Value (.other "user") ∧
      requestCtx.Value (.other "user") = some (.other "alice") ∧
      GetTx requestCtx = none :=
  ⟨(transaction_context_carries_handle requestCtx (Db.healthy [] [] 0 [previousRow]) 0 _
      rfl).2.1,
    rfl, rfl,
    (transaction_context_carries_handle requestCtx (Db.healthy [] [] 0 []) 0 _ rfl).2.2.2.1,
    (transaction_context_carries_handle requestCtx (Db.healthy [] [] 0 []) 0 _ rfl).2.2.2.2.1
      (.other "user") (by decide),
    rfl,
    (transaction_context_carries_handle requestCtx (Db.healthy [] [] 0 []) 0 _ rfl).2.2.2.2.2
      requestCtx (by decide)⟩

/-- C25: when the work function returns the error `e` and the rollback succeeds,
`Transaction` returns `e` itself, not wrapped and not changed. -/
theorem transaction_returns_work_error (ctx : Context)
    (fn : Context → Db → Option GoError × Db) (db : Db) (tx : Nat) (db1 : Db) (e : GoError)
    (hbegin : db.Begin = (.ok tx, db1))
    (hwork : (fn (ctx.withValue .txKey (.tx tx)) db1).1 = some e)
    (hrollback : ((fn (ctx.withValue .txKey (.tx tx)) db1).2.Rollback tx).1 = none) :
    (Transaction ctx fn db).1 = some e ∧ errorsIs e e = true := by
  refine ⟨?_, errorsIs_self e⟩
  unfold Transaction
  rw [hbegin]
  simp only
  rcases hfn : fn (ctx.withValue .txKey (.tx tx)) db1 with ⟨_ | err, db2⟩
  · rw [hfn] at hwork
    simp at hwork
  · rw [hfn] at hwork hrollback
    simp only [Option.some.injEq] at hwork
    rcases hR : db2.Rollback tx with ⟨_ | re, db3⟩
    · simp only [hR, hwork]
    · rw [hR] at hrollback
      simp at hrollback

theorem transaction_returns_work_error_witness :
    (Transaction .background (failingWork (.sentinel "work failed"))
        (Db.healthy [] [] 0 [])).1 = some (.sentinel "work failed") ∧
      errorsIs (.sentinel "work failed") (.sentinel "work failed") = true :=
  transaction_returns_work_error .background (failingWork (.sentinel "work failed"))
    (Db.healthy [] [] 0 []) 0 _ (.sentinel "work failed") rfl rfl rfl

/-! ## Theorems: failures around the ranking run -/

/-- C23: when the aggregation query fails with `e`, `CalculatePopularRanking` returns at
once the error that wraps `e`, in the state the query left: the calls made are those
of the query alone, no transaction was begun and the ranking table is untouched, so
neither `SaveRankings` nor any delete or insert was issued. -/
theorem calculatePopularRanking_query_failure (ctx : Context) (days : Int) (db : Db)
    (e : GoError) (db1 : Db) (hquery : GetBlogRankingData ctx days db = (.error e, db1)) :
    CalculatePopularRanking ctx days db =
        (some (.errorf "ブログ統計データの取得に失敗しました: " e ""), db1) ∧
      errorsIs (.errorf "ブログ統計データの取得に失敗しました: " e "") e = true ∧
      db1.txs = db.txs ∧ db1.rankings = db.rankings ∧
      (∀ entry ∈ callsSince db db1, entry.call.isRead = true) := by
  obtain ⟨hr, ht, _, _, qs, hlog, hqs⟩ := GetBlogRankingData_frame ctx days db
  rw [hquery] at hr ht hlog
  refine ⟨?_, errorsIs_errorf_wrapped _ _ _, ht, hr, ?_⟩
  · unfold CalculatePopularRanking
    rw [hquery]
  · intro entry hentry
    unfold callsSince at hentry
    rw [show db1.log = db.log ++ qs from hlog, List.drop_left] at hentry
    exact hqs entry hentry

theorem calculatePopularRanking_query_failure_witness :
    CalculatePopularRanking .background 7 brokenQueryDb =
        (some (.errorf "ブログ統計データの取得に失敗しました: " (.sentinel "bad connection") ""),
          (GetBlogRankingData .background 7 brokenQueryDb).2) ∧
      (GetBlogRankingData .background 7 brokenQueryDb).2.log =
        [⟨.query 7, some (.sentinel "bad connection")⟩] :=
  ⟨(calculatePopularRanking_query_failure .background 7 brokenQueryDb
      (.sentinel "bad connection") _ rfl).1, rfl⟩

/-! ## Theorems: what the lock does not give -/

/-- C21 fails on the code: while a first invocation of the batch is active, `Lock`
called and not yet released, a second invocation with the same lock id gets the lock
as well and runs the use case. -/
theorem ranking_handler_runs_while_locked :
    heldLockWorld.events = [.lock lockID lockTTL] ∧
      (ranking.CalculatePopularRanking (Mutex.Lock ⟨none⟩) .background "7"
        heldLockWorld).1 = none ∧
      (ranking.CalculatePopularRanking (Mutex.Lock ⟨none⟩) .background "7"
        heldLockWorld).2.events =
        [.lock lockID lockTTL, .lock lockID lockTTL, .useCase 7, .unlock] := by
  refine ⟨by rfl, by rfl, by rfl⟩

/-- The test of the handler for the already-locked case looks for the `errLocked` of
package `batch`: given a lock that fails with the `errLocked` of package `http`, which
the `Lock` of the repository never does, the handler does not find its own `errLocked`
in the error and returns the lock-acquisition-failure error, not the
multiple-execution error; the returned error wraps the lock error. -/
theorem ranking_handler_misreads_locked :
    errorsIs httpErrLocked batchErrLocked = false ∧
      httpErrLocked.Error = batchErrLocked.Error ∧
      (ranking.CalculatePopularRanking refusingLock .background "7" scenarioWorld).1 =
        some (.errorf "ロック取得処理に失敗しました: Mutex.Lock(id: calculate-popular-ranking): "
          httpErrLocked "") ∧
      errorsIs (.errorf "ロック取得処理に失敗しました: Mutex.Lock(id: calculate-popular-ranking): "
          httpErrLocked "") httpErrLocked = true := by
  refine ⟨by decide, by rfl, by rfl, by decide⟩

/-! ## Theorems: use cases of blogs and comments -/

theorem wrapInt_exact (n : Int) (h0 : -9223372036854775808 ≤ n)
    (h1 : n < 9223372036854775808) : wrapInt n = n := by
  unfold wrapInt
  omega

theorem Store.queryRows_frame (s : Store) (t : Target) (q : Query) :
    (s.queryRows t q).2.tables = s.tables ∧ (s.queryRows t q).2.txs = s.txs := by
  unfold Store.queryRows
  split
  · split <;> exact ⟨rfl, rfl⟩
  · exact ⟨rfl, rfl⟩

theorem Store.structScan_frame {α : Type} (s : Store) (scan : Row → Except GoError α)
    (t : Target) (q : Query) :
    (s.structScan scan t q).2.tables = s.tables ∧ (s.structScan scan t q).2.txs = s.txs := by
  unfold Store.structScan
  have h := Store.queryRows_frame s t q
  rcases hq : s.queryRows t q with ⟨e | rows, s1⟩
  · rw [hq] at h
    exact h
  · rw [hq] at h
    cases rows <;> exact h

theorem BlogRepository_FindByID_frame (ctx : Context) (id : String) (s : Store) :
    (BlogRepository.FindByID ctx id s).2.tables = s.tables ∧
      (BlogRepository.FindByID ctx id s).2.txs = s.txs ∧
      (BlogRepository.FindByID ctx id s).2.log =
        s.log ++ [(targetOf ctx, .selectBlogByID id)] := by
  rw [BlogRepository_FindByID_dual]
  exact ⟨(Store.structScan_frame s _ _ _).1, (Store.structScan_frame s _ _ _).2,
    Store.structScan_log s _ _ _⟩

theorem CommentRepository_FindByID_frame (ctx : Context) (id : String) (s : Store) :
    (CommentRepository.FindByID ctx id s).2.tables = s.tables ∧
      (CommentRepository.FindByID ctx id s).2.txs = s.txs ∧
      (CommentRepository.FindByID ctx id s).2.log =
        s.log ++ [(targetOf ctx, .selectCommentByID id)] := by
  rw [CommentRepository_FindByID_dual]
  exact ⟨(Store.structScan_frame s _ _ _).1, (Store.structScan_frame s _ _ _).2,
    Store.structScan_log s _ _ _⟩

/-- The statement `blogUsecase.GetAllBlogs` issues, for every `page` and `perPage`: the
page query with the limit `p` and the offset `q * p` wrapped to 64 bits. -/
theorem blogUsecase_GetAllBlogs_statement (ctx : Context) (page perPage : Int) (s : Store) :
    (blogUsecase.GetAllBlogs ctx page perPage s).2.log =
      s.log ++ [(targetOf ctx, .selectBlogsPage (if perPage ≤ 0 then 10 else perPage)
        (wrapInt ((if page < 0 then 0 else page) * (if perPage ≤ 0 then 10 else perPage))))] := by
  unfold blogUsecase.GetAllBlogs
  simp only
  have h := Store.selectAll_log s scanBlog (targetOf ctx)
    (.selectBlogsPage (if perPage ≤ 0 then 10 else perPage)
      (wrapInt ((if page < 0 then 0 else page) * (if perPage ≤ 0 then 10 else perPage))))
  have hd := BlogRepository_FindAll_dual ctx
    (wrapInt ((if page < 0 then 0 else page) * (if perPage ≤ 0 then 10 else perPage)))
    (if perPage ≤ 0 then 10 else perPage) s
  rcases hr : BlogRepository.FindAll ctx
    (wrapInt ((if page < 0 then 0 else page) * (if perPage ≤ 0 then 10 else perPage)))
    (if perPage ≤ 0 then 10 else perPage) s with ⟨e | blogs, s1⟩ <;>
  · rw [hr] at hd
    have h2 : s1 = _ := congrArg Prod.snd hd
    simp only
    rw [h2]
    exact h

/-- The offset `blogUsecase.GetAllBlogs` passes is the exact product and not negative
whenever the product fits a Go `int`. -/
theorem blogUsecase_GetAllBlogs_offset_in_range (page perPage : Int)
    (h : (if page < 0 then 0 else page) * (if perPage ≤ 0 then 10 else perPage) <
      9223372036854775808) :
    wrapInt ((if page < 0 then 0 else page) * (if perPage ≤ 0 then 10 else perPage)) =
        (if page < 0 then 0 else page) * (if perPage ≤ 0 then 10 else perPage) ∧
      0 ≤ wrapInt ((if page < 0 then 0 else page) * (if perPage ≤ 0 then 10 else perPage)) := by
  have h0 : 0 ≤ (if page < 0 then 0 else page) * (if perPage ≤ 0 then 10 else perPage) := by
    apply mul_nonneg
    · split <;> omega
    · split <;> omega
  rw [wrapInt_exact _ (by omega) h]
  exact ⟨rfl, h0⟩

/-- The parameters `BlogHandler.GetAllBlogs` passes to the use case: a page that is not
negative and a page size from 1 to 100; the page has no upper bound. -/
theorem BlogHandler_pageParams_range (pageStr perPageStr : String) :
    0 ≤ (BlogHandler.pageParams pageStr perPageStr).1 ∧
      0 < (BlogHandler.pageParams pageStr perPageStr).2 ∧
      (BlogHandler.pageParams pageStr perPageStr).2 ≤ 100 := by
  unfold BlogHandler.pageParams
  simp only
  refine ⟨?_, ?_, ?_⟩
  · split
    · split
      · split <;> omega
      · omega
    · omega
  · split
    · split
      · split <;> omega
      · omega
    · omega
  · split
    · split
      · split <;> omega
      · omega
    · omega

/-- C27: the request `GET /blogs?page=4611686018427387904&per_page=2` passes the
handler's checks (`page >= 0`, `0 < per_page <= 100`) and reaches the use case with
`page = 2^62` and `perPage = 2`; the product `page * perPage` is `2^63`, which no Go
`int` holds, and the repository is called with the limit 2 and the offset `-2^63`:
the offset is negative and is not the product `q * p`. -/
theorem getAllBlogs_offset_wraps_negative :
    BlogHandler.pageParams "4611686018427387904" "2" = (4611686018427387904, 2) ∧
      (BlogHandler.GetAllBlogs .background "4611686018427387904" "2" entityStore).2.log =
        [(.pool, .selectBlogsPage 2 (-9223372036854775808))] ∧
      (blogUsecase.GetAllBlogs .background 4611686018427387904 2 entityStore).2.log =
        [(.pool, .selectBlogsPage 2 (-9223372036854775808))] ∧
      (4611686018427387904 : Int) * 2 = 9223372036854775808 ∧
      wrapInt (4611686018427387904 * 2) < 0 := by
  refine ⟨by rfl, by rfl, by rfl, by decide, by decide⟩

/-- C26: in `UpdateBlog`, `DeleteBlog`, `UpdateComment` and `DeleteComment`, in every
context and on every state of the storage: when the lookup returns an entity whose
owner id differs from `userID`, the result is the permission error and the storage is
left as the lookup left it; when the lookup returns an error (the entity is not found,
or the storage failed), the result is that error wrapped, whatever `userID` is, and the
storage is again as the lookup left it.  The lookup changes neither the tables nor the
transactions and adds one statement to the log, the select by id: no UPDATE and no
DELETE is issued, and the stored entity is unchanged. -/
theorem owner_guard_skips_mutation (ctx : Context) (id userID title content : String)
    (s : Store) :
    ((∀ b, (BlogRepository.FindByID ctx id s).1 = .ok b → b.userID.String ≠ userID →
        blogUsecase.UpdateBlog ctx id userID title content s =
            (.error (.sentinel "このブログを更新する権限がありません"),
              (BlogRepository.FindByID ctx id s).2) ∧
          blogUsecase.DeleteBlog ctx id userID s =
            (some (.sentinel "このブログを削除する権限がありません"),
              (BlogRepository.FindByID ctx id s).2)) ∧
      (∀ e, (BlogRepository.FindByID ctx id s).1 = .error e →
        blogUsecase.UpdateBlog ctx id userID title content s =
            (.error (.errorf "ブログ取得エラー: " e ""), (BlogRepository.FindByID ctx id s).2) ∧
          blogUsecase.DeleteBlog ctx id userID s =
            (some (.errorf "ブログ取得エラー: " e ""), (BlogRepository.FindByID ctx id s).2))) ∧
    ((∀ c, (CommentRepository.FindByID ctx id s).1 = .ok c → c.userID.String ≠ userID →
        commentUsecase.UpdateComment ctx id userID content s =
            (.error (.sentinel "このコメントを更新する権限がありません"),
              (CommentRepository.FindByID ctx id s).2) ∧
          commentUsecase.DeleteComment ctx id userID s =
            (some (.sentinel "このコメントを削除する権限がありません"),
              (CommentRepository.FindByID ctx id s).2)) ∧
      (∀ e, (CommentRepository.FindByID ctx id s).1 = .error e →
        commentUsecase.UpdateComment ctx id userID content s =
            (.error (.errorf "コメント取得エラー: " e ""),
              (CommentRepository.FindByID ctx id s).2) ∧
          commentUsecase.DeleteComment ctx id userID s =
            (some (.errorf "コメント取得エラー: " e ""),
              (CommentRepository.FindByID ctx id s).2))) ∧
    ((BlogRepository.FindByID ctx id s).2.tables = s.tables ∧
      (BlogRepository.FindByID ctx id s).2.txs = s.txs ∧
      (BlogRepository.FindByID ctx id s).2.log =
        s.log ++ [(targetOf ctx, .selectBlogByID id)]) ∧
    ((CommentRepository.FindByID ctx id s).2.tables = s.tables ∧
      (CommentRepository.FindByID ctx id s).2.txs = s.txs ∧
      (CommentRepository.FindByID ctx id s).2.log =
        s.log ++ [(targetOf ctx, .selectCommentByID id)]) := by
  refine ⟨⟨?_, ?_⟩, ⟨?_, ?_⟩, BlogRepository_FindByID_frame ctx id s,
    CommentRepository_FindByID_frame ctx id s⟩
  · intro b hb hne
    unfold blogUsecase.UpdateBlog blogUsecase.DeleteBlog
    rcases hr : BlogRepository.FindByID ctx id s with ⟨e | b1, s1⟩
    · rw [hr] at hb
      cases hb
    · rw [hr] at hb
      cases hb
      simp only [hne, ne_eq, not_false_eq_true, ↓reduceIte, and_self]
  · intro e he
    unfold blogUsecase.UpdateBlog blogUsecase.DeleteBlog
    rcases hr : BlogRepository.FindByID ctx id s with ⟨e1 | b1, s1⟩
    · rw [hr] at he
      cases he
      simp only [and_self]
    · rw [hr] at he
      cases he
  · intro c hc hne
    unfold commentUsecase.UpdateComment commentUsecase.DeleteComment
    rcases hr : CommentRepository.FindByID ctx id s with ⟨e | c1, s1⟩
    · rw [hr] at hc
      cases hc
    · rw [hr] at hc
      cases hc
      simp only [hne, ne_eq, not_false_eq_true, ↓reduceIte, and_self]
  · intro e he
    unfold commentUsecase.UpdateComment commentUsecase.DeleteComment
    rcases hr : CommentRepository.FindByID ctx id s with ⟨e1 | c1, s1⟩
    · rw [hr] at he
      cases he
      simp only [and_self]
    · rw [hr] at he
      cases he

theorem owner_guard_skips_mutation_witness :
    (blogUsecase.UpdateBlog .background "b1" "u2" "new title" "" entityStore =
        (.error (.sentinel "このブログを更新する権限がありません"),
          (BlogRepository.FindByID .background "b1" entityStore).2) ∧
      blogUsecase.DeleteBlog .background "b1" "u2" entityStore =
        (some (.sentinel "このブログを削除する権限がありません"),
          (BlogRepository.FindByID .background "b1" entityStore).2)) ∧
    (blogUsecase.UpdateBlog .background "b9" "u1" "new title" "" entityStore =
        (.error (.errorf "ブログ取得エラー: " (.sentinel "blog not found with id: b9") ""),
          (BlogRepository.FindByID .background "b9" entityStore).2) ∧
      blogUsecase.DeleteBlog .background "b9" "u1" entityStore =
        (some (.errorf "ブログ取得エラー: " (.sentinel "blog not found with id: b9") ""),
          (BlogRepository.FindByID .background "b9" entityStore).2)) ∧
    (commentUsecase.UpdateComment .background "c1" "u2" "new text" entityStore =
        (.error (.sentinel "このコメントを更新する権限がありません"),
          (CommentRepository.FindByID .background "c1" entityStore).2) ∧
      commentUsecase.DeleteComment .background "c1" "u2" entityStore =
        (some (.sentinel "このコメントを削除する権限がありません"),
          (CommentRepository.FindByID .background "c1" entityStore).2)) ∧
    (BlogRepository.FindByID .background "b1" entityStore).2.tables = entityTables :=
  ⟨(owner_guard_skips_mutation .background "b1" "u2" "new title" "" entityStore).1.1
      ⟨⟨"b1"⟩, ⟨"u1"⟩, "title", "content", 10, 10⟩ (by rfl) (by decide),
    (owner_guard_skips_mutation .background "b9" "u1" "new title" "" entityStore).1.2
      (.sentinel "blog not found with id: b9") (by rfl),
    (owner_guard_skips_mutation .background "c1" "u2" "" "new text" entityStore).2.1.1
      ⟨⟨"c1"⟩, ⟨"b1"⟩, ⟨"u1"⟩, "hello", 20, 20⟩ (by rfl) (by decide),
    (owner_guard_skips_mutation .background "b1" "u2" "new title" "" entityStore).2.2.1.1⟩

/-! ## Theorems: entities and the user use case -/

theorem Blog.call_keeps_text (b : Blog) (c : BlogCall)
    (h : b.title ≠ "" ∧ b.content ≠ "") :
    (b.call c).2.title ≠ "" ∧ (b.call c).2.content ≠ "" := by
  cases c with
  | UpdateTitle title now =>
    simp only [Blog.call, Blog.UpdateTitle]
    split
    · exact h
    · exact ⟨by assumption, h.2⟩
  | UpdateContent content now =>
    simp only [Blog.call, Blog.UpdateContent]
    split
    · exact h
    · exact ⟨h.1, by assumption⟩

theorem Blog.calls_keep_text (cs : List BlogCall) (b : Blog)
    (h : b.title ≠ "" ∧ b.content ≠ "") :
    (b.calls cs).title ≠ "" ∧ (b.calls cs).content ≠ "" := by
  induction cs generalizing b with
  | nil => exact h
  | cons c rest ih =>
    simp only [Blog.calls, List.foldl_cons]
    exact ih _ (Blog.call_keeps_text b c h)

/-- C28: with `uuid.New().String()` giving a non-empty text, `NewBlog` fails exactly
when the title or the content is empty; a blog it returns has, after any sequence of
`UpdateTitle` and `UpdateContent` calls, a non-empty title and a non-empty content; and
on every blog a call of `UpdateTitle` or `UpdateContent` with the empty string returns
an error and leaves the blog, hence its title, content and updatedAt, unchanged. -/
theorem blog_text_never_empty (uuid : String) (now : Nat) (userID : ID)
    (title content : String) (huuid : uuid ≠ "") :
    ((∃ e, NewBlog uuid now userID title content = .error e) ↔ (title = "" ∨ content = "")) ∧
    (∀ b cs, NewBlog uuid now userID title content = .ok b →
      (b.calls cs).title ≠ "" ∧ (b.calls cs).content ≠ "") ∧
    (∀ (b : Blog) (now2 : Nat),
      b.UpdateTitle "" now2 = (some (.sentinel "タイトルが空です"), b) ∧
      b.UpdateContent "" now2 = (some (.sentinel "コンテンツが空です"), b)) := by
  refine ⟨?_, ?_, ?_⟩
  · unfold NewBlog NewID
    by_cases ht : title = ""
    · simp [ht]
    · by_cases hc : content = ""
      · simp [ht, hc]
      · simp [ht, hc, huuid]
  · intro b cs hb
    apply Blog.calls_keep_text
    unfold NewBlog NewID at hb
    by_cases ht : title = ""
    · simp [ht] at hb
    · by_cases hc : content = ""
      · simp [ht, hc] at hb
      · simp only [ht, hc, huuid, ↓reduceIte, Except.ok.injEq] at hb
        subst hb
        exact ⟨ht, hc⟩
  · intro b now2
    exact ⟨rfl, rfl⟩

theorem blog_text_never_empty_witness :
    "123e4567-e89b-12d3-a456-426614174000" ≠ "" ∧
    ((∃ e, NewBlog "123e4567-e89b-12d3-a456-426614174000" 7 ⟨"u1"⟩ "title" "text" = .error e) ↔
      ("title" = "" ∨ "text" = "")) ∧
    ((Blog.calls ⟨⟨"123e4567-e89b-12d3-a456-426614174000"⟩, ⟨"u1"⟩, "title", "text", 7, 7⟩
          [.UpdateTitle "" 8, .UpdateContent "new text" 9]).title ≠ "" ∧
      (Blog.calls ⟨⟨"123e4567-e89b-12d3-a456-426614174000"⟩, ⟨"u1"⟩, "title", "text", 7, 7⟩
          [.UpdateTitle "" 8, .UpdateContent "new text" 9]).content ≠ "") ∧
    (missingBlog.UpdateTitle "" 50 = (some (.sentinel "タイトルが空です"), missingBlog) ∧
      missingBlog.UpdateContent "" 50 = (some (.sentinel "コンテンツが空です"), missingBlog)) :=
  ⟨by decide,
    (blog_text_never_empty "123e4567-e89b-12d3-a456-426614174000" 7 ⟨"u1"⟩ "title" "text"
      (by decide)).1,
    (blog_text_never_empty "123e4567-e89b-12d3-a456-426614174000" 7 ⟨"u1"⟩ "title" "text"
      (by decide)).2.1 ⟨⟨"123e4567-e89b-12d3-a456-426614174000"⟩, ⟨"u1"⟩, "title", "text", 7, 7⟩
      [.UpdateTitle "" 8, .UpdateContent "new text" 9] (by rfl),
    (blog_text_never_empty "123e4567-e89b-12d3-a456-426614174000" 7 ⟨"u1"⟩ "title" "text"
      (by decide)).2.2 missingBlog 50⟩

theorem UserRepository_FindByEmail_frame (ctx : Context) (email : String) (s : Store) :
    (UserRepository.FindByEmail ctx email s).2.tables = s.tables ∧
      (UserRepository.FindByEmail ctx email s).2.txs = s.txs ∧
      (UserRepository.FindByEmail ctx email s).2.log =
        s.log ++ [(targetOf ctx, .selectUserByEmail email)] := by
  rw [UserRepository_FindByEmail_dual]
  exact ⟨(Store.structScan_frame s _ _ _).1, (Store.structScan_frame s _ _ _).2,
    Store.structScan_log s _ _ _⟩

theorem UserRepository_Save_log (ctx : Context) (user : User) (s : Store) :
    (UserRepository.Save ctx user s).2.log =
      s.log ++ [(targetOf ctx, .insertUser user.id.String user.username user.email
        user.password user.createdAt user.updatedAt)] := by
  rw [UserRepository_Save_dual]
  exact Store.exec_log s _ _

theorem NewUser_ok_fields (lib : Crypto) (uuid : String) (now : Nat)
    (username email password : String) (u : User)
    (h : NewUser lib uuid now username email password = .ok u) :
    username ≠ "" ∧ email ≠ "" ∧ password ≠ "" ∧ u.username = username ∧ u.email = email := by
  unfold NewUser at h
  by_cases h1 : username = ""
  · simp [h1] at h
  · by_cases h2 : email = ""
    · simp [h1, h2] at h
    · by_cases h3 : password = ""
      · simp [h1, h2, h3] at h
      · refine ⟨h1, h2, h3, ?_⟩
        simp only [h1, h2, h3, ↓reduceIte] at h
        cases hg : lib.GenerateFromPassword password with
        | error e => simp [hg] at h
        | ok hash =>
          simp only [hg] at h
          cases hid : NewID uuid with
          | error e => simp [hid] at h
          | ok id =>
            simp only [hid, Except.ok.injEq] at h
            subst h
            exact ⟨rfl, rfl⟩

/-- C29: for every two calls of `Login`, in any contexts and on any states of the
storage, one in which `FindByEmail` returns an error (no user has the email, or the
lookup failed) and one in which it returns a user whose password does not verify, the
results are the same pair: the empty token and the error with the one message of both
branches; each call leaves the storage as its lookup left it. -/
theorem login_failures_look_alike (lib : Crypto) (jwtSecret : String)
    (ctx1 ctx2 : Context) (email1 password1 email2 password2 : String) (s1 s2 : Store)
    (e : GoError) (u : User)
    (h1 : (UserRepository.FindByEmail ctx1 email1 s1).1 = .error e)
    (h2 : (UserRepository.FindByEmail ctx2 email2 s2).1 = .ok u)
    (h3 : u.VerifyPassword lib password2 = false) :
    (userUsecase.Login lib jwtSecret ctx1 email1 password1 s1).1 =
        ("", some (.sentinel "メールアドレスまたはパスワードが正しくありません")) ∧
      (userUsecase.Login lib jwtSecret ctx2 email2 password2 s2).1 =
        ("", some (.sentinel "メールアドレスまたはパスワードが正しくありません")) ∧
      (userUsecase.Login lib jwtSecret ctx1 email1 password1 s1).1 =
        (userUsecase.Login lib jwtSecret ctx2 email2 password2 s2).1 ∧
      (userUsecase.Login lib jwtSecret ctx1 email1 password1 s1).2 =
        (UserRepository.FindByEmail ctx1 email1 s1).2 ∧
      (userUsecase.Login lib jwtSecret ctx2 email2 password2 s2).2 =
        (UserRepository.FindByEmail ctx2 email2 s2).2 := by
  have a1 : userUsecase.Login lib jwtSecret ctx1 email1 password1 s1 =
      (("", some (.sentinel "メールアドレスまたはパスワードが正しくありません")),
        (UserRepository.FindByEmail ctx1 email1 s1).2) := by
    unfold userUsecase.Login
    rcases hr : UserRepository.FindByEmail ctx1 email1 s1 with ⟨e1 | u1, t1⟩
    · rfl
    · rw [hr] at h1
      cases h1
  have a2 : userUsecase.Login lib jwtSecret ctx2 email2 password2 s2 =
      (("", some (.sentinel "メールアドレスまたはパスワードが正しくありません")),
        (UserRepository.FindByEmail ctx2 email2 s2).2) := by
    unfold userUsecase.Login
    rcases hr : UserRepository.FindByEmail ctx2 email2 s2 with ⟨e1 | u1, t1⟩
    · rfl
    · rw [hr] at h2
      cases h2
      simp only [h3, Bool.not_false, ↓reduceIte]
  rw [a1, a2]
  exact ⟨rfl, rfl, rfl, rfl, rfl⟩

theorem login_failures_look_alike_witness :
    (userUsecase.Login plainCrypto "secret" .background "bob@example.com" "pw" loginStore).1 =
        ("", some (.sentinel "メールアドレスまたはパスワードが正しくありません")) ∧
      (userUsecase.Login plainCrypto "secret" .background "alice@example.com" "guess"
          loginStore).1 =
        ("", some (.sentinel "メールアドレスまたはパスワードが正しくありません")) ∧
      (userUsecase.Login plainCrypto "secret" .background "bob@example.com" "pw" loginStore).1 =
        (userUsecase.Login plainCrypto "secret" .background "alice@example.com" "guess"
          loginStore).1 ∧
      (userUsecase.Login plainCrypto "secret" .background "bob@example.com" "pw" loginStore).2 =
        (UserRepository.FindByEmail .background "bob@example.com" loginStore).2 ∧
      (userUsecase.Login plainCrypto "secret" .background "alice@example.com" "guess"
          loginStore).2 =
        (UserRepository.FindByEmail .background "alice@example.com" loginStore).2 :=
  login_failures_look_alike plainCrypto "secret" .background .background
    "bob@example.com" "pw" "alice@example.com" "guess" loginStore loginStore
    (.sentinel "user not found with email: bob@example.com")
    ⟨⟨"u1"⟩, "alice", "alice@example.com", [112, 119], 5, 5⟩ (by rfl) (by rfl) (by rfl)

/-- When the lookup by email fails, for whatever reason, `Register` goes on: with
accepted fields it calls `Save`. -/
theorem userUsecase_Register_lookup_error (lib : Crypto) (uuid : String) (ctx : Context)
    (username email password : String) (s : Store) (e : GoError) (u : User)
    (he : (UserRepository.FindByEmail ctx email s).1 = .error e)
    (hu : NewUser lib uuid (UserRepository.FindByEmail ctx email s).2.clock
      username email password = .ok u) :
    (userUsecase.Register lib uuid ctx username email password s).2.log =
      s.log ++ [(targetOf ctx, .selectUserByEmail email),
        (targetOf ctx, .insertUser u.id.String u.username u.email u.password
          u.createdAt u.updatedAt)] := by
  unfold userUsecase.Register
  have hf := (UserRepository_FindByEmail_frame ctx email s).2.2
  rcases hr : UserRepository.FindByEmail ctx email s with ⟨e1 | u1, t1⟩
  · rw [hr] at hu hf
    simp only [Store.timeNow] at hu ⊢
    simp only [hu]
    have hs := UserRepository_Save_log ctx u { t1 with clock := t1.clock + 1 }
    rcases hsv : UserRepository.Save ctx u { t1 with clock := t1.clock + 1 } with ⟨e2 | _, t2⟩
    · rw [hsv] at hs
      simp only at hs hf ⊢
      rw [hs, hf, List.append_assoc]
      rfl
    · rw [hsv] at hs
      simp only at hs hf ⊢
      rw [hs, hf, List.append_assoc]
      rfl
  · rw [hr] at he
    cases he

/-- In every context and on every state of the storage: whenever `FindByEmail`
returns a user for the email, `Register` returns the email-taken error and leaves the
storage as the lookup left it, with the tables unchanged and the select by email the
one statement issued, so `Save` is not called; and in every case the statements of one
`Register` call are either the select alone, or the select followed by one INSERT of
the user that `NewUser` returned, which happens only with a non-empty username, email
and password: `Save` is called at most once, and only after `NewUser` accepted them. -/
theorem register_guards_taken_email (lib : Crypto) (uuid : String) (ctx : Context)
    (username email password : String) (s : Store) :
    (∀ u, (UserRepository.FindByEmail ctx email s).1 = .ok u →
      userUsecase.Register lib uuid ctx username email password s =
        (.error (.sentinel "このメールアドレスは既に使用されています"),
          (UserRepository.FindByEmail ctx email s).2)) ∧
    ((UserRepository.FindByEmail ctx email s).2.tables = s.tables ∧
      (UserRepository.FindByEmail ctx email s).2.txs = s.txs ∧
      (UserRepository.FindByEmail ctx email s).2.log =
        s.log ++ [(targetOf ctx, .selectUserByEmail email)]) ∧
    ((userUsecase.Register lib uuid ctx username email password s).2.log =
        s.log ++ [(targetOf ctx, .selectUserByEmail email)] ∨
      ∃ u, NewUser lib uuid (UserRepository.FindByEmail ctx email s).2.clock
            username email password = .ok u ∧
        username ≠ "" ∧ email ≠ "" ∧ password ≠ "" ∧
        (∃ e, (UserRepository.FindByEmail ctx email s).1 = .error e) ∧
        (userUsecase.Register lib uuid ctx username email password s).2.log =
          s.log ++ [(targetOf ctx, .selectUserByEmail email),
            (targetOf ctx, .insertUser u.id.String u.username u.email u.password
              u.createdAt u.updatedAt)]) := by
  refine ⟨?_, UserRepository_FindByEmail_frame ctx email s, ?_⟩
  · intro u hu
    unfold userUsecase.Register
    rcases hr : UserRepository.FindByEmail ctx email s with ⟨e1 | u1, t1⟩
    · rw [hr] at hu
      cases hu
    · rfl
  · have hf := (UserRepository_FindByEmail_frame ctx email s).2.2
    rcases hr : UserRepository.FindByEmail ctx email s with ⟨e1 | u1, t1⟩
    · cases hn : NewUser lib uuid t1.clock username email password with
      | error err =>
        left
        unfold userUsecase.Register
        rw [hr] at hf
        simp only [hr, Store.timeNow, hn]
        exact hf
      | ok u =>
        right
        have hfields := NewUser_ok_fields lib uuid t1.clock username email password u hn
        refine ⟨u, rfl, hfields.1, hfields.2.1, hfields.2.2.1, ⟨e1, rfl⟩, ?_⟩
        have h := userUsecase_Register_lookup_error lib uuid ctx username email password s
          e1 u (by rw [hr]) (by rw [hr]; exact hn)
        exact h
    · left
      unfold userUsecase.Register
      rw [hr] at hf
      simp only [hr]
      exact hf

theorem register_guards_taken_email_witness :
    userUsecase.Register plainCrypto "id-2" .background "bob" "alice@example.com" "pw"
        loginStore =
      (.error (.sentinel "このメールアドレスは既に使用されています"),
        (UserRepository.FindByEmail .background "alice@example.com" loginStore).2) ∧
    (UserRepository.FindByEmail .background "alice@example.com" loginStore).2.tables =
      loginStore.tables :=
  ⟨(register_guards_taken_email plainCrypto "id-2" .background "bob" "alice@example.com" "pw"
      loginStore).1 ⟨⟨"u1"⟩, "alice", "alice@example.com", [112, 119], 5, 5⟩ (by rfl),
    (register_guards_taken_email plainCrypto "id-2" .background "bob" "alice@example.com" "pw"
      loginStore).2.1.1⟩

/-! ## Theorems: two runs over the same data -/

theorem commentsInWindow_congr (db db2 : Db) (days : Int)
    (hcomments : db2.comments.Perm db.comments)
    (hwindow : ∀ c ∈ db.comments, inWindow db2 days c = inWindow db days c) (b : String) :
    commentsInWindow db2 days b = commentsInWindow db days b := by
  unfold commentsInWindow
  rw [(hcomments.filter _).length_eq]
  congr 1
  apply List.filter_congr
  intro c hc
  rw [hwindow c hc]

theorem joinRow_congr (db db2 : Db) (days : Int)
    (hcomments : db2.comments.Perm db.comments)
    (hwindow : ∀ c ∈ db.comments, inWindow db2 days c = inWindow db days c) :
    joinRow (commentCounts db2 days) = joinRow (commentCounts db days) := by
  funext b
  rw [joinRow_commentCounts, joinRow_commentCounts,
    commentsInWindow_congr db db2 days hcomments hwindow b]

/-- With the same blogs in the same row order and the same comments inside the window,
the query returns the same rows in the same order. -/
theorem rankingQueryRows_same_order (db db2 : Db) (days : Int)
    (hblogs : db2.blogs = db.blogs) (hcomments : db2.comments.Perm db.comments)
    (hwindow : ∀ c ∈ db.comments, inWindow db2 days c = inWindow db days c) :
    rankingQueryRows db2 days = rankingQueryRows db days := by
  unfold rankingQueryRows
  rw [hblogs, joinRow_congr db db2 days hcomments hwindow]

/-- With the same blogs in any row order and the same comments inside the window, the
query returns the same rows, up to their order. -/
theorem rankingQueryRows_perm (db db2 : Db) (days : Int)
    (hblogs : db2.blogs.Perm db.blogs) (hcomments : db2.comments.Perm db.comments)
    (hwindow : ∀ c ∈ db.comments, inWindow db2 days c = inWindow db days c) :
    (rankingQueryRows db2 days).Perm (rankingQueryRows db days) := by
  unfold rankingQueryRows
  rw [joinRow_congr db db2 days hcomments hwindow]
  exact (List.perm_insertionSort _ _).trans
    ((hblogs.map _).trans (List.perm_insertionSort _ _).symm)

/-- With the same blogs in any row order and the same comments inside the window, the
query returns the same scores in the same order. -/
theorem rankingQueryRows_scores (db db2 : Db) (days : Int)
    (hblogs : db2.blogs.Perm db.blogs) (hcomments : db2.comments.Perm db.comments)
    (hwindow : ∀ c ∈ db.comments, inWindow db2 days c = inWindow db days c) :
    (rankingQueryRows db2 days).map BlogRankingData.TotalScore =
      (rankingQueryRows db days).map BlogRankingData.TotalScore := by
  have : IsAntisymm Int (fun a b => b ≤ a) := ⟨fun a b h1 h2 => Int.le_antisymm h2 h1⟩
  have h2 : ((rankingQueryRows db2 days).map BlogRankingData.TotalScore).Sorted
      (fun a b => b ≤ a) :=
    List.Pairwise.map _ (fun a b h => h) (rankingQueryRows_sorted db2 days)
  have h1 : ((rankingQueryRows db days).map BlogRankingData.TotalScore).Sorted
      (fun a b => b ≤ a) :=
    List.Pairwise.map _ (fun a b h => h) (rankingQueryRows_sorted db days)
  exact List.eq_of_perm_of_sorted
    ((rankingQueryRows_perm db db2 days hblogs hcomments hwindow).map _) h2 h1

theorem enumFrom_content_ids (i : Nat) (stats : List BlogRankingData) :
    ((stats.enumFrom i).map
        (fun p => (p.2.BlogID, (p.1 : Int) + 1, p.2.TotalScore))).map
        (fun c => (c.1, c.2.2)) =
      stats.map (fun s => (s.BlogID, s.TotalScore)) := by
  induction stats generalizing i with
  | nil => rfl
  | cons s rest ih =>
    simp only [List.enumFrom_cons, List.map_cons]
    rw [ih (i + 1)]

theorem enumFrom_content_scores (i : Nat) (stats : List BlogRankingData) :
    ((stats.enumFrom i).map
        (fun p => (p.2.BlogID, (p.1 : Int) + 1, p.2.TotalScore))).map (fun c => c.2) =
      ((stats.map BlogRankingData.TotalScore).enumFrom i).map
        (fun p => ((p.1 : Int) + 1, p.2)) := by
  induction stats generalizing i with
  | nil => rfl
  | cons s rest ih =>
    simp only [List.enumFrom_cons, List.map_cons]
    rw [ih (i + 1)]

theorem buildRankings_empty_id (i : Nat) (stats : List BlogRankingData)
    (h : ∃ s ∈ stats, s.BlogID = "") : ∃ e, buildRankings i stats = .error e := by
  induction stats generalizing i with
  | nil =>
    obtain ⟨s, hs, _⟩ := h
    simp at hs
  | cons t rest ih =>
    unfold buildRankings
    by_cases ht : t.BlogID = ""
    · exact ⟨.errorf "ブログIDのパースに失敗しました: " (.sentinel "IDが空です") "",
        by simp [NewID, ht]⟩
    · have hrest : ∃ s ∈ rest, s.BlogID = "" := by
        obtain ⟨s, hs, hsid⟩ := h
        rcases List.mem_cons.mp hs with rfl | hs
        · exact absurd hsid ht
        · exact ⟨s, hs, hsid⟩
      obtain ⟨e, he⟩ := ih (i + 1) hrest
      exact ⟨e, by simp [NewID, ht, he]⟩

/-- On a storage without failures, a blog with an empty id makes
`CalculatePopularRanking` fail before it begins a transaction: the ranking table is
left as it was. -/
theorem CalculatePopularRanking_empty_id (ctx : Context) (days : Int) (db : Db)
    (h0 : db.faults = []) (hid : ∃ b ∈ db.blogs, b = "") :
    (CalculatePopularRanking ctx days db).2.rankings = db.rankings := by
  unfold CalculatePopularRanking
  have hG := GetBlogRankingData_healthy ctx days db h0
  obtain ⟨hqr, _⟩ := GetBlogRankingData_frame ctx days db
  rcases hGe : GetBlogRankingData ctx days db with ⟨ge | stats, db1⟩
  · rw [hGe] at hqr
    exact hqr
  · rw [hGe] at hG hqr
    simp only [Except.ok.injEq] at hG
    subst hG
    have hbad : ∃ s ∈ rankingQueryRows db days, s.BlogID = "" := by
      obtain ⟨b, hb, hbe⟩ := hid
      refine ⟨joinRow (commentCounts db days) b, ?_, ?_⟩
      · unfold rankingQueryRows
        rw [(List.perm_insertionSort _ _).mem_iff]
        exact List.mem_map_of_mem _ hb
      · rw [joinRow_commentCounts]
        exact hbe
    obtain ⟨e, he⟩ := buildRankings_empty_id 0 _ hbad
    simp only [he]
    exact hqr

theorem map_content_ids (rows : List RankingRow) :
    (rows.map RankingRow.content).map (fun c => (c.1, c.2.2)) =
      rows.map (fun r => (r.blogId, r.score)) := by
  rw [List.map_map]
  rfl

theorem map_content_scores (rows : List RankingRow) :
    (rows.map RankingRow.content).map (fun c => c.2) =
      rows.map (fun r => (r.rankingPosition, r.score)) := by
  rw [List.map_map]
  rfl

/-- C19, amended: on a storage that answers every call, a run of
`CalculatePopularRanking` and a second run with the same `days` on the table the first
one left, over the same blogs and the same comments (in whatever row order the engine
lists them), the same comments being inside the window at both runs, leave ranking
tables with the same blog ids, each with the same score, and with the same score at
every position; both runs return nil when the blog ids are not empty; and the tables
have the same blog ids, positions and scores when the engine lists the blogs in the
same order at both runs. -/
theorem calculatePopularRanking_same_scores (ctx ctx2 : Context) (days : Int)
    (db db2 : Db) (hhealthy : db.faults = []) (hhealthy2 : db2.faults = [])
    (hblogs : db2.blogs.Perm db.blogs) (hcomments : db2.comments.Perm db.comments)
    (hwindow : ∀ c ∈ db.comments, inWindow db2 days c = inWindow db days c)
    (hrank : db2.rankings = (CalculatePopularRanking ctx days db).2.rankings) :
    ((∀ b ∈ db.blogs, b ≠ "") →
      (CalculatePopularRanking ctx days db).1 = none ∧
        (CalculatePopularRanking ctx2 days db2).1 = none) ∧
    ((CalculatePopularRanking ctx2 days db2).2.rankings.map
        (fun r => (r.blogId, r.score))).Perm
      ((CalculatePopularRanking ctx days db).2.rankings.map (fun r => (r.blogId, r.score))) ∧
    (CalculatePopularRanking ctx2 days db2).2.rankings.map
        (fun r => (r.rankingPosition, r.score)) =
      (CalculatePopularRanking ctx days db).2.rankings.map
        (fun r => (r.rankingPosition, r.score)) ∧
    (db2.blogs = db.blogs →
      (CalculatePopularRanking ctx2 days db2).2.rankings.map RankingRow.content =
        (CalculatePopularRanking ctx days db).2.rankings.map RankingRow.content) := by
  by_cases hids : ∀ b ∈ db.blogs, b ≠ ""
  · have hids2 : ∀ b ∈ db2.blogs, b ≠ "" := fun b hb => hids b (hblogs.mem_iff.mp hb)
    obtain ⟨hok1, hrows1⟩ := CalculatePopularRanking_healthy ctx days db hhealthy hids
    obtain ⟨hok2, hrows2⟩ := CalculatePopularRanking_healthy ctx2 days db2 hhealthy2 hids2
    refine ⟨fun _ => ⟨hok1, hok2⟩, ?_, ?_, ?_⟩
    · rw [← map_content_ids, ← map_content_ids, hrows1, hrows2]
      unfold rankedContent
      rw [enumFrom_content_ids, enumFrom_content_ids]
      exact (rankingQueryRows_perm db db2 days hblogs hcomments hwindow).map _
    · rw [← map_content_scores, ← map_content_scores, hrows1, hrows2]
      unfold rankedContent
      rw [enumFrom_content_scores, enumFrom_content_scores,
        rankingQueryRows_scores db db2 days hblogs hcomments hwindow]
    · intro hsame
      rw [hrows1, hrows2, rankingQueryRows_same_order db db2 days hsame hcomments hwindow]
  · have hbad : ∃ b ∈ db.blogs, b = "" := by
      by_contra hne
      exact hids (fun b hb hbe => hne ⟨b, hb, hbe⟩)
    have hbad2 : ∃ b ∈ db2.blogs, b = "" := by
      obtain ⟨b, hb, hbe⟩ := hbad
      exact ⟨b, hblogs.mem_iff.mpr hb, hbe⟩
    have h1 := CalculatePopularRanking_empty_id ctx days db hhealthy hbad
    have h2 := CalculatePopularRanking_empty_id ctx2 days db2 hhealthy2 hbad2
    rw [hrank] at h2
    refine ⟨fun h => absurd h hids, ?_, ?_, ?_⟩
    · rw [h2]
    · rw [h2]
    · intro _
      rw [h2]

theorem calculatePopularRanking_same_scores_witness :
    (CalculatePopularRanking .background 7 tiedDb).1 = none ∧
    (CalculatePopularRanking .background 7
      { (CalculatePopularRanking .background 7 tiedDb).2 with
          now := 60, blogs := ["B2", "B1"] }).1 = none ∧
    ((CalculatePopularRanking .background 7
      { (CalculatePopularRanking .background 7 tiedDb).2 with
          now := 60, blogs := ["B2", "B1"] }).2.rankings.map
        (fun r => (r.blogId, r.score))).Perm
      ((CalculatePopularRanking .background 7 tiedDb).2.rankings.map
        (fun r => (r.blogId, r.score))) ∧
    (CalculatePopularRanking .background 7
      { (CalculatePopularRanking .background 7 tiedDb).2 with
          now := 60, blogs := ["B2", "B1"] }).2.rankings.map
        (fun r => (r.rankingPosition, r.score)) =
      (CalculatePopularRanking .background 7 tiedDb).2.rankings.map
        (fun r => (r.rankingPosition, r.score)) ∧
    (CalculatePopularRanking .background 7
      { (CalculatePopularRanking .background 7 scenarioDb).2 with now := 1000060 }).2.rankings.map
        RankingRow.content =
      (CalculatePopularRanking .background 7 scenarioDb).2.rankings.map RankingRow.content :=
  ⟨((calculatePopularRanking_same_scores .background .background 7 tiedDb
      { (CalculatePopularRanking .background 7 tiedDb).2 with
          now := 60, blogs := ["B2", "B1"] }
      rfl rfl (by decide) (List.Perm.refl _) (by decide) rfl).1 (by decide)).1,
    ((calculatePopularRanking_same_scores .background .background 7 tiedDb
      { (CalculatePopularRanking .background 7 tiedDb).2 with
          now := 60, blogs := ["B2", "B1"] }
      rfl rfl (by decide) (List.Perm.refl _) (by decide) rfl).1 (by decide)).2,
    (calculatePopularRanking_same_scores .background .background 7 tiedDb
      { (CalculatePopularRanking .background 7 tiedDb).2 with
          now := 60, blogs := ["B2", "B1"] }
      rfl rfl (by decide) (List.Perm.refl _) (by decide) rfl).2.1,
    (calculatePopularRanking_same_scores .background .background 7 tiedDb
      { (CalculatePopularRanking .background 7 tiedDb).2 with
          now := 60, blogs := ["B2", "B1"] }
      rfl rfl (by decide) (List.Perm.refl _) (by decide) rfl).2.2.1,
    (calculatePopularRanking_same_scores .background .background 7 scenarioDb
      { (CalculatePopularRanking .background 7 scenarioDb).2 with now := 1000060 }
      rfl rfl (List.Perm.refl _) (List.Perm.refl _) (by decide) rfl).2.2.2 rfl⟩

end Myblog
